import Mathlib

/-!
Verification of the rollbar-js-wizard Next.js setup wizard.

This file shallowly embeds the wizard's idempotent project-mutation engine
(`src/nextjs/wizard.ts`, `src/utils/project.ts`, `src/nextjs/utils.ts`) in Lean:
the project state is a record of the files, directories and parsed manifests the
wizard probes and edits; each setup phase is a pure state transformer returning
the new state together with the user-facing outcomes it reports.  JavaScript
string operations (`includes`, `startsWith`, `trim`, `toLowerCase`,
`split('\n')`, truthiness) are mirrored by executable functions over `List Char`
so that every definition evaluates on concrete inputs.
-/

namespace RollbarWizard

/-! ## JavaScript string primitives (over `List Char`) -/

/-- `chPrefix p l` decides whether the character list `p` is a prefix of `l`
(the list-level core of JavaScript `String.prototype.startsWith`). -/
def chPrefix : List Char → List Char → Bool
  | [], _ => true
  | _ :: _, [] => false
  | a :: as, b :: bs => if a = b then chPrefix as bs else false

/-- `chInfix p l` decides whether `p` occurs as a contiguous substring of `l`
(the list-level core of JavaScript `String.prototype.includes`). -/
def chInfix (p : List Char) : List Char → Bool
  | [] => chPrefix p []
  | c :: t => chPrefix p (c :: t) || chInfix p t

/-- JavaScript `value.includes(sub)`. -/
def strContains (s sub : String) : Bool := chInfix sub.data s.data

/-- JavaScript `value.startsWith(pre)`. -/
def strStartsWith (s pre : String) : Bool := chPrefix pre.data s.data

/-- ASCII whitespace recognised by the model of JavaScript `trim` (the source
only ever trims ASCII content). -/
def isJsWhitespace (c : Char) : Bool :=
  c = ' ' || c = '\t' || c = '\n' || c = '\r' || c = '\x0b' || c = '\x0c'

/-- JavaScript `value.trim()` (ASCII whitespace). -/
def jsTrim (s : String) : String :=
  String.mk (((s.data.dropWhile isJsWhitespace).reverse.dropWhile isJsWhitespace).reverse)

/-- JavaScript `value.toLowerCase()` (ASCII range, which is all the wizard compares). -/
def jsToLowerCase (s : String) : String :=
  String.mk (s.data.map (fun c => if 'A' ≤ c ∧ c ≤ 'Z' then Char.ofNat (c.toNat + 32) else c))

/-- JavaScript `value.split('\n')` on the underlying character list. -/
def splitOnNl : List Char → List (List Char)
  | [] => [[]]
  | c :: t =>
    if c = '\n' then [] :: splitOnNl t
    else
      match splitOnNl t with
      | [] => [[c]]
      | h :: r => (c :: h) :: r

/-- JavaScript `value.split('\n')`, producing strings. -/
def splitLines (s : String) : List String := (splitOnNl s.data).map String.mk

/-- JavaScript truthiness of an optional string field (`undefined` and `''` are falsy). -/
def jsTruthy : Option String → Bool
  | none => false
  | some v => !(v = "")

/-- JavaScript `a || b` for an optional string `a` with string default `b`. -/
def jsOrDefault (a : Option String) (b : String) : String :=
  match a with
  | none => b
  | some v => if v = "" then b else v

/-! ### Specification lemmas for the string primitives -/

theorem chPrefix_iff (p l : List Char) : chPrefix p l = true ↔ p <+: l := by
  induction p generalizing l with
  | nil => simp [chPrefix]
  | cons a as ih =>
    cases l with
    | nil => simp [chPrefix]
    | cons b bs =>
      by_cases hab : a = b
      · subst hab
        simp [chPrefix, ih, List.cons_prefix_cons]
      · simp [chPrefix, hab, List.cons_prefix_cons]

theorem chInfix_iff (p l : List Char) : chInfix p l = true ↔ p <:+: l := by
  induction l with
  | nil =>
    cases p <;> simp [chInfix, chPrefix, List.infix_nil]
  | cons c t ih =>
    simp [chInfix, chPrefix_iff, ih, List.infix_cons_iff]

theorem chInfix_append_right (p a b : List Char) (h : chInfix p b = true) :
    chInfix p (a ++ b) = true := by
  rw [chInfix_iff] at h ⊢
  exact h.trans (List.suffix_append a b).isInfix

theorem chInfix_append_left (p a b : List Char) (h : chInfix p a = true) :
    chInfix p (a ++ b) = true := by
  rw [chInfix_iff] at h ⊢
  exact h.trans (List.prefix_append a b).isInfix

/-- If a pattern avoiding the character `sep` is a prefix of `u ++ sep :: w`,
it is already a prefix of `u`. -/
theorem chPrefix_before_sep (p : List Char) (sep : Char) (hsep : sep ∉ p) :
    ∀ u w : List Char, chPrefix p (u ++ sep :: w) = true → chPrefix p u = true := by
  induction p with
  | nil => intro u w _; simp [chPrefix]
  | cons c p' ih =>
    intro u w h
    cases u with
    | nil =>
      simp only [List.nil_append, chPrefix] at h
      split at h
      · rename_i hc
        exact absurd hc.symm (fun hx => hsep (hx ▸ List.mem_cons_self c p'))
      · exact absurd h (by simp)
    | cons y u' =>
      simp only [List.cons_append, chPrefix] at h ⊢
      split at h
      · rename_i hc
        rw [if_pos hc]
        exact ih (fun hm => hsep (List.mem_cons_of_mem c hm)) u' w h
      · exact absurd h (by simp)

/-- An occurrence of a pattern avoiding `sep` inside `a ++ sep :: b` lies
entirely inside `a` or entirely inside `b`. -/
theorem chInfix_sep_split (p : List Char) (sep : Char) (hsep : sep ∉ p) :
    ∀ a b : List Char, chInfix p (a ++ sep :: b) = true →
      chInfix p a = true ∨ chInfix p b = true := by
  intro a
  induction a with
  | nil =>
    intro b h
    simp only [List.nil_append, chInfix, Bool.or_eq_true] at h
    rcases h with h | h
    · cases p with
      | nil => left; simp [chInfix, chPrefix]
      | cons c p' =>
        simp only [chPrefix] at h
        split at h
        · rename_i hc
          exact absurd hc.symm (fun hx => hsep (hx ▸ List.mem_cons_self c p'))
        · exact absurd h (by simp)
    · right; exact h
  | cons x a' ih =>
    intro b h
    simp only [List.cons_append, chInfix, Bool.or_eq_true] at h
    rcases h with h | h
    · have hx : chPrefix p (x :: a') = true := by
        have := chPrefix_before_sep p sep hsep (x :: a') b
        simpa using this h
      left
      cases a' <;> simp [chInfix, hx]
    · rcases ih b h with h' | h'
      · left
        cases a' with
        | nil => simp [chInfix] at h' ⊢; simp_all [chPrefix]
        | cons z t => simp [chInfix] at h' ⊢; tauto
      · right; exact h'

/-- Contrapositive form of `chInfix_sep_split`, used to show that appended
blocks introduce no new occurrence of a key. -/
theorem chInfix_glue (p : List Char) (sep : Char) (hsep : sep ∉ p) (a b : List Char)
    (ha : chInfix p a = false) (hb : chInfix p b = false) :
    chInfix p (a ++ sep :: b) = false := by
  by_contra h
  rcases chInfix_sep_split p sep hsep a b (by revert h; cases chInfix p (a ++ sep :: b) <;> simp) with h' | h'
  · rw [ha] at h'; cases h'
  · rw [hb] at h'; cases h'

theorem strData_append (a b : String) : (a ++ b).data = a.data ++ b.data := rfl

end RollbarWizard

namespace RollbarWizard

/-! ## Data model

The wizard manipulates, per run: plain files (keyed by their path segments
relative to the project root), directories, the parsed `package.json` manifest
and the parsed `tsconfig.json`.  The two manifests are read and written through
JSON (`fs-extra.readJson` / `JSON.parse`), so they are modelled structurally. -/

/-- Parsed `package.json` (`PackageJson` in `src/utils/project.ts`, plus the
`"type": "module"` flag read by `setupNextjsConfig`). -/
structure PackageJson where
  typeModule : Bool
  dependencies : String → Option String
  devDependencies : String → Option String
  scripts : String → Option String

/-- The project state the wizard probes and mutates.  `tsconfig` is `none` when
no `tsconfig.json` file exists, `some none` when the file exists but is not
parseable JSON, and `some (some excl)` for a parsed file with exclude list
`excl` (an absent `exclude` key behaves as `[]`, exactly as the source
materialises it). `packageJson` is `none` when `package.json` is missing or
unreadable (`getPackageJson` returns `null` in both cases). -/
structure ProjState where
  fileAt : List String → Option String
  dirAt : List String → Bool
  packageJson : Option PackageJson
  tsconfig : Option (Option (List String))

/-- `fs.promises.writeFile` (creating or overwriting one path). -/
def writeFile (p : List String) (v : String) (s : ProjState) : ProjState :=
  { s with fileAt := fun q => if q = p then some v else s.fileAt q }

/-- `fs.mkdirSync` at one directory path. -/
def mkdir (p : List String) (s : ProjState) : ProjState :=
  { s with dirAt := fun q => if q = p then true else s.dirAt q }

/-- Writing the manifest back (`fs.promises.writeFile(packageJsonPath, JSON.stringify ...)`). -/
def setPackageJson (pj : PackageJson) (s : ProjState) : ProjState :=
  { s with packageJson := some pj }

/-- Writing `tsconfig.json` back. -/
def setTsconfig (t : Option (Option (List String))) (s : ProjState) : ProjState :=
  { s with tsconfig := t }

@[simp] theorem writeFile_fileAt (p : List String) (v : String) (s : ProjState) (q : List String) :
    (writeFile p v s).fileAt q = if q = p then some v else s.fileAt q := rfl

@[simp] theorem writeFile_dirAt (p : List String) (v : String) (s : ProjState) (q : List String) :
    (writeFile p v s).dirAt q = s.dirAt q := rfl

@[simp] theorem writeFile_packageJson (p : List String) (v : String) (s : ProjState) :
    (writeFile p v s).packageJson = s.packageJson := rfl

@[simp] theorem writeFile_tsconfig (p : List String) (v : String) (s : ProjState) :
    (writeFile p v s).tsconfig = s.tsconfig := rfl

@[simp] theorem mkdir_fileAt (p : List String) (s : ProjState) (q : List String) :
    (mkdir p s).fileAt q = s.fileAt q := rfl

@[simp] theorem mkdir_dirAt (p : List String) (s : ProjState) (q : List String) :
    (mkdir p s).dirAt q = if q = p then true else s.dirAt q := rfl

@[simp] theorem mkdir_packageJson (p : List String) (s : ProjState) :
    (mkdir p s).packageJson = s.packageJson := rfl

@[simp] theorem mkdir_tsconfig (p : List String) (s : ProjState) :
    (mkdir p s).tsconfig = s.tsconfig := rfl

@[simp] theorem setPackageJson_fileAt (pj : PackageJson) (s : ProjState) (q : List String) :
    (setPackageJson pj s).fileAt q = s.fileAt q := rfl

@[simp] theorem setPackageJson_dirAt (pj : PackageJson) (s : ProjState) (q : List String) :
    (setPackageJson pj s).dirAt q = s.dirAt q := rfl

@[simp] theorem setPackageJson_packageJson (pj : PackageJson) (s : ProjState) :
    (setPackageJson pj s).packageJson = some pj := rfl

@[simp] theorem setPackageJson_tsconfig (pj : PackageJson) (s : ProjState) :
    (setPackageJson pj s).tsconfig = s.tsconfig := rfl

@[simp] theorem setTsconfig_fileAt (t : Option (Option (List String))) (s : ProjState) (q : List String) :
    (setTsconfig t s).fileAt q = s.fileAt q := rfl

@[simp] theorem setTsconfig_dirAt (t : Option (Option (List String))) (s : ProjState) (q : List String) :
    (setTsconfig t s).dirAt q = s.dirAt q := rfl

@[simp] theorem setTsconfig_packageJson (t : Option (Option (List String))) (s : ProjState) :
    (setTsconfig t s).packageJson = s.packageJson := rfl

@[simp] theorem setTsconfig_tsconfig (t : Option (Option (List String))) (s : ProjState) :
    (setTsconfig t s).tsconfig = t := rfl

theorem ProjState.ext' {s t : ProjState}
    (hf : ∀ q, s.fileAt q = t.fileAt q) (hd : ∀ q, s.dirAt q = t.dirAt q)
    (hp : s.packageJson = t.packageJson) (ht : s.tsconfig = t.tsconfig) : s = t := by
  cases s; cases t
  simp only [ProjState.mk.injEq]
  exact ⟨funext hf, funext hd, hp, ht⟩

/-- Rewriting a file with the bytes it already holds does not change the state. -/
theorem writeFile_self {p : List String} {v : String} {s : ProjState}
    (h : s.fileAt p = some v) : writeFile p v s = s := by
  refine ProjState.ext' (fun q => ?_) (fun _ => rfl) rfl rfl
  by_cases hq : q = p
  · subst hq; simp [h]
  · simp [hq]

/-- Creating a directory that already exists does not change the state. -/
theorem mkdir_self {p : List String} {s : ProjState} (h : s.dirAt p = true) : mkdir p s = s := by
  refine ProjState.ext' (fun _ => rfl) (fun q => ?_) rfl rfl
  by_cases hq : q = p
  · subst hq; simp [h]
  · simp [hq]

theorem setPackageJson_self {pj : PackageJson} {s : ProjState}
    (h : s.packageJson = some pj) : setPackageJson pj s = s := by
  exact ProjState.ext' (fun _ => rfl) (fun _ => rfl) (by simp [h]) rfl

/-! ## Wizard records -/

/-- Router style confirmed during the interview (`'app' | 'pages' | 'both'`). -/
inductive RouterType where
  | app
  | pages
  | both
deriving DecidableEq, Repr

/-- Package manager detected from the lockfiles. -/
inductive PackageManager where
  | npm
  | yarn
  | pnpm
deriving DecidableEq, Repr

/-- `ProjectInfo` as returned by `detectProjectStructure`. -/
structure ProjectInfo where
  hasTypescript : Bool
  hasAppRouter : Bool
  hasPagesRouter : Bool
  packageManager : PackageManager
  nextVersion : String
deriving DecidableEq, Repr

/-- The resolved configuration produced by the interview (`gatherConfiguration`),
plus the `--skip-install` CLI flag consumed by the install phase. -/
structure WizardConfig where
  accessToken : String
  clientAccessToken : String
  serverAccessToken : String
  environment : String
  enableDeployment : Bool
  codeVersion : Option String
  enableSourcemaps : Bool
  enableReplay : Bool
  routerType : RouterType
  createExamplePage : Bool
  isVercel : Bool
  vercelClientTokenEnvVar : Option String
  vercelServerTokenEnvVar : Option String
  skipInstall : Bool
deriving DecidableEq, Repr

/-- Location chosen for the instrumentation hook (`'src' | 'root'`). -/
inductive HookLocation where
  | root
  | src
deriving DecidableEq, Repr

/-- Rendered template contents.  The wizard's template functions
(`src/nextjs/templates.ts`) are pure string builders whose inputs are all fixed
for a given `(WizardConfig, ProjectInfo)` pair; no claim in scope depends on
their text, so their outputs are carried as opaque per-run strings here.  The
`next.config.*` templates and the environment/ignore/manifest text fragments,
whose contents the engine itself re-inspects, are embedded concretely below. -/
structure Templates where
  serverConfig : String
  edgeConfig : String
  clientConfig : String
  instrumentationHook : HookLocation → String
  underscoreErrorPage : List String → String
  globalErrorPage : Bool → List String → String
  uploadScript : String
  rootLayout : Bool → String
  examplePageApp : String
  exampleApiApp : String
  examplePagePages : String
  exampleApiPages : String

/-- One user-facing outcome reported by a phase: `created`/`updatedFile` are the
`clack.log.success` messages that accompany an actual write, `info` the
informational skip messages, `warned`/`errorReported` the warnings and errors,
and `prompted` an interactive confirmation. -/
inductive Outcome where
  | created (path : List String)
  | updatedFile (path : List String)
  | info (msg : String)
  | warned (msg : String)
  | errorReported (msg : String)
  | prompted (msg : String)
deriving DecidableEq, Repr

/-- Generous reading of a "skip" outcome: anything that is not an actual file
creation or update. -/
def Outcome.isSkipLike : Outcome → Bool
  | .created _ => false
  | .updatedFile _ => false
  | _ => true

/-- Result of running the wizard's action phases: final state, the outcomes in
report order, and whether the run aborted (a thrown error reaching the
top-level `catch`, or an explicit `abort()`). -/
structure RunResult where
  state : ProjState
  outcomes : List Outcome
  aborted : Bool

end RollbarWizard

namespace RollbarWizard

/-! ## Concretely embedded template fragments

These are the strings whose content the engine itself re-reads and inspects on a
later run, so they are embedded byte-for-byte from `src/nextjs/templates.ts`
(`\x7b`/`\x7d` stand for literal braces, `\x27` for an apostrophe). -/

/-- The source-maps fragment shared by the three `next.config` templates. -/
def nextjsSourceMapsFragment : String :=
  "\n  // Enable source map generation for production builds\n  // Source maps will be uploaded to Rollbar automatically after build\n  productionBrowserSourceMaps: true,\n  // Next.js 16+ uses Turbopack by default - add empty config to avoid webpack conflicts\n  turbopack: \x7b\x7d,"

/-- `getNextjsConfigCjsTemplate`. -/
def getNextjsConfigCjsTemplate (enableSourcemaps : Bool) : String :=
  "/** @type \x7bimport(\x27next\x27).NextConfig\x7d */\nconst nextConfig = \x7b" ++
    (if enableSourcemaps then nextjsSourceMapsFragment else "") ++
    "\n\x7d;\n\nmodule.exports = nextConfig;\n"

/-- `getNextjsConfigTsTemplate`. -/
def getNextjsConfigTsTemplate (enableSourcemaps : Bool) : String :=
  "import type \x7b NextConfig \x7d from \"next\";\n\nconst nextConfig: NextConfig = \x7b" ++
    (if enableSourcemaps then nextjsSourceMapsFragment else "") ++
    "\n\x7d;\n\nexport default nextConfig;\n"

/-- `getNextjsConfigMjsTemplate`. -/
def getNextjsConfigMjsTemplate (enableSourcemaps : Bool) : String :=
  "/** @type \x7bimport(\x27next\x27).NextConfig\x7d */\nconst nextConfig = \x7b" ++
    (if enableSourcemaps then nextjsSourceMapsFragment else "") ++
    "\n\x7d;\n\nexport default nextConfig;\n"

/-- The `.env.local` block appended for non-Vercel projects
(`setupEnvironmentVariables`, wizard.ts:1001). -/
def envTokenBlock (serverTok clientTok : String) : String :=
  "\n# Rollbar Configuration\nROLLBAR_PROJECT_ACCESS_SERVER_TOKEN" ++ "=" ++ serverTok ++
    "\n" ++ "NEXT_PUBLIC_ROLLBAR_PROJECT_ACCESS_CLIENT_TOKEN" ++ "=" ++ clientTok ++ "\n"

/-- The `.env.local` comment block appended for Vercel projects
(`setupEnvironmentVariables`, wizard.ts:992). -/
def envVercelBlock (clientVar serverVar : String) : String :=
  "\n# Rollbar Configuration (Vercel)\n# These environment variables are set by Vercel\x27s Rollbar integration\n# Client Token:" ++
    " " ++ clientVar ++ "\n" ++ "# Server Token:" ++ " " ++ serverVar ++ "\n"

/-- The `ROLLBAR_CODE_VERSION=...` line (wizard.ts:1009); note it does not start
with a newline. -/
def envCodeVersionLine (codeVersion : String) : String :=
  "ROLLBAR_CODE_VERSION" ++ "=" ++ codeVersion ++ "\n"

/-- The commented code-version hint (wizard.ts:1011); it does not start with a
newline either. -/
def envCodeVersionComment : String :=
  "# Set ROLLBAR_CODE_VERSION to track deployments (e.g., git commit SHA, semver, build number)\n# ROLLBAR_CODE_VERSION=your-version-here\n"

/-- The `.gitignore` block appended when `.env.local` is missing from it (wizard.ts:1023). -/
def gitignoreEnvBlock : String := "\n# Environment variables\n.env.local\n"

/-! ## Project inspection (`src/utils/project.ts`, `detectProjectStructure`) -/

/-- `getPackageJson` (`fs-extra.readJson` with a catch returning `null`):
the state carries the parse result directly. -/
def getPackageJson (s : ProjState) : Option PackageJson := s.packageJson

/-- `detectPackageManager`. -/
def detectPackageManager (s : ProjState) : PackageManager :=
  if (s.fileAt ["pnpm-lock.yaml"]).isSome then .pnpm
  else if (s.fileAt ["yarn.lock"]).isSome then .yarn
  else .npm

/-- `hasTypescript` (`fs.existsSync('tsconfig.json')`). -/
def hasTypescript (s : ProjState) : Bool := s.tsconfig.isSome

/-- `hasDirectoryPathFromRoot` (existence plus `isDirectory`). -/
def hasDirectoryPathFromRoot (s : ProjState) (p : List String) : Bool := s.dirAt p

/-- JavaScript `a || b || 'unknown'` chain over optional version strings. -/
def jsVersionOr (a b : Option String) (d : String) : String :=
  jsOrDefault a (jsOrDefault b d)

/-- `detectProjectStructure` (wizard.ts:118).  It throws when `getPackageJson`
returns `null`; every other probe is total. -/
def detectProjectStructure (s : ProjState) : Except String ProjectInfo :=
  match getPackageJson s with
  | none => Except.error "Could not find package.json"
  | some packageJson =>
    Except.ok
      { hasTypescript := hasTypescript s
        hasAppRouter := hasDirectoryPathFromRoot s ["app"] || hasDirectoryPathFromRoot s ["src", "app"]
        hasPagesRouter := hasDirectoryPathFromRoot s ["pages"] || hasDirectoryPathFromRoot s ["src", "pages"]
        packageManager := detectPackageManager s
        nextVersion := jsVersionOr (packageJson.dependencies "next") (packageJson.devDependencies "next") "unknown" }

/-! ## Interview validators (`gatherConfiguration`, `checkForExitCommand`) -/

/-- `checkForExitCommand` (wizard.ts:83): `true` means the wizard aborts with
exit code 0 instead of validating the value. -/
def checkForExitCommand (value : String) : Bool :=
  jsTrim (jsToLowerCase value) = "exit"

/-- Result of one prompt validator. -/
inductive TokenValidation where
  | exitWizard
  | rejected (msg : String)
  | accepted
deriving DecidableEq, Repr

/-- `[a-fA-F0-9]`. -/
def isHexDigitChar (c : Char) : Bool :=
  ('a' ≤ c && c ≤ 'f') || ('A' ≤ c && c ≤ 'F') || ('0' ≤ c && c ≤ '9')

/-- `/^[a-fA-F0-9]{32,128}$/.test(value)`. -/
def isHexTokenString (value : String) : Bool :=
  decide (32 ≤ value.data.length) && decide (value.data.length ≤ 128) &&
    value.data.all isHexDigitChar

/-- The access-token validator used for both the server and the client token
prompts (wizard.ts:222 and wizard.ts:252; the two validators are identical up
to the wording of the required-message). -/
def accessTokenValidator (value : String) : TokenValidation :=
  if checkForExitCommand value then .exitWizard
  else if value = "" then .rejected "Access token is required"
  else
    let isPostToken := strStartsWith value "post_server_item_" || strStartsWith value "post_client_item_"
    let isHexToken := isHexTokenString value
    if !isPostToken && !isHexToken then
      .rejected "Invalid token format. Expected: post_server_item_xxx, post_client_item_xxx, or hex token (32-128 characters)"
    else .accepted

end RollbarWizard

namespace RollbarWizard

/-! ## Mutation-engine phases (`src/nextjs/wizard.ts`) -/

/-- `installPackage` (wizard.ts:90).  `installOk` is the exit status of the
package-manager subprocess; a failure logs an error and rethrows (second
component `false`), which the top-level `catch` turns into an abort. -/
def installPackage (packageName : String) (skipInstall : Bool) (installOk : String → Bool) :
    List Outcome × Bool :=
  if skipInstall then ([Outcome.info ("Skipping installation of " ++ packageName)], true)
  else if installOk packageName then
    ([Outcome.info ("Installing " ++ packageName ++ "..."),
      Outcome.info ("Installed " ++ packageName)], true)
  else
    ([Outcome.info ("Installing " ++ packageName ++ "..."),
      Outcome.errorReported ("Failed to install " ++ packageName ++ ". Please install it manually.")],
     false)

/-- `createConfigFiles` (wizard.ts:435): unconditionally (re)writes the three
wizard-owned Rollbar config files. -/
def createConfigFiles (tpl : Templates) (projectInfo : ProjectInfo) (s : ProjState) :
    ProjState × List Outcome :=
  let ext := if projectInfo.hasTypescript then "ts" else "js"
  let s1 := writeFile ["rollbar.server.config." ++ ext] tpl.serverConfig s
  let s2 := writeFile ["rollbar.edge.config." ++ ext] tpl.edgeConfig s1
  let s3 := writeFile ["rollbar.client.config." ++ ext] tpl.clientConfig s2
  (s3, [Outcome.created ["rollbar.server.config." ++ ext],
        Outcome.created ["rollbar.edge.config." ++ ext],
        Outcome.created ["rollbar.client.config." ++ ext]])

/-- `setupInstrumentationHook` (wizard.ts:787).  When root `app`/`pages`
directories exist only the root hook files are probed, otherwise only the
`src/` hook files; on a miss the file is created at root (root routing
directory present), else under `src/` when it exists, else at root.  On a hit
the wizard prints a copy-paste snippet and asks for confirmation; declining
aborts the run (third component `true`). -/
def setupInstrumentationHook (tpl : Templates) (projectInfo : ProjectInfo)
    (confirmSnippetAdded : Bool) (s : ProjState) : ProjState × List Outcome × Bool :=
  let hasRootAppDirectory := hasDirectoryPathFromRoot s ["app"]
  let hasRootPagesDirectory := hasDirectoryPathFromRoot s ["pages"]
  let hasSrcDirectory := hasDirectoryPathFromRoot s ["src"]
  let instrumentationTsExists := (s.fileAt ["instrumentation.ts"]).isSome
  let instrumentationJsExists := (s.fileAt ["instrumentation.js"]).isSome
  let srcInstrumentationTsExists := (s.fileAt ["src", "instrumentation.ts"]).isSome
  let srcInstrumentationJsExists := (s.fileAt ["src", "instrumentation.js"]).isSome
  let found : Bool :=
    if hasRootPagesDirectory || hasRootAppDirectory then
      instrumentationJsExists || instrumentationTsExists
    else
      srcInstrumentationTsExists || srcInstrumentationJsExists
  let newInstrumentationFileName :=
    "instrumentation." ++ (if projectInfo.hasTypescript then "ts" else "js")
  if !found then
    let newLoc : HookLocation :=
      if hasRootPagesDirectory || hasRootAppDirectory then .root
      else if hasSrcDirectory then .src
      else .root
    let newPath :=
      match newLoc with
      | .root => [newInstrumentationFileName]
      | .src => ["src", newInstrumentationFileName]
    (writeFile newPath (tpl.instrumentationHook newLoc) s, [Outcome.created newPath], false)
  else
    (s, [Outcome.info "Found existing instrumentation file. Please add the following code:",
         Outcome.prompted "Did you add the code to your instrumentation file?"],
     !confirmSnippetAdded)

/-- The Pages-Router location probe of `setupErrorPages` (wizard.ts:881). -/
def pagesLocationOf (s : ProjState) : Option (List String) :=
  if s.dirAt ["pages"] then some ["pages"]
  else if s.dirAt ["src", "pages"] then some ["src", "pages"]
  else none

/-- `getMaybeAppDirLocation` (`src/nextjs/utils.ts`). -/
def getMaybeAppDirLocation (s : ProjState) : Option (List String) :=
  if s.dirAt ["app"] then some ["app"]
  else if s.dirAt ["src", "app"] then some ["src", "app"]
  else none

/-- The `_error.{tsx,ts,jsx,js}` variant probe of `setupErrorPages` (wizard.ts:891). -/
def underscoreErrorExists (s : ProjState) (loc : List String) : Bool :=
  (s.fileAt (loc ++ ["_error.tsx"])).isSome || (s.fileAt (loc ++ ["_error.ts"])).isSome ||
  (s.fileAt (loc ++ ["_error.jsx"])).isSome || (s.fileAt (loc ++ ["_error.js"])).isSome

/-- The `global-error.{tsx,ts,jsx,js}` variant probe of `setupErrorPages` (wizard.ts:928). -/
def globalErrorExists (s : ProjState) (loc : List String) : Bool :=
  (s.fileAt (loc ++ ["global-error.tsx"])).isSome || (s.fileAt (loc ++ ["global-error.ts"])).isSome ||
  (s.fileAt (loc ++ ["global-error.jsx"])).isSome || (s.fileAt (loc ++ ["global-error.js"])).isSome

/-- The Pages-Router half of `setupErrorPages` (wizard.ts:876-921). -/
def setupPagesUnderscoreError (tpl : Templates) (projectInfo : ProjectInfo) (s : ProjState) :
    ProjState × List Outcome :=
  match pagesLocationOf s with
  | none => (s, [])
  | some loc =>
    if underscoreErrorExists s loc then (s, [])
    else
      let underscoreErrorFileName :=
        "_error." ++ (if projectInfo.hasTypescript then "tsx" else "jsx")
      (writeFile (loc ++ [underscoreErrorFileName]) (tpl.underscoreErrorPage loc) s,
       [Outcome.created (loc ++ [underscoreErrorFileName])])

/-- The App-Router half of `setupErrorPages` (wizard.ts:924-967). -/
def setupAppGlobalError (tpl : Templates) (projectInfo : ProjectInfo) (s : ProjState) :
    ProjState × List Outcome :=
  match getMaybeAppDirLocation s with
  | none => (s, [])
  | some loc =>
    if globalErrorExists s loc then (s, [])
    else
      let newGlobalErrorFileName :=
        "global-error." ++ (if projectInfo.hasTypescript then "tsx" else "jsx")
      (writeFile (loc ++ [newGlobalErrorFileName])
          (tpl.globalErrorPage projectInfo.hasTypescript loc) s,
       [Outcome.created (loc ++ [newGlobalErrorFileName])])

/-- `setupErrorPages` (wizard.ts:871): probes the fixed variant sets
`_error.{tsx,ts,jsx,js}` under the pages directory and
`global-error.{tsx,ts,jsx,js}` under the app directory, creating a default page
only when every variant is absent. -/
def setupErrorPages (tpl : Templates) (projectInfo : ProjectInfo) (routerType : RouterType)
    (s : ProjState) : ProjState × List Outcome :=
  let (s1, o1) :=
    if routerType = RouterType.pages || routerType = RouterType.both then
      setupPagesUnderscoreError tpl projectInfo s
    else (s, ([] : List Outcome))
  let (s2, o2) :=
    if routerType = RouterType.app || routerType = RouterType.both then
      setupAppGlobalError tpl projectInfo s1
    else (s1, ([] : List Outcome))
  (s2, o1 ++ o2)

/-- The `.env.local` content computation of `setupEnvironmentVariables`
(wizard.ts:983-1013): append the missing token block (non-Vercel) or comment
block (Vercel), then the code-version line or hint. -/
def newEnvContent (config : WizardConfig) (envContent0 : String) : String :=
  let envContent1 :=
    if config.isVercel then
      if !(strContains envContent0 "# Rollbar Configuration") then
        envContent0 ++
          envVercelBlock (jsOrDefault config.vercelClientTokenEnvVar "VERCEL_ROLLBAR_CLIENT_TOKEN")
            (jsOrDefault config.vercelServerTokenEnvVar "VERCEL_ROLLBAR_SERVER_TOKEN")
      else envContent0
    else
      if !(strContains envContent0 "ROLLBAR_PROJECT_ACCESS_SERVER_TOKEN") then
        envContent0 ++ envTokenBlock config.serverAccessToken config.clientAccessToken
      else envContent0
  if config.enableDeployment && jsTruthy config.codeVersion &&
      !(strContains envContent1 "ROLLBAR_CODE_VERSION") then
    envContent1 ++ envCodeVersionLine (config.codeVersion.getD "")
  else if config.enableDeployment && !(strContains envContent1 "ROLLBAR_CODE_VERSION") then
    envContent1 ++ envCodeVersionComment
  else envContent1

/-- `setupEnvironmentVariables` (wizard.ts:970): appends the missing token or
Vercel comment block and the code-version line to `.env.local`, writes it back,
and ensures `.env.local` is listed in an already existing `.gitignore`. -/
def setupEnvironmentVariables (config : WizardConfig) (s : ProjState) :
    ProjState × List Outcome :=
  let envContent2 := newEnvContent config ((s.fileAt [".env.local"]).getD "")
  let s1 := writeFile [".env.local"] envContent2 s
  match s1.fileAt [".gitignore"] with
  | none => (s1, [Outcome.updatedFile [".env.local"]])
  | some gitignoreContent =>
    if !(strContains gitignoreContent ".env.local") then
      (writeFile [".gitignore"] (gitignoreContent ++ gitignoreEnvBlock) s1,
       [Outcome.updatedFile [".env.local"], Outcome.updatedFile [".gitignore"]])
    else (s1, [Outcome.updatedFile [".env.local"]])

/-- The per-line filter of `setupNextjsConfig`'s near-empty-config heuristic
(wizard.ts:527). -/
def isMeaningfulConfigLine (line : String) : Bool :=
  !(strStartsWith (jsTrim line) "//") && !(jsTrim line = "") &&
  !(strStartsWith (jsTrim line) "import") && !(strStartsWith (jsTrim line) "export") &&
  !(strStartsWith (jsTrim line) "const") && !(strStartsWith (jsTrim line) "module.exports") &&
  !(strContains line "NextConfig")

/-- `configContent.trim().split('\n').filter(...)` (wizard.ts:527). -/
def meaningfulConfigLines (content : String) : List String :=
  (splitLines (jsTrim content)).filter isMeaningfulConfigLine

/-- The `isEmptyConfig` heuristic (wizard.ts:525). -/
def isEmptyNextConfig (content : String) : Bool :=
  strContains content "/* config options here */" ||
    decide ((meaningfulConfigLines content).length ≤ 2)

/-- The three-way branch of wizard.ts:529-554 on an existing config's content:
overwrite with the template, warn the user to add the setting manually, or keep
the file. -/
inductive NextConfigAction where
  | overwrite
  | warnManual
  | keepExisting
deriving DecidableEq, Repr

/-- The decision taken on an existing `next.config.*` content (wizard.ts:521-529):
overwrite when the near-empty heuristic fires **or** `productionBrowserSourceMaps`
is absent; otherwise the warn branch of wizard.ts:548 or the info branch. -/
def nextConfigAction (configContent : String) : NextConfigAction :=
  let hasProductionBrowserSourceMaps := strContains configContent "productionBrowserSourceMaps"
  let isEmptyConfig := isEmptyNextConfig configContent
  if isEmptyConfig || !hasProductionBrowserSourceMaps then NextConfigAction.overwrite
  else if !hasProductionBrowserSourceMaps then NextConfigAction.warnManual
  else NextConfigAction.keepExisting

/-- `setupNextjsConfig` (wizard.ts:486).  With source maps enabled it inspects
an existing `next.config.{js,mjs,ts}` (in that priority order) and rewrites it
from the template when the heuristic says it is near-empty **or** it lacks
`productionBrowserSourceMaps`; with no config present it creates one whose
flavour is chosen from `"type": "module"` and the TypeScript flag. -/
def setupNextjsConfig (config : WizardConfig) (projectInfo : ProjectInfo) (s : ProjState) :
    ProjState × List Outcome :=
  let hasNextConfigJs := (s.fileAt ["next.config.js"]).isSome
  let hasNextConfigMjs := (s.fileAt ["next.config.mjs"]).isSome
  let hasNextConfigTs := (s.fileAt ["next.config.ts"]).isSome
  if config.enableSourcemaps then
    if hasNextConfigJs || hasNextConfigMjs || hasNextConfigTs then
      let configPath : List String :=
        if hasNextConfigJs then ["next.config.js"]
        else if hasNextConfigMjs then ["next.config.mjs"]
        else ["next.config.ts"]
      let configContent : String :=
        if hasNextConfigJs then (s.fileAt ["next.config.js"]).getD ""
        else if hasNextConfigMjs then (s.fileAt ["next.config.mjs"]).getD ""
        else (s.fileAt ["next.config.ts"]).getD ""
      match nextConfigAction configContent with
      | NextConfigAction.overwrite =>
        let newConfigContent :=
          if hasNextConfigTs then getNextjsConfigTsTemplate config.enableSourcemaps
          else if hasNextConfigMjs then getNextjsConfigMjsTemplate config.enableSourcemaps
          else getNextjsConfigCjsTemplate config.enableSourcemaps
        (writeFile configPath newConfigContent s, [Outcome.updatedFile configPath])
      | NextConfigAction.warnManual =>
        (s, [Outcome.warned "Please add productionBrowserSourceMaps: true to your Next.js config file to enable source map generation."])
      | NextConfigAction.keepExisting =>
        (s, [Outcome.info "Found source map configuration"])
    else
      let packageJson := getPackageJson s
      let isEsm := match packageJson with | some pj => pj.typeModule | none => false
      if projectInfo.hasTypescript && (s.fileAt ["next.config.ts"]).isSome then
        (writeFile ["next.config.ts"] (getNextjsConfigTsTemplate config.enableSourcemaps) s,
         [Outcome.created ["next.config.ts"]])
      else if isEsm || projectInfo.hasTypescript then
        (writeFile ["next.config.mjs"] (getNextjsConfigMjsTemplate config.enableSourcemaps) s,
         [Outcome.created ["next.config.mjs"]])
      else
        (writeFile ["next.config.js"] (getNextjsConfigCjsTemplate config.enableSourcemaps) s,
         [Outcome.created ["next.config.js"]])
  else (s, [])

end RollbarWizard

namespace RollbarWizard

/-- The pinned fallback versions used when the wizard has to add a dependency to
`package.json` itself (wizard.ts:690, `packageVersions[pkg] || 'latest'`). -/
def packageVersionFor (pkg : String) : String :=
  if pkg = "form-data" then "^4.0.0"
  else if pkg = "node-fetch" then "^3.3.2"
  else if pkg = "glob" then "^13.0.0"
  else if pkg = "tsx" then "^4.20.6"
  else if pkg = "@types/glob" then "^8.0.0"
  else "latest"

/-- The explicit `devDependencies` update of wizard.ts:698: every missing
package whose `devDependencies` entry is still falsy gets the pinned version. -/
def addMissingDevDeps (missing : List String) (devDeps : String → Option String) :
    String → Option String :=
  missing.foldl
    (fun acc pkg =>
      if jsTruthy (acc pkg) then acc
      else fun q => if q = pkg then some (packageVersionFor pkg) else acc q)
    devDeps

/-- `excludeScriptsFromTypeChecking` (wizard.ts:750): for TypeScript projects
with a parseable `tsconfig.json`, push `"scripts"` onto the exclude list if it
is not there yet; an unparseable file only produces a warning. -/
def excludeScriptsFromTypeChecking (projectInfo : ProjectInfo) (s : ProjState) :
    ProjState × List Outcome :=
  if !projectInfo.hasTypescript then (s, [])
  else
    match s.tsconfig with
    | none => (s, [])
    | some none =>
      (s, [Outcome.warned "Could not update tsconfig.json to exclude scripts directory"])
    | some (some excl) =>
      if !(excl.any (fun x => decide (x = "scripts"))) then
        (setTsconfig (some (some (excl ++ ["scripts"]))) s,
         [Outcome.updatedFile ["tsconfig.json"]])
      else (s, [])

/-- The upload helper's dependency list (wizard.ts:615). -/
def requiredUploadPackages (projectInfo : ProjectInfo) : List String :=
  ["form-data", "node-fetch", "glob"] ++
    (if projectInfo.hasTypescript then ["tsx", "@types/glob"] else [])

/-- `missingPackages` (wizard.ts:622): required packages with a falsy entry in
both dependency maps (or no readable manifest at all). -/
def missingUploadPackages (projectInfo : ProjectInfo) (s : ProjState) : List String :=
  (requiredUploadPackages projectInfo).filter (fun pkg =>
    !(jsTruthy ((getPackageJson s).bind (fun pj => pj.dependencies pkg))) &&
    !(jsTruthy ((getPackageJson s).bind (fun pj => pj.devDependencies pkg))))

/-- The explicit manifest update of wizard.ts:681-710: when packages are still
missing and the manifest is readable, write them into `devDependencies`. -/
def ensureUploadDependencies (projectInfo : ProjectInfo) (s : ProjState) :
    ProjState × List Outcome :=
  match getPackageJson s with
  | some updatedPackageJson =>
    if (missingUploadPackages projectInfo s).isEmpty then (s, [])
    else
      (setPackageJson
        { updatedPackageJson with
          devDependencies :=
            addMissingDevDeps (missingUploadPackages projectInfo s)
              updatedPackageJson.devDependencies }
        s,
       [Outcome.updatedFile ["package.json"]])
  | none => (s, [])

/-- The `postbuild` script edit of wizard.ts:712-744: set it when absent or
JavaScript-falsy, append `&& <runner> scripts/upload-sourcemaps.<ext>` when it
does not mention `upload-sourcemaps`, and leave it alone otherwise. -/
def addPostbuildScript (projectInfo : ProjectInfo) (s : ProjState) :
    ProjState × List Outcome :=
  match getPackageJson s with
  | none => (s, [])
  | some finalPackageJson =>
    let scriptExt := if projectInfo.hasTypescript then "ts" else "js"
    let runner := if projectInfo.hasTypescript then "tsx" else "node"
    let uploadCmd := runner ++ " scripts/upload-sourcemaps." ++ scriptExt
    if !(jsTruthy (finalPackageJson.scripts "postbuild")) then
      (setPackageJson
        { finalPackageJson with
          scripts := fun q => if q = "postbuild" then some uploadCmd else finalPackageJson.scripts q }
        s,
       [Outcome.updatedFile ["package.json"]])
    else
      let postbuild := (finalPackageJson.scripts "postbuild").getD ""
      if !(strContains postbuild "upload-sourcemaps") then
        (setPackageJson
          { finalPackageJson with
            scripts := fun q =>
              if q = "postbuild" then some (postbuild ++ " && " ++ uploadCmd)
              else finalPackageJson.scripts q }
          s,
         [Outcome.updatedFile ["package.json"]])
      else (s, [Outcome.info "postbuild script already includes source map upload"])

/-- `setupSourceMapUploadScript` (wizard.ts:587): create `scripts/`, (re)write
the upload helper, make sure the helper's dependencies are present in the
manifest, add or extend the `postbuild` script, and exclude `scripts/` from
type checking.  The `execSync` package-manager invocations only stream to the
console and are awaited for their exit code; their effect on `node_modules` is
outside the model, while the explicit `package.json` update below is the
wizard's own write. -/
def setupSourceMapUploadScript (tpl : Templates) (projectInfo : ProjectInfo) (s : ProjState) :
    ProjState × List Outcome :=
  let s1 := if !(s.dirAt ["scripts"]) then mkdir ["scripts"] s else s
  let scriptExt := if projectInfo.hasTypescript then "ts" else "js"
  let scriptPath := ["scripts", "upload-sourcemaps." ++ scriptExt]
  let s2 := writeFile scriptPath tpl.uploadScript s1
  let oInstall :=
    if (missingUploadPackages projectInfo s2).isEmpty then ([] : List Outcome)
    else [Outcome.info "Installing required packages",
          Outcome.info "Syncing lockfile with package.json..."]
  let (s3, o3) := ensureUploadDependencies projectInfo s2
  let (s4, o4) := addPostbuildScript projectInfo s3
  let (s5, o5) := excludeScriptsFromTypeChecking projectInfo s4
  (s5, [Outcome.created scriptPath] ++ oInstall ++ o3 ++ o4 ++ o5)

/-- `createExamplePage` (wizard.ts:1029): example page and API route under the
app directory when one exists (creating a root layout if missing), else under
the pages directory, which is itself created (under `src/` when a `src`
directory exists) when no routing directory is present at all. -/
def createExamplePage (tpl : Templates) (projectInfo : ProjectInfo) (s : ProjState) :
    ProjState × List Outcome :=
  let hasSrcDirectory := hasDirectoryPathFromRoot s ["src"]
  let hasRootAppDirectory := hasDirectoryPathFromRoot s ["app"]
  let hasRootPagesDirectory := hasDirectoryPathFromRoot s ["pages"]
  let hasSrcAppDirectory := hasDirectoryPathFromRoot s ["src", "app"]
  let hasSrcPagesDirectory := hasDirectoryPathFromRoot s ["src", "pages"]
  let appFolderLocation : Option (List String) :=
    if hasRootAppDirectory then some ["app"]
    else if hasSrcAppDirectory then some ["src", "app"]
    else none
  match appFolderLocation with
  | some appLoc =>
    let hasRootLayout :=
      (s.fileAt (appLoc ++ ["layout.jsx"])).isSome ||
      (s.fileAt (appLoc ++ ["layout.tsx"])).isSome ||
      (s.fileAt (appLoc ++ ["layout.js"])).isSome
    let (s1, o1) :=
      if !hasRootLayout then
        let layoutName := "layout." ++ (if projectInfo.hasTypescript then "tsx" else "jsx")
        (writeFile (appLoc ++ [layoutName]) (tpl.rootLayout projectInfo.hasTypescript) s,
         [Outcome.created (appLoc ++ [layoutName])])
      else (s, ([] : List Outcome))
    let s2 := mkdir (appLoc ++ ["rollbar-example-page"]) s1
    let pageName := "page." ++ (if projectInfo.hasTypescript then "tsx" else "jsx")
    let s3 := writeFile (appLoc ++ ["rollbar-example-page", pageName]) tpl.examplePageApp s2
    let s4 := mkdir (appLoc ++ ["api", "rollbar-example-api"]) s3
    let routeName := "route." ++ (if projectInfo.hasTypescript then "ts" else "js")
    let s5 := writeFile (appLoc ++ ["api", "rollbar-example-api", routeName]) tpl.exampleApiApp s4
    (s5, o1 ++ [Outcome.created (appLoc ++ ["rollbar-example-page", pageName]),
                Outcome.created (appLoc ++ ["api", "rollbar-example-api", routeName])])
  | none =>
    let (s1, pagesLoc) :=
      if hasRootPagesDirectory then (s, ["pages"])
      else if hasSrcPagesDirectory then (s, ["src", "pages"])
      else
        let newLoc := if hasSrcDirectory then ["src", "pages"] else ["pages"]
        (mkdir newLoc s, newLoc)
    let pageName := "rollbar-example-page." ++ (if projectInfo.hasTypescript then "tsx" else "jsx")
    let s2 := writeFile (pagesLoc ++ [pageName]) tpl.examplePagePages s1
    let s3 := mkdir (pagesLoc ++ ["api"]) s2
    let apiName := "rollbar-example-api." ++ (if projectInfo.hasTypescript then "ts" else "js")
    let s4 := writeFile (pagesLoc ++ ["api", apiName]) tpl.exampleApiPages s3
    (s4, [Outcome.created (pagesLoc ++ [pageName]),
          Outcome.created (pagesLoc ++ ["api", apiName])])

/-- The action phases of `runNextjsWizard` (wizard.ts:1273-1330), run after the
interview has produced `config` and `detectProjectStructure` has produced
`projectInfo`: token guard, the two mandatory package installs (whose failure
is rethrown and caught at wizard.ts:1362, aborting), config-file creation,
instrumentation hook, error pages, environment variables, then — with source
maps enabled — Next.js config and upload script, and finally the optional
example page. -/
def runNextjsWizardPhases (tpl : Templates) (config : WizardConfig) (projectInfo : ProjectInfo)
    (installOk : String → Bool) (confirmSnippetAdded : Bool) (s : ProjState) : RunResult :=
  if !config.isVercel && (config.serverAccessToken = "" || config.clientAccessToken = "") then
    { state := s,
      outcomes := [Outcome.errorReported "Both server and client access tokens are required."],
      aborted := true }
  else
    let (o1, ok1) := installPackage "rollbar@^3.0.0-rc.1" config.skipInstall installOk
    if !ok1 then
      { state := s, outcomes := o1 ++ [Outcome.errorReported "Setup failed"], aborted := true }
    else
      let (o2, ok2) := installPackage "@rollbar/react" config.skipInstall installOk
      if !ok2 then
        { state := s, outcomes := o1 ++ o2 ++ [Outcome.errorReported "Setup failed"],
          aborted := true }
      else
        let (s3, o3) := createConfigFiles tpl projectInfo s
        let (s4, o4, abort4) := setupInstrumentationHook tpl projectInfo confirmSnippetAdded s3
        if abort4 then
          { state := s4, outcomes := o1 ++ o2 ++ o3 ++ o4, aborted := true }
        else
          let (s5, o5) := setupErrorPages tpl projectInfo config.routerType s4
          let (s6, o6) := setupEnvironmentVariables config s5
          let (s7, o7) :=
            if config.enableSourcemaps then setupNextjsConfig config projectInfo s6 else (s6, [])
          let (s8, o8) :=
            if config.enableSourcemaps then setupSourceMapUploadScript tpl projectInfo s7
            else (s7, [])
          let (s9, o9) :=
            if config.createExamplePage then createExamplePage tpl projectInfo s8 else (s8, [])
          { state := s9,
            outcomes := o1 ++ o2 ++ o3 ++ o4 ++ o5 ++ o6 ++ o7 ++ o8 ++ o9,
            aborted := false }

end RollbarWizard

namespace RollbarWizard

/-! ## Concrete fixtures used by witnesses and counterexamples -/

set_option maxRecDepth 200000

/-- A concrete template set for witness runs; the engine never inspects these
strings, so short stand-ins suffice. -/
def tpl0 : Templates :=
  { serverConfig := "server-config"
    edgeConfig := "edge-config"
    clientConfig := "client-config"
    instrumentationHook := fun loc => match loc with
      | HookLocation.root => "hook-root"
      | HookLocation.src => "hook-src"
    underscoreErrorPage := fun _ => "underscore-error-page"
    globalErrorPage := fun _ _ => "global-error-page"
    uploadScript := "upload-script"
    rootLayout := fun _ => "root-layout"
    examplePageApp := "example-page-app"
    exampleApiApp := "example-api-app"
    examplePagePages := "example-page-pages"
    exampleApiPages := "example-api-pages" }

/-- The empty project: no files, no directories, no manifests. -/
def emptyProj : ProjState :=
  { fileAt := fun _ => none, dirAt := fun _ => false, packageJson := none, tsconfig := none }

/-- An empty parsed manifest. -/
def pjEmpty : PackageJson :=
  { typeModule := false, dependencies := fun _ => none, devDependencies := fun _ => none,
    scripts := fun _ => none }

/-- A plain JavaScript project fingerprint. -/
def jsProjectInfo : ProjectInfo :=
  { hasTypescript := false, hasAppRouter := true, hasPagesRouter := false,
    packageManager := PackageManager.npm, nextVersion := "15.0.0" }

/-- A TypeScript project fingerprint. -/
def tsProjectInfo : ProjectInfo :=
  { hasTypescript := true, hasAppRouter := true, hasPagesRouter := false,
    packageManager := PackageManager.npm, nextVersion := "15.0.0" }

/-- A baseline non-Vercel configuration. -/
def baseConfig : WizardConfig :=
  { accessToken := "posttokenserver"
    clientAccessToken := "posttokenclient"
    serverAccessToken := "posttokenserver"
    environment := "production"
    enableDeployment := false
    codeVersion := none
    enableSourcemaps := true
    enableReplay := true
    routerType := RouterType.app
    createExamplePage := false
    isVercel := false
    vercelClientTokenEnvVar := none
    vercelServerTokenEnvVar := none
    skipInstall := true }

/-! ## C10: the access-token prompt validator -/

/-- C10: for every prompt value that is not the exit command, the token
validator accepts exactly the non-empty values that either carry a
`post_server_item_`/`post_client_item_` prefix or consist solely of 32 to 128
hexadecimal characters; a value whose case-insensitive trim is `exit`
terminates the wizard (exit code 0) instead of being validated. -/
theorem accessTokenValidator_spec (v : String) :
    (checkForExitCommand v = true → accessTokenValidator v = TokenValidation.exitWizard) ∧
    (checkForExitCommand v = false →
      (accessTokenValidator v = TokenValidation.accepted ↔
        (v ≠ "" ∧
          ("post_server_item_".data <+: v.data ∨ "post_client_item_".data <+: v.data ∨
            (32 ≤ v.data.length ∧ v.data.length ≤ 128 ∧ ∀ c ∈ v.data, isHexDigitChar c = true))))) := by
  constructor
  · intro h
    simp [accessTokenValidator, h]
  · intro h
    have h1 := chPrefix_iff "post_server_item_".data v.data
    have h2 := chPrefix_iff "post_client_item_".data v.data
    have h3 : isHexTokenString v = true ↔
        (32 ≤ v.data.length ∧ v.data.length ≤ 128 ∧ ∀ c ∈ v.data, isHexDigitChar c = true) := by
      simp [isHexTokenString, List.all_eq_true, and_assoc]
    by_cases hv : v = ""
    · subst hv
      simp [accessTokenValidator, h]
    · simp only [accessTokenValidator, h, Bool.false_eq_true, if_false, hv, ne_eq,
        not_false_eq_true, true_and]
      rw [← h1, ← h2, ← h3]
      unfold strStartsWith
      cases ha : chPrefix "post_server_item_".data v.data <;>
        cases hb : chPrefix "post_client_item_".data v.data <;>
          cases hc : isHexTokenString v <;> simp

/-- Witness for C10 at the concrete value `post_server_item_abc`. -/
theorem accessTokenValidator_spec_witness :
    checkForExitCommand "post_server_item_abc" = false ∧
    accessTokenValidator "post_server_item_abc" = TokenValidation.accepted :=
  ⟨by decide,
   ((accessTokenValidator_spec "post_server_item_abc").2 (by decide)).mpr
     ⟨by decide, Or.inl (by decide)⟩⟩

/-! ## C4: project inspection and the missing-manifest probe -/

/-- C4 counterexample: with `package.json` missing (or unreadable —
`getPackageJson` returns `null` either way), `detectProjectStructure` throws
`Could not find package.json` instead of degrading to an unknown fingerprint
value. -/
theorem detectProjectStructure_throws_without_manifest :
    detectProjectStructure emptyProj = Except.error "Could not find package.json" := rfl

/-- C4 amended: once `getPackageJson` succeeds, every remaining probe of
`detectProjectStructure` is total — lockfile and directory existence checks and
the `next` version lookup (which falls back to `unknown`) — so inspection
returns a fingerprint; only the missing/unreadable-manifest probe aborts. -/
theorem detectProjectStructure_ok_of_manifest (s : ProjState) (pj : PackageJson)
    (h : s.packageJson = some pj) :
    detectProjectStructure s = Except.ok
      { hasTypescript := hasTypescript s
        hasAppRouter := hasDirectoryPathFromRoot s ["app"] || hasDirectoryPathFromRoot s ["src", "app"]
        hasPagesRouter := hasDirectoryPathFromRoot s ["pages"] || hasDirectoryPathFromRoot s ["src", "pages"]
        packageManager := detectPackageManager s
        nextVersion := jsVersionOr (pj.dependencies "next") (pj.devDependencies "next") "unknown" } := by
  simp [detectProjectStructure, getPackageJson, h]

/-- Witness for C4's amended theorem on a project with an empty manifest. -/
theorem detectProjectStructure_ok_of_manifest_witness :
    detectProjectStructure { emptyProj with packageJson := some pjEmpty } = Except.ok
      { hasTypescript := false, hasAppRouter := false, hasPagesRouter := false,
        packageManager := PackageManager.npm, nextVersion := "unknown" } := by
  have := detectProjectStructure_ok_of_manifest
    { emptyProj with packageJson := some pjEmpty } pjEmpty rfl
  simpa [emptyProj, pjEmpty, hasTypescript, hasDirectoryPathFromRoot, detectPackageManager,
    jsVersionOr, jsOrDefault] using this

end RollbarWizard

namespace RollbarWizard

set_option maxRecDepth 400000

/-! ## C1: non-trivial build config lacking `productionBrowserSourceMaps` -/

/-- A genuinely non-trivial `next.config.js`: four meaningful lines after the
comment/boilerplate filter, no `productionBrowserSourceMaps`. -/
def nontrivialNextConfig : String :=
  "module.exports = \x7b\n  reactStrictMode: true,\n  swcMinify: true,\n  poweredByHeader: false,\n\x7d;\n"

/-- A project whose only relevant file is the non-trivial `next.config.js`. -/
def nextConfigProbeState : ProjState :=
  { fileAt := fun q => if q = ["next.config.js"] then some nontrivialNextConfig else none
    dirAt := fun _ => false
    packageJson := none
    tsconfig := none }

/-- C1 (code bug): the spec requires a Warn outcome with the file bytes
untouched for an existing non-trivial config lacking the setting, and the
conservative warn branch at wizard.ts:548 carries exactly that message — but
the branch is unreachable, because the condition at wizard.ts:529 already fires
whenever `productionBrowserSourceMaps` is missing.  On the concrete non-trivial
config the engine overwrites the file with its template, and in general no run
of `setupNextjsConfig` can ever produce a warn outcome. -/
theorem setupNextjsConfig_overwrites_nontrivial_config :
    2 < (meaningfulConfigLines nontrivialNextConfig).length ∧
    strContains nontrivialNextConfig "productionBrowserSourceMaps" = false ∧
    (setupNextjsConfig baseConfig jsProjectInfo nextConfigProbeState).1.fileAt ["next.config.js"] =
      some (getNextjsConfigCjsTemplate true) ∧
    getNextjsConfigCjsTemplate true ≠ nontrivialNextConfig ∧
    (setupNextjsConfig baseConfig jsProjectInfo nextConfigProbeState).2 =
      [Outcome.updatedFile ["next.config.js"]] ∧
    (∀ (config : WizardConfig) (projectInfo : ProjectInfo) (s : ProjState),
      ((setupNextjsConfig config projectInfo s).2.all
        (fun o => match o with | Outcome.warned _ => false | _ => true)) = true) := by
  have hnowarn : ∀ c, nextConfigAction c ≠ NextConfigAction.warnManual := by
    intro c
    unfold nextConfigAction
    cases hp : strContains c "productionBrowserSourceMaps" <;>
      cases he : isEmptyNextConfig c <;> simp
  refine ⟨by decide, by decide, by decide, by decide, by decide, ?_⟩
  intro config projectInfo s
  unfold setupNextjsConfig
  rcases hact : nextConfigAction
      (if (s.fileAt ["next.config.js"]).isSome = true then (s.fileAt ["next.config.js"]).getD ""
       else if (s.fileAt ["next.config.mjs"]).isSome = true then (s.fileAt ["next.config.mjs"]).getD ""
       else (s.fileAt ["next.config.ts"]).getD "") with _ | _ | _
  · simp only [hact]
    repeat' split
    all_goals simp
  · exact absurd hact (hnowarn _)
  · simp only [hact]
    repeat' split
    all_goals simp

end RollbarWizard

namespace RollbarWizard

set_option maxRecDepth 400000

/-! ## C5: instrumentation hook creation location -/

/-- C5: when no instrumentation hook exists at any probed location, the file is
created (with the `.ts` extension iff TypeScript is detected) at the project
root when a root-level `app` or `pages` directory exists; with no root routing
directory it goes under `src/` when a `src` directory exists, and to the root
otherwise. -/
theorem setupInstrumentationHook_placement (tpl : Templates) (projectInfo : ProjectInfo)
    (confirm : Bool) (s : ProjState)
    (h1 : s.fileAt ["instrumentation.ts"] = none)
    (h2 : s.fileAt ["instrumentation.js"] = none)
    (h3 : s.fileAt ["src", "instrumentation.ts"] = none)
    (h4 : s.fileAt ["src", "instrumentation.js"] = none) :
    ((s.dirAt ["pages"] || s.dirAt ["app"]) = true → projectInfo.hasTypescript = true →
      (setupInstrumentationHook tpl projectInfo confirm s).1.fileAt ["instrumentation.ts"] =
        some (tpl.instrumentationHook HookLocation.root) ∧
      (setupInstrumentationHook tpl projectInfo confirm s).2.1 =
        [Outcome.created ["instrumentation.ts"]]) ∧
    ((s.dirAt ["pages"] || s.dirAt ["app"]) = false → s.dirAt ["src"] = true →
      (setupInstrumentationHook tpl projectInfo confirm s).1.fileAt
          ["src", "instrumentation." ++ (if projectInfo.hasTypescript then "ts" else "js")] =
        some (tpl.instrumentationHook HookLocation.src) ∧
      (setupInstrumentationHook tpl projectInfo confirm s).2.1 =
        [Outcome.created ["src", "instrumentation." ++ (if projectInfo.hasTypescript then "ts" else "js")]]) ∧
    ((s.dirAt ["pages"] || s.dirAt ["app"]) = false → s.dirAt ["src"] = false →
      (setupInstrumentationHook tpl projectInfo confirm s).1.fileAt
          ["instrumentation." ++ (if projectInfo.hasTypescript then "ts" else "js")] =
        some (tpl.instrumentationHook HookLocation.root) ∧
      (setupInstrumentationHook tpl projectInfo confirm s).2.1 =
        [Outcome.created ["instrumentation." ++ (if projectInfo.hasTypescript then "ts" else "js")]]) := by
  unfold setupInstrumentationHook hasDirectoryPathFromRoot
  refine ⟨?_, ?_, ?_⟩
  · intro hroot hts
    rcases hp : s.dirAt ["pages"] <;> rcases ha : s.dirAt ["app"] <;>
      simp [hp, ha, h1, h2, h3, h4, hts] <;> simp [hp, ha] at hroot
  · intro hroot hsrc
    rcases hp : s.dirAt ["pages"] <;> rcases ha : s.dirAt ["app"] <;>
      simp [hp, ha] at hroot <;> simp [hp, ha, h1, h2, h3, h4, hsrc]
  · intro hroot hsrc
    rcases hp : s.dirAt ["pages"] <;> rcases ha : s.dirAt ["app"] <;>
      simp [hp, ha] at hroot <;> simp [hp, ha, h1, h2, h3, h4, hsrc]

/-- A project with only a root `app` directory and no instrumentation files. -/
def instrProbeState : ProjState :=
  { fileAt := fun _ => none, dirAt := fun q => decide (q = ["app"]),
    packageJson := none, tsconfig := none }

/-- Witness for C5: TypeScript project with a root `app` directory gets
`instrumentation.ts` created at the root. -/
theorem setupInstrumentationHook_placement_witness :
    (setupInstrumentationHook tpl0 tsProjectInfo true instrProbeState).1.fileAt
        ["instrumentation.ts"] = some (tpl0.instrumentationHook HookLocation.root) ∧
    (setupInstrumentationHook tpl0 tsProjectInfo true instrProbeState).2.1 =
      [Outcome.created ["instrumentation.ts"]] :=
  (setupInstrumentationHook_placement tpl0 tsProjectInfo true instrProbeState
      rfl rfl rfl rfl).1 (by decide) rfl


/-! ## C8: error-page scaffolds probe fixed variant sets -/

/-- The pages-router location, when found, is `pages` or `src/pages`. -/
theorem pagesLocationOf_shape (s : ProjState) (loc : List String)
    (h : pagesLocationOf s = some loc) : loc = ["pages"] ∨ loc = ["src", "pages"] := by
  unfold pagesLocationOf at h
  rcases hp : s.dirAt ["pages"] <;> rcases hq : s.dirAt ["src", "pages"] <;>
    simp [hp, hq] at h <;> simp [h]

/-- The app-router location, when found, is `app` or `src/app`. -/
theorem getMaybeAppDirLocation_shape (s : ProjState) (loc : List String)
    (h : getMaybeAppDirLocation s = some loc) : loc = ["app"] ∨ loc = ["src", "app"] := by
  unfold getMaybeAppDirLocation at h
  rcases hp : s.dirAt ["app"] <;> rcases hq : s.dirAt ["src", "app"] <;>
    simp [hp, hq] at h <;> simp [h]

/-- Behaviour of the pages half at a found location: skip when a variant
exists, create the default `_error` page otherwise. -/
theorem setupPagesUnderscoreError_spec (tpl : Templates) (projectInfo : ProjectInfo)
    (s : ProjState) (loc : List String) (hloc : pagesLocationOf s = some loc) :
    (underscoreErrorExists s loc = true → setupPagesUnderscoreError tpl projectInfo s = (s, [])) ∧
    (underscoreErrorExists s loc = false →
      setupPagesUnderscoreError tpl projectInfo s =
        (writeFile (loc ++ ["_error." ++ (if projectInfo.hasTypescript then "tsx" else "jsx")])
            (tpl.underscoreErrorPage loc) s,
         [Outcome.created (loc ++ ["_error." ++ (if projectInfo.hasTypescript then "tsx" else "jsx")])])) := by
  constructor <;> intro hex <;> simp [setupPagesUnderscoreError, hloc, hex]

/-- Behaviour of the app half at a found location. -/
theorem setupAppGlobalError_spec (tpl : Templates) (projectInfo : ProjectInfo)
    (s : ProjState) (loc : List String) (hloc : getMaybeAppDirLocation s = some loc) :
    (globalErrorExists s loc = true → setupAppGlobalError tpl projectInfo s = (s, [])) ∧
    (globalErrorExists s loc = false →
      setupAppGlobalError tpl projectInfo s =
        (writeFile (loc ++ ["global-error." ++ (if projectInfo.hasTypescript then "tsx" else "jsx")])
            (tpl.globalErrorPage projectInfo.hasTypescript loc) s,
         [Outcome.created (loc ++ ["global-error." ++ (if projectInfo.hasTypescript then "tsx" else "jsx")])])) := by
  constructor <;> intro hex <;> simp [setupAppGlobalError, hloc, hex]

/-- The pages half can write only its four concrete `_error` paths. -/
theorem setupPagesUnderscoreError_fileAt_frame (tpl : Templates) (projectInfo : ProjectInfo)
    (s : ProjState) (q : List String)
    (h1 : q ≠ ["pages", "_error.tsx"]) (h2 : q ≠ ["pages", "_error.jsx"])
    (h3 : q ≠ ["src", "pages", "_error.tsx"]) (h4 : q ≠ ["src", "pages", "_error.jsx"]) :
    (setupPagesUnderscoreError tpl projectInfo s).1.fileAt q = s.fileAt q := by
  rcases hloc : pagesLocationOf s with _ | loc
  · simp [setupPagesUnderscoreError, hloc]
  · rcases hex : underscoreErrorExists s loc with _ | _
    · rcases pagesLocationOf_shape s loc hloc with h | h <;> subst h <;>
        rcases hts : projectInfo.hasTypescript with _ | _ <;>
          simp [setupPagesUnderscoreError, hloc, hex, hts, h1, h2, h3, h4]
    · simp [setupPagesUnderscoreError, hloc, hex]

/-- The pages half changes no directories, manifest or tsconfig. -/
theorem setupPagesUnderscoreError_dirAt_frame (tpl : Templates) (projectInfo : ProjectInfo)
    (s : ProjState) (q : List String) :
    (setupPagesUnderscoreError tpl projectInfo s).1.dirAt q = s.dirAt q := by
  rcases hloc : pagesLocationOf s with _ | loc
  · simp [setupPagesUnderscoreError, hloc]
  · rcases hex : underscoreErrorExists s loc with _ | _ <;>
      simp [setupPagesUnderscoreError, hloc, hex]

/-- The app half can write only its four concrete `global-error` paths. -/
theorem setupAppGlobalError_fileAt_frame (tpl : Templates) (projectInfo : ProjectInfo)
    (s : ProjState) (q : List String)
    (h1 : q ≠ ["app", "global-error.tsx"]) (h2 : q ≠ ["app", "global-error.jsx"])
    (h3 : q ≠ ["src", "app", "global-error.tsx"]) (h4 : q ≠ ["src", "app", "global-error.jsx"]) :
    (setupAppGlobalError tpl projectInfo s).1.fileAt q = s.fileAt q := by
  rcases hloc : getMaybeAppDirLocation s with _ | loc
  · simp [setupAppGlobalError, hloc]
  · rcases hex : globalErrorExists s loc with _ | _
    · rcases getMaybeAppDirLocation_shape s loc hloc with h | h <;> subst h <;>
        rcases hts : projectInfo.hasTypescript with _ | _ <;>
          simp [setupAppGlobalError, hloc, hex, hts, h1, h2, h3, h4]
    · simp [setupAppGlobalError, hloc, hex]

/-- The state component of `setupErrorPages` is the app half applied after the
pages half, each gated by the router type. -/
theorem setupErrorPages_fst (tpl : Templates) (projectInfo : ProjectInfo)
    (routerType : RouterType) (s : ProjState) :
    (setupErrorPages tpl projectInfo routerType s).1 =
      (if routerType = RouterType.app || routerType = RouterType.both then
        (setupAppGlobalError tpl projectInfo
          (if routerType = RouterType.pages || routerType = RouterType.both then
            (setupPagesUnderscoreError tpl projectInfo s).1
           else s)).1
       else
        (if routerType = RouterType.pages || routerType = RouterType.both then
          (setupPagesUnderscoreError tpl projectInfo s).1
         else s)) := by
  rcases routerType <;> rfl

/-- Specialisation of `setupErrorPages` to the pages router. -/
theorem setupErrorPages_fst_pages (tpl : Templates) (projectInfo : ProjectInfo) (s : ProjState) :
    (setupErrorPages tpl projectInfo RouterType.pages s).1 =
      (setupPagesUnderscoreError tpl projectInfo s).1 := rfl

/-- Specialisation of `setupErrorPages` to the app router. -/
theorem setupErrorPages_fst_app (tpl : Templates) (projectInfo : ProjectInfo) (s : ProjState) :
    (setupErrorPages tpl projectInfo RouterType.app s).1 =
      (setupAppGlobalError tpl projectInfo s).1 := rfl

/-- Specialisation of `setupErrorPages` to both routers. -/
theorem setupErrorPages_fst_both (tpl : Templates) (projectInfo : ProjectInfo) (s : ProjState) :
    (setupErrorPages tpl projectInfo RouterType.both s).1 =
      (setupAppGlobalError tpl projectInfo (setupPagesUnderscoreError tpl projectInfo s).1).1 := rfl

/-- C8: for the pages-router directory (when the pages half runs and a pages
directory is found) and for the app-router directory alike, the scaffold step
probes the four filename variants `_error.{tsx,ts,jsx,js}` resp.
`global-error.{tsx,ts,jsx,js}`; if any variant exists that directory's probed
files are left untouched, and only when all four are absent is the default page
created with the `tsx`/`jsx` extension matching the detected language variant. -/
theorem setupErrorPages_probe_spec (tpl : Templates) (projectInfo : ProjectInfo)
    (routerType : RouterType) (s : ProjState) :
    ((routerType = RouterType.pages ∨ routerType = RouterType.both) →
      ∀ loc, pagesLocationOf s = some loc →
        (underscoreErrorExists s loc = true →
          ∀ name : String,
            (setupErrorPages tpl projectInfo routerType s).1.fileAt (loc ++ ["_error." ++ name]) =
              s.fileAt (loc ++ ["_error." ++ name])) ∧
        (underscoreErrorExists s loc = false →
          (setupErrorPages tpl projectInfo routerType s).1.fileAt
              (loc ++ ["_error." ++ (if projectInfo.hasTypescript then "tsx" else "jsx")]) =
            some (tpl.underscoreErrorPage loc))) ∧
    ((routerType = RouterType.app ∨ routerType = RouterType.both) →
      ∀ loc, getMaybeAppDirLocation s = some loc →
        (globalErrorExists s loc = true →
          ∀ name : String,
            (setupErrorPages tpl projectInfo routerType s).1.fileAt
                (loc ++ ["global-error." ++ name]) =
              s.fileAt (loc ++ ["global-error." ++ name])) ∧
        (globalErrorExists s loc = false →
          (setupErrorPages tpl projectInfo routerType s).1.fileAt
              (loc ++ ["global-error." ++ (if projectInfo.hasTypescript then "tsx" else "jsx")]) =
            some (tpl.globalErrorPage projectInfo.hasTypescript loc))) := by
  constructor
  · -- pages-router half of the claim
    intro hrt loc hloc
    have hps := setupPagesUnderscoreError_spec tpl projectInfo s loc hloc
    have happframe : ∀ (t : ProjState) (name : String),
        (setupAppGlobalError tpl projectInfo t).1.fileAt (loc ++ ["_error." ++ name]) =
          t.fileAt (loc ++ ["_error." ++ name]) := by
      intro t name
      rcases pagesLocationOf_shape s loc hloc with h | h <;> subst h <;>
        exact setupAppGlobalError_fileAt_frame tpl projectInfo _ _
          (by simp) (by simp) (by simp) (by simp)
    rcases hrt with h | h <;> subst h
    · constructor
      · intro hex name
        rw [setupErrorPages_fst_pages, hps.1 hex]
      · intro hex
        rw [setupErrorPages_fst_pages, hps.2 hex]
        simp
    · constructor
      · intro hex name
        rw [setupErrorPages_fst_both, happframe _ name, hps.1 hex]
      · intro hex
        rw [setupErrorPages_fst_both, happframe _ _, hps.2 hex]
        simp
  · -- app-router half of the claim
    intro hrt loc hloc
    rcases hrt with h | h <;> subst h
    · have happ := setupAppGlobalError_spec tpl projectInfo s loc hloc
      constructor
      · intro hex name
        rw [setupErrorPages_fst_app, happ.1 hex]
      · intro hex
        rw [setupErrorPages_fst_app, happ.2 hex]
        simp
    · -- both routers: the pages half runs first but cannot disturb the app probes
      have hfge : ∀ name : String,
          (setupPagesUnderscoreError tpl projectInfo s).1.fileAt
              (loc ++ ["global-error." ++ name]) =
            s.fileAt (loc ++ ["global-error." ++ name]) := by
        intro name
        rcases getMaybeAppDirLocation_shape s loc hloc with h | h <;> subst h <;>
          exact setupPagesUnderscoreError_fileAt_frame tpl projectInfo s _
            (by simp) (by simp) (by simp) (by simp)
      have happloc : getMaybeAppDirLocation (setupPagesUnderscoreError tpl projectInfo s).1 =
          some loc := by
        unfold getMaybeAppDirLocation at hloc ⊢
        rw [setupPagesUnderscoreError_dirAt_frame tpl projectInfo s ["app"],
          setupPagesUnderscoreError_dirAt_frame tpl projectInfo s ["src", "app"]]
        exact hloc
      have hge : globalErrorExists (setupPagesUnderscoreError tpl projectInfo s).1 loc =
          globalErrorExists s loc := by
        rcases getMaybeAppDirLocation_shape s loc hloc with h | h <;> subst h <;>
          unfold globalErrorExists <;>
            rw [setupPagesUnderscoreError_fileAt_frame tpl projectInfo s _
                  (by simp) (by simp) (by simp) (by simp),
                setupPagesUnderscoreError_fileAt_frame tpl projectInfo s _
                  (by simp) (by simp) (by simp) (by simp),
                setupPagesUnderscoreError_fileAt_frame tpl projectInfo s _
                  (by simp) (by simp) (by simp) (by simp),
                setupPagesUnderscoreError_fileAt_frame tpl projectInfo s _
                  (by simp) (by simp) (by simp) (by simp)]
      have happ := setupAppGlobalError_spec tpl projectInfo
        (setupPagesUnderscoreError tpl projectInfo s).1 loc happloc
      constructor
      · intro hex name
        rw [setupErrorPages_fst_both, happ.1 (by rw [hge]; exact hex)]
        exact hfge name
      · intro hex
        rw [setupErrorPages_fst_both, happ.2 (by rw [hge]; exact hex)]
        simp

/-- A project with a root `pages` directory and no error pages. -/
def errorPagesProbeState : ProjState :=
  { fileAt := fun _ => none, dirAt := fun q => decide (q = ["pages"]),
    packageJson := none, tsconfig := none }

/-- Witness for C8: a pages-router project without any `_error.*` variant gets
`_error.jsx` created (JavaScript variant). -/
theorem setupErrorPages_probe_spec_witness :
    (setupErrorPages tpl0 jsProjectInfo RouterType.pages errorPagesProbeState).1.fileAt
        ["pages", "_error.jsx"] = some (tpl0.underscoreErrorPage ["pages"]) :=
  ((setupErrorPages_probe_spec tpl0 jsProjectInfo RouterType.pages errorPagesProbeState).1
      (Or.inl rfl) ["pages"] (by decide)).2 (by decide)

end RollbarWizard

namespace RollbarWizard

set_option maxRecDepth 400000

/-! ## C6: the `postbuild` manifest script is extended, not replaced -/

/-- The tsconfig step never touches the manifest. -/
theorem excludeScripts_packageJson_frame (projectInfo : ProjectInfo) (s : ProjState) :
    (excludeScriptsFromTypeChecking projectInfo s).1.packageJson = s.packageJson := by
  unfold excludeScriptsFromTypeChecking
  split
  · rfl
  · split
    · rfl
    · rfl
    · split <;> rfl

/-- The state component of `setupSourceMapUploadScript` is the sub-step
composition. -/
theorem setupSourceMapUploadScript_fst (tpl : Templates) (projectInfo : ProjectInfo)
    (s : ProjState) :
    (setupSourceMapUploadScript tpl projectInfo s).1 =
      (excludeScriptsFromTypeChecking projectInfo
        (addPostbuildScript projectInfo
          (ensureUploadDependencies projectInfo
            (writeFile
              ["scripts", "upload-sourcemaps." ++ (if projectInfo.hasTypescript then "ts" else "js")]
              tpl.uploadScript
              (if !(s.dirAt ["scripts"]) then mkdir ["scripts"] s else s))).1).1).1 := rfl

/-- The dependency-ensuring step never changes the `scripts` map. -/
theorem ensureUploadDependencies_scripts (projectInfo : ProjectInfo) (s : ProjState)
    (pj : PackageJson) (hpj : s.packageJson = some pj) :
    ∃ pj', (ensureUploadDependencies projectInfo s).1.packageJson = some pj' ∧
      pj'.scripts = pj.scripts := by
  simp only [ensureUploadDependencies, getPackageJson, hpj]
  split
  · exact ⟨pj, hpj, rfl⟩
  · exact ⟨_, rfl, rfl⟩

/-- Behaviour of the `postbuild` edit on a manifest whose `postbuild` entry is
a non-empty string. -/
theorem addPostbuildScript_spec (projectInfo : ProjectInfo) (s : ProjState)
    (pj : PackageJson) (pb : String)
    (hpj : s.packageJson = some pj) (hpb : pj.scripts "postbuild" = some pb) (hne : pb ≠ "") :
    (strContains pb "upload-sourcemaps" = false →
      ∃ pj', (addPostbuildScript projectInfo s).1.packageJson = some pj' ∧
        pj'.scripts "postbuild" =
          some (pb ++ " && " ++
            ((if projectInfo.hasTypescript then "tsx" else "node") ++
              " scripts/upload-sourcemaps." ++ (if projectInfo.hasTypescript then "ts" else "js")))) ∧
    (strContains pb "upload-sourcemaps" = true →
      (addPostbuildScript projectInfo s).1 = s) := by
  have hjt : jsTruthy (some pb) = true := by
    simp [jsTruthy, hne]
  constructor
  · intro hc
    simp only [addPostbuildScript, getPackageJson, hpj, hjt, Bool.not_true, Bool.false_eq_true,
      if_false, hpb, Option.getD_some, hc, Bool.not_false, if_true]
    exact ⟨_, rfl, by simp⟩
  · intro hc
    simp only [addPostbuildScript, getPackageJson, hpj, hjt, Bool.not_true, Bool.false_eq_true,
      if_false, hpb, Option.getD_some, hc, Bool.not_true, if_false]

/-- C6 (amended): for a manifest whose `postbuild` entry is **non-empty** and
does not mention the upload script, the step replaces the entry by the prior
content, an `&&` separator, and the upload command (prior content preserved);
an entry already mentioning `upload-sourcemaps` is left unchanged.  (An empty
`postbuild` entry is JavaScript-falsy and is replaced outright, see the
counterexample.) -/
theorem setupSourceMapUploadScript_postbuild_spec (tpl : Templates) (projectInfo : ProjectInfo)
    (s : ProjState) (pj : PackageJson) (pb : String)
    (hpj : s.packageJson = some pj) (hpb : pj.scripts "postbuild" = some pb) (hne : pb ≠ "") :
    (strContains pb "upload-sourcemaps" = false →
      ∃ pj', (setupSourceMapUploadScript tpl projectInfo s).1.packageJson = some pj' ∧
        pj'.scripts "postbuild" =
          some (pb ++ " && " ++
            ((if projectInfo.hasTypescript then "tsx" else "node") ++
              " scripts/upload-sourcemaps." ++ (if projectInfo.hasTypescript then "ts" else "js")))) ∧
    (strContains pb "upload-sourcemaps" = true →
      ∃ pj', (setupSourceMapUploadScript tpl projectInfo s).1.packageJson = some pj' ∧
        pj'.scripts "postbuild" = some pb) := by
  have h2 : (writeFile
      ["scripts", "upload-sourcemaps." ++ (if projectInfo.hasTypescript then "ts" else "js")]
      tpl.uploadScript
      (if !(s.dirAt ["scripts"]) then mkdir ["scripts"] s else s)).packageJson = some pj := by
    simp only [writeFile_packageJson]
    split <;> simp [hpj]
  obtain ⟨pj3, h3, hsc⟩ := ensureUploadDependencies_scripts projectInfo _ pj h2
  have hpb3 : pj3.scripts "postbuild" = some pb := by rw [hsc]; exact hpb
  have hspec := addPostbuildScript_spec projectInfo _ pj3 pb h3 hpb3 hne
  constructor
  · intro hc
    obtain ⟨pj4, h4, h4s⟩ := hspec.1 hc
    refine ⟨pj4, ?_, h4s⟩
    rw [setupSourceMapUploadScript_fst, excludeScripts_packageJson_frame, h4]
  · intro hc
    refine ⟨pj3, ?_, hpb3⟩
    rw [setupSourceMapUploadScript_fst, excludeScripts_packageJson_frame, hspec.2 hc, h3]

/-- A manifest with the upload dependencies present and a given `postbuild`. -/
def pjWithPostbuild (pb : String) : PackageJson :=
  { typeModule := false
    dependencies := fun _ => none
    devDependencies := fun q =>
      if q = "form-data" ∨ q = "node-fetch" ∨ q = "glob" then some "^1.0.0" else none
    scripts := fun q => if q = "postbuild" then some pb else none }

/-- A project whose manifest carries `postbuild` entry `pb`. -/
def postbuildProbeState (pb : String) : ProjState :=
  { fileAt := fun _ => none, dirAt := fun _ => false,
    packageJson := some (pjWithPostbuild pb), tsconfig := none }

/-- C6 counterexample: an **empty** `postbuild` entry is an existing script
entry that does not reference the upload script, yet the step replaces it with
the bare upload command — not with `prior ++ " && " ++ command` as claimed
(JavaScript `!scripts.postbuild` treats `''` as absent, wizard.ts:721). -/
theorem setupSourceMapUploadScript_empty_postbuild_counterexample :
    (pjWithPostbuild "").scripts "postbuild" = some "" ∧
    strContains "" "upload-sourcemaps" = false ∧
    ((setupSourceMapUploadScript tpl0 jsProjectInfo (postbuildProbeState "")).1.packageJson.map
      (fun pj => pj.scripts "postbuild")) = some (some "node scripts/upload-sourcemaps.js") ∧
    some (some "node scripts/upload-sourcemaps.js") ≠
      some (some ("" ++ " && " ++ "node scripts/upload-sourcemaps.js")) := by
  refine ⟨by decide, by decide, by decide, by decide⟩

/-- Witness for C6's amended theorem: `postbuild = "next-sitemap"` becomes
`next-sitemap && node scripts/upload-sourcemaps.js`. -/
theorem setupSourceMapUploadScript_postbuild_spec_witness :
    ((setupSourceMapUploadScript tpl0 jsProjectInfo (postbuildProbeState "next-sitemap")).1.packageJson.map
      (fun pj => pj.scripts "postbuild")) =
      some (some "next-sitemap && node scripts/upload-sourcemaps.js") := by
  obtain ⟨pj', h1, h2⟩ :=
    (setupSourceMapUploadScript_postbuild_spec tpl0 jsProjectInfo (postbuildProbeState "next-sitemap")
        (pjWithPostbuild "next-sitemap") "next-sitemap" rfl (by decide) (by decide)).1 (by decide)
  rw [h1, Option.map_some', h2]
  decide

end RollbarWizard

namespace RollbarWizard

set_option maxRecDepth 400000

/-! ## C7 and C9: the environment phase -/

theorem strAppend_assoc (a b c : String) : (a ++ b) ++ c = a ++ (b ++ c) :=
  congrArg String.mk (List.append_assoc a.data b.data c.data)

theorem strAppend_empty (a : String) : a ++ "" = a :=
  congrArg String.mk (List.append_nil a.data)

/-- Gluing at a terminal separator: appending after a block that ends in a
separator the key avoids cannot create a key occurrence. -/
theorem chInfix_concat_sep_append (p a0 b : List Char) (sep : Char) (hsep : sep ∉ p)
    (ha : chInfix p (a0 ++ [sep]) = false) (hb : chInfix p b = false) :
    chInfix p ((a0 ++ [sep]) ++ b) = false := by
  have ha0 : chInfix p a0 = false := by
    cases h : chInfix p a0
    · rfl
    · have := chInfix_append_left p a0 [sep] h
      rw [ha] at this
      cases this
  have heq : (a0 ++ [sep]) ++ b = a0 ++ sep :: b := by simp
  rw [heq]
  exact chInfix_glue p sep hsep a0 b ha0 hb

/-- String-level form of `chInfix_concat_sep_append`. -/
theorem strContains_append_sep (k x y : String) (x0 : List Char) (sep : Char)
    (hsep : sep ∉ k.data) (hx0 : x.data = x0 ++ [sep])
    (hx : strContains x k = false) (hy : strContains y k = false) :
    strContains (x ++ y) k = false := by
  unfold strContains at hx hy ⊢
  rw [strData_append, hx0]
  rw [hx0] at hx
  exact chInfix_concat_sep_append k.data x0 y.data sep hsep hx hy

/-- The appended code-version line never contains the server-token key as long
as the configured code version itself does not. -/
theorem envCodeVersionLine_no_key (v : String)
    (hv : strContains v "ROLLBAR_PROJECT_ACCESS_SERVER_TOKEN" = false) :
    strContains (envCodeVersionLine v) "ROLLBAR_PROJECT_ACCESS_SERVER_TOKEN" = false := by
  unfold strContains at hv ⊢
  unfold envCodeVersionLine
  have hdata : ("ROLLBAR_CODE_VERSION" ++ "=" ++ v ++ "\n").data =
      "ROLLBAR_CODE_VERSION".data ++ '=' :: (v.data ++ '\n' :: []) := by
    simp only [strData_append, show ("=" : String).data = ['='] from rfl,
      show ("\n" : String).data = ['\n'] from rfl, List.append_assoc, List.singleton_append,
      List.cons_append, List.nil_append]
  rw [hdata]
  apply chInfix_glue _ '=' (by decide)
  · decide
  · exact chInfix_glue _ '\n' (by decide) v.data [] hv (by decide)

/-- The Vercel comment block never contains the server-token key as long as
neither configured environment-variable name does. -/
theorem envVercelBlock_no_key (cv sv : String)
    (hc : strContains cv "ROLLBAR_PROJECT_ACCESS_SERVER_TOKEN" = false)
    (hs : strContains sv "ROLLBAR_PROJECT_ACCESS_SERVER_TOKEN" = false) :
    strContains (envVercelBlock cv sv) "ROLLBAR_PROJECT_ACCESS_SERVER_TOKEN" = false := by
  unfold strContains at hc hs ⊢
  unfold envVercelBlock
  have hdata : ("\n# Rollbar Configuration (Vercel)\n# These environment variables are set by Vercel\x27s Rollbar integration\n# Client Token:" ++
      " " ++ cv ++ "\n" ++ "# Server Token:" ++ " " ++ sv ++ "\n").data =
      "\n# Rollbar Configuration (Vercel)\n# These environment variables are set by Vercel\x27s Rollbar integration\n# Client Token:".data ++
        ' ' :: (cv.data ++ '\n' :: ("# Server Token:".data ++ ' ' :: (sv.data ++ '\n' :: []))) := by
    simp only [strData_append, show (" " : String).data = [' '] from rfl,
      show ("\n" : String).data = ['\n'] from rfl, List.append_assoc, List.singleton_append,
      List.cons_append, List.nil_append]
  rw [hdata]
  apply chInfix_glue _ ' ' (by decide)
  · decide
  · apply chInfix_glue _ '\n' (by decide)
    · exact hc
    · apply chInfix_glue _ ' ' (by decide)
      · decide
      · exact chInfix_glue _ '\n' (by decide) sv.data [] hs (by decide)

/-- Appending anything after the Vercel block (which ends in a newline) cannot
create a key occurrence either. -/
theorem envVercelBlock_append_no_key (cv sv b2 : String)
    (hvb : strContains (envVercelBlock cv sv) "ROLLBAR_PROJECT_ACCESS_SERVER_TOKEN" = false)
    (hb : strContains b2 "ROLLBAR_PROJECT_ACCESS_SERVER_TOKEN" = false) :
    strContains (envVercelBlock cv sv ++ b2) "ROLLBAR_PROJECT_ACCESS_SERVER_TOKEN" = false :=
  strContains_append_sep "ROLLBAR_PROJECT_ACCESS_SERVER_TOKEN" (envVercelBlock cv sv) b2
    (("\n# Rollbar Configuration (Vercel)\n# These environment variables are set by Vercel\x27s Rollbar integration\n# Client Token:" ++
      " " ++ cv ++ "\n" ++ "# Server Token:" ++ " " ++ sv).data) '\n' (by decide) rfl hvb hb

/-- The text `setupEnvironmentVariables` appends to `.env.local`, split off as
its own definition so the append-only behaviour can be stated without an
existential. -/
def envAppendedSuffix (config : WizardConfig) (envContent0 : String) : String :=
  let block1 :=
    if config.isVercel then
      if !(strContains envContent0 "# Rollbar Configuration") then
        envVercelBlock (jsOrDefault config.vercelClientTokenEnvVar "VERCEL_ROLLBAR_CLIENT_TOKEN")
          (jsOrDefault config.vercelServerTokenEnvVar "VERCEL_ROLLBAR_SERVER_TOKEN")
      else ""
    else
      if !(strContains envContent0 "ROLLBAR_PROJECT_ACCESS_SERVER_TOKEN") then
        envTokenBlock config.serverAccessToken config.clientAccessToken
      else ""
  let mid := envContent0 ++ block1
  let block2 :=
    if config.enableDeployment && jsTruthy config.codeVersion &&
        !(strContains mid "ROLLBAR_CODE_VERSION") then
      envCodeVersionLine (config.codeVersion.getD "")
    else if config.enableDeployment && !(strContains mid "ROLLBAR_CODE_VERSION") then
      envCodeVersionComment
    else ""
  block1 ++ block2

/-- `newEnvContent` only ever appends: the result is the old content followed
by `envAppendedSuffix`. -/
theorem strEmpty_append (a : String) : "" ++ a = a := rfl

theorem newEnvContent_eq_append (config : WizardConfig) (env0 : String) :
    newEnvContent config env0 = env0 ++ envAppendedSuffix config env0 := by
  unfold newEnvContent envAppendedSuffix
  rcases hver : config.isVercel with _ | _ <;>
    simp only [hver, Bool.false_eq_true, if_false, if_true]
  all_goals split
  all_goals try simp only [strAppend_empty, strEmpty_append]
  all_goals repeat' split
  all_goals
    first
      | rfl
      | simp only [strAppend_empty, strEmpty_append, strAppend_assoc]

/-- The `.env.local` file after the environment phase always holds exactly
`newEnvContent` of its previous content. -/
theorem setupEnvironmentVariables_env_fileAt (config : WizardConfig) (s : ProjState) :
    (setupEnvironmentVariables config s).1.fileAt [".env.local"] =
      some (newEnvContent config ((s.fileAt [".env.local"]).getD "")) := by
  rcases hg : s.fileAt [".gitignore"] with _ | g
  · simp [setupEnvironmentVariables, hg]
  · rcases hc : strContains g ".env.local" with _ | _ <;>
      simp [setupEnvironmentVariables, hg, hc]

/-- C7 (amended): when `.env.local` already contains the server-token key, the
environment step only appends at the end of the file — the prior content
remains an unchanged prefix — and, provided the configured code version and
Vercel variable names do not themselves embed the key, the appended text never
contains the token key, so no duplicate key is introduced.  (The appended
code-version text does not start on its own line when the file lacks a trailing
newline; see the counterexample.) -/
theorem setupEnvironmentVariables_append_only (config : WizardConfig) (s : ProjState)
    (env0 : String)
    (henv : s.fileAt [".env.local"] = some env0)
    (hkey : strContains env0 "ROLLBAR_PROJECT_ACCESS_SERVER_TOKEN" = true)
    (hcv : strContains (config.codeVersion.getD "") "ROLLBAR_PROJECT_ACCESS_SERVER_TOKEN" = false)
    (hvc : strContains (jsOrDefault config.vercelClientTokenEnvVar "VERCEL_ROLLBAR_CLIENT_TOKEN")
        "ROLLBAR_PROJECT_ACCESS_SERVER_TOKEN" = false)
    (hvs : strContains (jsOrDefault config.vercelServerTokenEnvVar "VERCEL_ROLLBAR_SERVER_TOKEN")
        "ROLLBAR_PROJECT_ACCESS_SERVER_TOKEN" = false) :
    (setupEnvironmentVariables config s).1.fileAt [".env.local"] =
      some (env0 ++ envAppendedSuffix config env0) ∧
    strContains (envAppendedSuffix config env0) "ROLLBAR_PROJECT_ACCESS_SERVER_TOKEN" = false := by
  constructor
  · rw [setupEnvironmentVariables_env_fileAt, henv, Option.getD_some, newEnvContent_eq_append]
  · have hcvLine := envCodeVersionLine_no_key _ hcv
    have hcvc : strContains envCodeVersionComment "ROLLBAR_PROJECT_ACCESS_SERVER_TOKEN" = false := by
      decide
    have hvb := envVercelBlock_no_key _ _ hvc hvs
    unfold envAppendedSuffix
    rcases hver : config.isVercel with _ | _
    · simp only [hver, Bool.false_eq_true, if_false, hkey, Bool.not_true, if_false]
      split
      · exact hcvLine
      · split
        · exact hcvc
        · decide
    · simp only [hver, if_true]
      split
      · split
        · exact envVercelBlock_append_no_key _ _ _ hvb hcvLine
        · split
          · exact envVercelBlock_append_no_key _ _ _ hvb hcvc
          · rw [strAppend_empty]
            exact hvb
      · split
        · exact hcvLine
        · split
          · exact hcvc
          · decide

/-- A configuration with deployment tracking and a concrete code version. -/
def deployConfig : WizardConfig :=
  { baseConfig with enableDeployment := true, codeVersion := some "1.0" }

/-- `.env.local` already holding the server token, with no trailing newline. -/
def envProbeState : ProjState :=
  { fileAt := fun q =>
      if q = [".env.local"] then some "ROLLBAR_PROJECT_ACCESS_SERVER_TOKEN=abc" else none
    dirAt := fun _ => false, packageJson := none, tsconfig := none }

/-- C7 counterexample: with the token key present but no trailing newline and
deployment tracking enabled, the appended `ROLLBAR_CODE_VERSION` line is joined
onto the existing final line — the file's only line is altered, refuting
"does not reorder or alter the existing lines" as stated. -/
theorem setupEnvironmentVariables_line_merge_counterexample :
    strContains "ROLLBAR_PROJECT_ACCESS_SERVER_TOKEN=abc"
        "ROLLBAR_PROJECT_ACCESS_SERVER_TOKEN" = true ∧
    (setupEnvironmentVariables deployConfig envProbeState).1.fileAt [".env.local"] =
      some "ROLLBAR_PROJECT_ACCESS_SERVER_TOKEN=abcROLLBAR_CODE_VERSION=1.0\n" ∧
    splitLines "ROLLBAR_PROJECT_ACCESS_SERVER_TOKEN=abc" =
      ["ROLLBAR_PROJECT_ACCESS_SERVER_TOKEN=abc"] ∧
    (splitLines "ROLLBAR_PROJECT_ACCESS_SERVER_TOKEN=abcROLLBAR_CODE_VERSION=1.0\n").head? =
      some "ROLLBAR_PROJECT_ACCESS_SERVER_TOKEN=abcROLLBAR_CODE_VERSION=1.0" := by
  exact ⟨by decide, by decide, by decide, by decide⟩

/-- `.env.local` already holding the server token, with a trailing newline. -/
def envNlProbeState : ProjState :=
  { fileAt := fun q =>
      if q = [".env.local"] then some "ROLLBAR_PROJECT_ACCESS_SERVER_TOKEN=abc\n" else none
    dirAt := fun _ => false, packageJson := none, tsconfig := none }

/-- Witness for C7's amended theorem: with the key present, nothing but the
(empty) suffix is appended and the suffix holds no duplicate key. -/
theorem setupEnvironmentVariables_append_only_witness :
    (setupEnvironmentVariables baseConfig envNlProbeState).1.fileAt [".env.local"] =
      some ("ROLLBAR_PROJECT_ACCESS_SERVER_TOKEN=abc\n" ++
        envAppendedSuffix baseConfig "ROLLBAR_PROJECT_ACCESS_SERVER_TOKEN=abc\n") ∧
    strContains (envAppendedSuffix baseConfig "ROLLBAR_PROJECT_ACCESS_SERVER_TOKEN=abc\n")
        "ROLLBAR_PROJECT_ACCESS_SERVER_TOKEN" = false :=
  setupEnvironmentVariables_append_only baseConfig envNlProbeState
    "ROLLBAR_PROJECT_ACCESS_SERVER_TOKEN=abc\n" rfl (by decide) (by decide) (by decide) (by decide)

/-! ### C9: the ignore-file entry -/

/-- C9 (amended): when a `.gitignore` exists, the environment phase guarantees
it mentions `.env.local` afterwards (appending an entry exactly when it was
missing); when none exists, none is created (see the counterexample). -/
theorem setupEnvironmentVariables_gitignore (config : WizardConfig) (s : ProjState) (g : String)
    (h : s.fileAt [".gitignore"] = some g) :
    (setupEnvironmentVariables config s).1.fileAt [".gitignore"] =
      some (if strContains g ".env.local" then g else g ++ gitignoreEnvBlock) ∧
    strContains (if strContains g ".env.local" then g else g ++ gitignoreEnvBlock)
      ".env.local" = true := by
  rcases hg : strContains g ".env.local" with _ | _
  · simp only [hg, Bool.false_eq_true, if_false]
    constructor
    · simp [setupEnvironmentVariables, h, hg]
    · unfold strContains
      rw [strData_append]
      exact chInfix_append_right _ _ _ (by decide)
  · simp only [hg, if_true]
    refine ⟨by simp [setupEnvironmentVariables, h, hg], ?_⟩
    simp [hg]

/-- A project with no ignore file at all. -/
def noGitignoreState : ProjState :=
  { fileAt := fun q =>
      if q = [".env.local"] then some "X=1\n" else none
    dirAt := fun _ => false, packageJson := none, tsconfig := none }

/-- C9 counterexample: with no pre-existing `.gitignore`, the phase creates
none, so after the run the ignore file still does not exclude `.env.local`. -/
theorem setupEnvironmentVariables_no_gitignore_counterexample :
    (setupEnvironmentVariables baseConfig noGitignoreState).1.fileAt [".gitignore"] = none := by
  decide

/-- A project with a `.gitignore` lacking the `.env.local` entry. -/
def gitignoreProbeState : ProjState :=
  { fileAt := fun q =>
      if q = [".gitignore"] then some "node_modules\n" else none
    dirAt := fun _ => false, packageJson := none, tsconfig := none }

/-- Witness for C9's amended theorem. -/
theorem setupEnvironmentVariables_gitignore_witness :
    (setupEnvironmentVariables baseConfig gitignoreProbeState).1.fileAt [".gitignore"] =
      some (if strContains "node_modules\n" ".env.local" then "node_modules\n"
            else "node_modules\n" ++ gitignoreEnvBlock) ∧
    strContains (if strContains "node_modules\n" ".env.local" then "node_modules\n"
            else "node_modules\n" ++ gitignoreEnvBlock) ".env.local" = true :=
  setupEnvironmentVariables_gitignore baseConfig gitignoreProbeState "node_modules\n" rfl

end RollbarWizard

namespace RollbarWizard

set_option maxRecDepth 400000

/-! ## C3: failure of the first mandatory package install -/

/-- C3 (amended): when the first mandatory install (`rollbar@^3.0.0-rc.1`)
exits non-zero, the failure is reported to the user, but the thrown error
reaches the top-level catch (wizard.ts:1362) and the run aborts with a non-zero
exit: no configuration step runs and the project state is untouched. -/
theorem runNextjsWizardPhases_install_failure (tpl : Templates) (config : WizardConfig)
    (projectInfo : ProjectInfo) (installOk : String → Bool) (confirm : Bool) (s : ProjState)
    (hskip : config.skipInstall = false)
    (hfail : installOk "rollbar@^3.0.0-rc.1" = false)
    (htok : config.isVercel = true ∨
      (config.serverAccessToken ≠ "" ∧ config.clientAccessToken ≠ "")) :
    (runNextjsWizardPhases tpl config projectInfo installOk confirm s).aborted = true ∧
    (runNextjsWizardPhases tpl config projectInfo installOk confirm s).state = s ∧
    Outcome.errorReported "Failed to install rollbar@^3.0.0-rc.1. Please install it manually." ∈
      (runNextjsWizardPhases tpl config projectInfo installOk confirm s).outcomes ∧
    ((runNextjsWizardPhases tpl config projectInfo installOk confirm s).outcomes.all
      (fun o => match o with
        | Outcome.created _ => false
        | Outcome.updatedFile _ => false
        | _ => true)) = true := by
  rcases htok with h | ⟨h1, h2⟩
  · refine ⟨?_, ?_, ?_, ?_⟩ <;>
      simp [runNextjsWizardPhases, installPackage, hskip, hfail, h]
  · refine ⟨?_, ?_, ?_, ?_⟩ <;>
      simp [runNextjsWizardPhases, installPackage, hskip, hfail, h1, h2]

/-- An install oracle that always fails. -/
def failingInstallOk : String → Bool := fun _ => false

/-- `baseConfig` with installation enabled. -/
def installCfg : WizardConfig := { baseConfig with skipInstall := false }

/-- C3 counterexample: with the first mandatory install failing, the run
reports the failure but aborts untouched — it does **not** continue to the
configuration steps (no file is created or updated). -/
theorem runNextjsWizardPhases_aborts_on_first_install_failure :
    (runNextjsWizardPhases tpl0 installCfg jsProjectInfo failingInstallOk true emptyProj).aborted =
      true ∧
    (runNextjsWizardPhases tpl0 installCfg jsProjectInfo failingInstallOk true emptyProj).state =
      emptyProj ∧
    Outcome.errorReported "Failed to install rollbar@^3.0.0-rc.1. Please install it manually." ∈
      (runNextjsWizardPhases tpl0 installCfg jsProjectInfo failingInstallOk true emptyProj).outcomes ∧
    ((runNextjsWizardPhases tpl0 installCfg jsProjectInfo failingInstallOk true
        emptyProj).outcomes.all
      (fun o => match o with
        | Outcome.created _ => false
        | Outcome.updatedFile _ => false
        | _ => true)) = true := by
  refine ⟨rfl, rfl, by decide, by decide⟩

/-- `installCfg` in Vercel mode (no token guard). -/
def vercelInstallCfg : WizardConfig :=
  { baseConfig with
    skipInstall := false
    isVercel := true
    serverAccessToken := ""
    clientAccessToken := ""
    accessToken := "" }

/-- Witness for C3's amended theorem, through the Vercel disjunct. -/
theorem runNextjsWizardPhases_install_failure_witness :
    (runNextjsWizardPhases tpl0 vercelInstallCfg jsProjectInfo failingInstallOk true
        emptyProj).aborted = true ∧
    (runNextjsWizardPhases tpl0 vercelInstallCfg jsProjectInfo failingInstallOk true
        emptyProj).state = emptyProj ∧
    Outcome.errorReported "Failed to install rollbar@^3.0.0-rc.1. Please install it manually." ∈
      (runNextjsWizardPhases tpl0 vercelInstallCfg jsProjectInfo failingInstallOk true
        emptyProj).outcomes ∧
    ((runNextjsWizardPhases tpl0 vercelInstallCfg jsProjectInfo failingInstallOk true
        emptyProj).outcomes.all
      (fun o => match o with
        | Outcome.created _ => false
        | Outcome.updatedFile _ => false
        | _ => true)) = true :=
  runNextjsWizardPhases_install_failure tpl0 vercelInstallCfg jsProjectInfo failingInstallOk true
    emptyProj rfl rfl (Or.inl rfl)

end RollbarWizard

namespace RollbarWizard

set_option maxRecDepth 400000

/-! ## C2: re-running the action phases

The second run of `runNextjsWizard`'s action phases is **not** all-skips
(`createConfigFiles` unconditionally rewrites its three files and
`setupEnvironmentVariables` always rewrites `.env.local`), but — as long as the
optional example page is disabled — the second run is a byte-level fixed point:
it leaves the project state exactly as the first run left it.  The development
below establishes, phase by phase, a stability predicate that the first run
establishes and that makes the phase a state-level identity. -/

/-- Containment survives appending on the right. -/
theorem strContains_append_left (a b k : String) (h : strContains a k = true) :
    strContains (a ++ b) k = true := by
  unfold strContains at h ⊢
  rw [strData_append]
  exact chInfix_append_left _ _ _ h

/-- Containment survives prepending on the left. -/
theorem strContains_append_right (a b k : String) (h : strContains b k = true) :
    strContains (a ++ b) k = true := by
  unfold strContains at h ⊢
  rw [strData_append]
  exact chInfix_append_right _ _ _ h

/-- The non-Vercel token block contains the server-token key. -/
theorem envTokenBlock_has_key (a b : String) :
    strContains (envTokenBlock a b) "ROLLBAR_PROJECT_ACCESS_SERVER_TOKEN" = true := by
  unfold envTokenBlock
  apply strContains_append_left
  apply strContains_append_left
  apply strContains_append_left
  apply strContains_append_left
  apply strContains_append_left
  apply strContains_append_left
  apply strContains_append_left
  decide

/-- The Vercel comment block contains the `# Rollbar Configuration` marker. -/
theorem envVercelBlock_has_marker (a b : String) :
    strContains (envVercelBlock a b) "# Rollbar Configuration" = true := by
  unfold envVercelBlock
  apply strContains_append_left
  apply strContains_append_left
  apply strContains_append_left
  apply strContains_append_left
  apply strContains_append_left
  apply strContains_append_left
  apply strContains_append_left
  decide

/-- The appended code-version line contains the `ROLLBAR_CODE_VERSION` key. -/
theorem envCodeVersionLine_has_marker (v : String) :
    strContains (envCodeVersionLine v) "ROLLBAR_CODE_VERSION" = true := by
  unfold envCodeVersionLine
  apply strContains_append_left
  apply strContains_append_left
  apply strContains_append_left
  decide

/-- After one non-Vercel environment rewrite the content holds the token key. -/
theorem newEnvContent_has_key (config : WizardConfig) (e0 : String)
    (h : config.isVercel = false) :
    strContains (newEnvContent config e0) "ROLLBAR_PROJECT_ACCESS_SERVER_TOKEN" = true := by
  rw [newEnvContent_eq_append]
  rcases hc : strContains e0 "ROLLBAR_PROJECT_ACCESS_SERVER_TOKEN" with _ | _
  · apply strContains_append_right
    unfold envAppendedSuffix
    simp only [h, Bool.false_eq_true, if_false, hc, Bool.not_false, if_true]
    exact strContains_append_left _ _ _ (envTokenBlock_has_key _ _)
  · exact strContains_append_left _ _ _ hc

/-- After one Vercel environment rewrite the content holds the comment marker. -/
theorem newEnvContent_has_marker (config : WizardConfig) (e0 : String)
    (h : config.isVercel = true) :
    strContains (newEnvContent config e0) "# Rollbar Configuration" = true := by
  rw [newEnvContent_eq_append]
  rcases hc : strContains e0 "# Rollbar Configuration" with _ | _
  · apply strContains_append_right
    unfold envAppendedSuffix
    simp only [h, if_true, hc, Bool.not_false]
    exact strContains_append_left _ _ _ (envVercelBlock_has_marker _ _)
  · exact strContains_append_left _ _ _ hc

/-- With deployment tracking on, the code-version stage of the environment
rewrite leaves the `ROLLBAR_CODE_VERSION` key (or its commented hint). -/
theorem envStage2_has_codeVersion (config : WizardConfig) (e1 : String)
    (h : config.enableDeployment = true) :
    strContains
      (if config.enableDeployment && jsTruthy config.codeVersion &&
          !strContains e1 "ROLLBAR_CODE_VERSION" then
        e1 ++ envCodeVersionLine (config.codeVersion.getD "")
      else if config.enableDeployment && !strContains e1 "ROLLBAR_CODE_VERSION" then
        e1 ++ envCodeVersionComment
      else e1) "ROLLBAR_CODE_VERSION" = true := by
  rcases hc : strContains e1 "ROLLBAR_CODE_VERSION" with _ | _
  · rcases ht : jsTruthy config.codeVersion with _ | _
    · simp only [h, hc, ht, Bool.false_and, Bool.and_false, Bool.true_and, Bool.and_true,
        Bool.not_false, Bool.false_eq_true, if_false, if_true]
      exact strContains_append_right _ _ _ (by decide)
    · simp only [h, hc, ht, Bool.true_and, Bool.and_true, Bool.not_false, if_true]
      exact strContains_append_right _ _ _ (envCodeVersionLine_has_marker _)
  · simp only [hc, Bool.not_true, Bool.and_false, Bool.false_eq_true, if_false]

/-- With deployment tracking on, one environment rewrite leaves the
`ROLLBAR_CODE_VERSION` key (or its commented hint) in the content. -/
theorem newEnvContent_has_codeVersion (config : WizardConfig) (e0 : String)
    (h : config.enableDeployment = true) :
    strContains (newEnvContent config e0) "ROLLBAR_CODE_VERSION" = true := by
  simp only [newEnvContent]
  exact envStage2_has_codeVersion config _ h

/-- The environment-content rewrite is idempotent. -/
theorem newEnvContent_idem (config : WizardConfig) (e0 : String) :
    newEnvContent config (newEnvContent config e0) = newEnvContent config e0 := by
  rcases hver : config.isVercel with _ | _
  · have hk := newEnvContent_has_key config e0 hver
    rcases hd : config.enableDeployment with _ | _
    · conv_lhs => rw [newEnvContent]
      simp [hver, hk, hd]
    · have h2 := newEnvContent_has_codeVersion config e0 hd
      conv_lhs => rw [newEnvContent]
      simp [hver, hk, hd, h2]
  · have hk := newEnvContent_has_marker config e0 hver
    rcases hd : config.enableDeployment with _ | _
    · conv_lhs => rw [newEnvContent]
      simp [hver, hk, hd]
    · have h2 := newEnvContent_has_codeVersion config e0 hd
      conv_lhs => rw [newEnvContent]
      simp [hver, hk, hd, h2]

/-- A `.gitignore` extended with the wizard's block mentions `.env.local`. -/
theorem gitignoreEnvBlock_entry (g : String) :
    strContains (g ++ gitignoreEnvBlock) ".env.local" = true :=
  strContains_append_right _ _ _ (by decide)

/-- Value of the ignore file after the environment phase. -/
theorem setupEnvironmentVariables_gitignore_fileAt (config : WizardConfig) (s : ProjState) :
    (setupEnvironmentVariables config s).1.fileAt [".gitignore"] =
      match s.fileAt [".gitignore"] with
      | none => none
      | some g => some (if strContains g ".env.local" then g else g ++ gitignoreEnvBlock) := by
  rcases hg : s.fileAt [".gitignore"] with _ | g
  · simp [setupEnvironmentVariables, hg]
  · rcases hc : strContains g ".env.local" with _ | _ <;>
      simp [setupEnvironmentVariables, hg, hc]

/-- The environment phase writes only `.env.local` and `.gitignore`. -/
theorem setupEnvironmentVariables_fileAt_frame (config : WizardConfig) (s : ProjState)
    (q : List String) (h1 : q ≠ [".env.local"]) (h2 : q ≠ [".gitignore"]) :
    (setupEnvironmentVariables config s).1.fileAt q = s.fileAt q := by
  rcases hg : s.fileAt [".gitignore"] with _ | g
  · simp [setupEnvironmentVariables, hg, h1, h2]
  · rcases hc : strContains g ".env.local" with _ | _ <;>
      simp [setupEnvironmentVariables, hg, hc, h1, h2]

/-- The environment phase changes no directories. -/
theorem setupEnvironmentVariables_dirAt (config : WizardConfig) (s : ProjState)
    (q : List String) :
    (setupEnvironmentVariables config s).1.dirAt q = s.dirAt q := by
  rcases hg : s.fileAt [".gitignore"] with _ | g
  · simp [setupEnvironmentVariables, hg]
  · rcases hc : strContains g ".env.local" with _ | _ <;>
      simp [setupEnvironmentVariables, hg, hc]

/-- The environment phase does not touch the manifest. -/
theorem setupEnvironmentVariables_packageJson (config : WizardConfig) (s : ProjState) :
    (setupEnvironmentVariables config s).1.packageJson = s.packageJson := by
  rcases hg : s.fileAt [".gitignore"] with _ | g
  · simp [setupEnvironmentVariables, hg]
  · rcases hc : strContains g ".env.local" with _ | _ <;>
      simp [setupEnvironmentVariables, hg, hc]

/-- The environment phase does not touch `tsconfig.json`. -/
theorem setupEnvironmentVariables_tsconfig (config : WizardConfig) (s : ProjState) :
    (setupEnvironmentVariables config s).1.tsconfig = s.tsconfig := by
  rcases hg : s.fileAt [".gitignore"] with _ | g
  · simp [setupEnvironmentVariables, hg]
  · rcases hc : strContains g ".env.local" with _ | _ <;>
      simp [setupEnvironmentVariables, hg, hc]

/-- A state on which the environment phase is a state-level identity: the env
file already holds a fixed point of the rewrite, and an existing ignore file
already mentions `.env.local`. -/
def envStable (config : WizardConfig) (s : ProjState) : Prop :=
  (∃ e1, s.fileAt [".env.local"] = some e1 ∧ newEnvContent config e1 = e1) ∧
  (∀ g, s.fileAt [".gitignore"] = some g → strContains g ".env.local" = true)

/-- One run of the environment phase lands in `envStable`. -/
theorem envStable_after (config : WizardConfig) (s : ProjState) :
    envStable config ((setupEnvironmentVariables config s).1) := by
  constructor
  · exact ⟨_, setupEnvironmentVariables_env_fileAt config s, newEnvContent_idem config _⟩
  · intro g hg
    rw [setupEnvironmentVariables_gitignore_fileAt] at hg
    rcases h0 : s.fileAt [".gitignore"] with _ | g0
    · rw [h0] at hg; cases hg
    · rw [h0] at hg
      rcases hc : strContains g0 ".env.local" with _ | _
      · simp only [hc, Bool.false_eq_true, if_false, Option.some.injEq] at hg
        subst hg
        exact gitignoreEnvBlock_entry g0
      · simp only [hc, if_true, Option.some.injEq] at hg
        subst hg
        exact hc

/-- On an `envStable` state the environment phase does not change the state. -/
theorem setupEnvironmentVariables_self (config : WizardConfig) (s : ProjState)
    (h : envStable config s) : (setupEnvironmentVariables config s).1 = s := by
  obtain ⟨⟨e1, he, hfix⟩, hgi⟩ := h
  have hw : writeFile [".env.local"]
      (newEnvContent config ((s.fileAt [".env.local"]).getD "")) s = s := by
    rw [he, Option.getD_some, hfix]
    exact writeFile_self he
  rcases hg : s.fileAt [".gitignore"] with _ | g
  · simp [setupEnvironmentVariables, hw, hg]
  · simp [setupEnvironmentVariables, hw, hg, hgi g hg]

end RollbarWizard

namespace RollbarWizard

set_option maxRecDepth 400000

/-! ### C2: the config-file phase rewrites fixed bytes -/

/-- Pointwise value of the file map after `createConfigFiles`. -/
theorem createConfigFiles_fileAt (tpl : Templates) (projectInfo : ProjectInfo) (s : ProjState)
    (q : List String) :
    (createConfigFiles tpl projectInfo s).1.fileAt q =
      (if q = ["rollbar.client.config." ++ (if projectInfo.hasTypescript then "ts" else "js")] then
        some tpl.clientConfig
       else if q = ["rollbar.edge.config." ++ (if projectInfo.hasTypescript then "ts" else "js")] then
        some tpl.edgeConfig
       else if q = ["rollbar.server.config." ++ (if projectInfo.hasTypescript then "ts" else "js")] then
        some tpl.serverConfig
       else s.fileAt q) := rfl

/-- After `createConfigFiles` the three wizard-owned files hold the template
bytes. -/
theorem createConfigFiles_post (tpl : Templates) (projectInfo : ProjectInfo) (s : ProjState) :
    (createConfigFiles tpl projectInfo s).1.fileAt
        ["rollbar.server.config." ++ (if projectInfo.hasTypescript then "ts" else "js")] =
      some tpl.serverConfig ∧
    (createConfigFiles tpl projectInfo s).1.fileAt
        ["rollbar.edge.config." ++ (if projectInfo.hasTypescript then "ts" else "js")] =
      some tpl.edgeConfig ∧
    (createConfigFiles tpl projectInfo s).1.fileAt
        ["rollbar.client.config." ++ (if projectInfo.hasTypescript then "ts" else "js")] =
      some tpl.clientConfig := by
  refine ⟨?_, ?_, ?_⟩ <;> rw [createConfigFiles_fileAt] <;>
    cases hts : projectInfo.hasTypescript <;> simp [hts]

/-- `createConfigFiles` writes nothing but its three files. -/
theorem createConfigFiles_fileAt_frame (tpl : Templates) (projectInfo : ProjectInfo)
    (s : ProjState) (q : List String)
    (h1 : q ≠ ["rollbar.server.config.ts"]) (h2 : q ≠ ["rollbar.server.config.js"])
    (h3 : q ≠ ["rollbar.edge.config.ts"]) (h4 : q ≠ ["rollbar.edge.config.js"])
    (h5 : q ≠ ["rollbar.client.config.ts"]) (h6 : q ≠ ["rollbar.client.config.js"]) :
    (createConfigFiles tpl projectInfo s).1.fileAt q = s.fileAt q := by
  rw [createConfigFiles_fileAt]
  cases hts : projectInfo.hasTypescript <;> simp [hts, h1, h2, h3, h4, h5, h6]

/-- `createConfigFiles` changes no directories. -/
theorem createConfigFiles_dirAt (tpl : Templates) (projectInfo : ProjectInfo) (s : ProjState)
    (q : List String) : (createConfigFiles tpl projectInfo s).1.dirAt q = s.dirAt q := rfl

/-- `createConfigFiles` does not touch the manifest. -/
theorem createConfigFiles_packageJson (tpl : Templates) (projectInfo : ProjectInfo)
    (s : ProjState) : (createConfigFiles tpl projectInfo s).1.packageJson = s.packageJson := rfl

/-- `createConfigFiles` does not touch `tsconfig.json`. -/
theorem createConfigFiles_tsconfig (tpl : Templates) (projectInfo : ProjectInfo)
    (s : ProjState) : (createConfigFiles tpl projectInfo s).1.tsconfig = s.tsconfig := rfl

/-- On a state already holding the three template files, `createConfigFiles`
does not change the state. -/
theorem createConfigFiles_self (tpl : Templates) (projectInfo : ProjectInfo) (s : ProjState)
    (h1 : s.fileAt
        ["rollbar.server.config." ++ (if projectInfo.hasTypescript then "ts" else "js")] =
      some tpl.serverConfig)
    (h2 : s.fileAt
        ["rollbar.edge.config." ++ (if projectInfo.hasTypescript then "ts" else "js")] =
      some tpl.edgeConfig)
    (h3 : s.fileAt
        ["rollbar.client.config." ++ (if projectInfo.hasTypescript then "ts" else "js")] =
      some tpl.clientConfig) :
    (createConfigFiles tpl projectInfo s).1 = s := by
  refine ProjState.ext' (fun q => ?_) (fun _ => rfl) rfl rfl
  rw [createConfigFiles_fileAt]
  by_cases e3 : q = ["rollbar.client.config." ++ (if projectInfo.hasTypescript then "ts" else "js")]
  · subst e3; rw [if_pos rfl, h3]
  · rw [if_neg e3]
    by_cases e2 : q = ["rollbar.edge.config." ++ (if projectInfo.hasTypescript then "ts" else "js")]
    · subst e2; rw [if_pos rfl, h2]
    · rw [if_neg e2]
      by_cases e1 : q = ["rollbar.server.config." ++ (if projectInfo.hasTypescript then "ts" else "js")]
      · subst e1; rw [if_pos rfl, h1]
      · rw [if_neg e1]

/-! ### C2: the instrumentation-hook phase -/

/-- The existing-hook probe of `setupInstrumentationHook` (wizard.ts:795-812):
with a root routing directory only the root hook files count, otherwise only
the `src/` hook files. -/
def instrFound (s : ProjState) : Bool :=
  if hasDirectoryPathFromRoot s ["pages"] || hasDirectoryPathFromRoot s ["app"] then
    (s.fileAt ["instrumentation.js"]).isSome || (s.fileAt ["instrumentation.ts"]).isSome
  else
    (s.fileAt ["src", "instrumentation.ts"]).isSome || (s.fileAt ["src", "instrumentation.js"]).isSome

/-- The location `setupInstrumentationHook` picks for a newly created hook. -/
def instrLoc (s : ProjState) : HookLocation :=
  if hasDirectoryPathFromRoot s ["pages"] || hasDirectoryPathFromRoot s ["app"] then .root
  else if hasDirectoryPathFromRoot s ["src"] then .src
  else .root

/-- The path `setupInstrumentationHook` writes a newly created hook to. -/
def instrPath (projectInfo : ProjectInfo) (s : ProjState) : List String :=
  match instrLoc s with
  | .root => ["instrumentation." ++ (if projectInfo.hasTypescript then "ts" else "js")]
  | .src => ["src", "instrumentation." ++ (if projectInfo.hasTypescript then "ts" else "js")]

/-- `setupInstrumentationHook`, re-expressed through the probe and target. -/
theorem setupInstrumentationHook_eq (tpl : Templates) (projectInfo : ProjectInfo)
    (confirm : Bool) (s : ProjState) :
    setupInstrumentationHook tpl projectInfo confirm s =
      if instrFound s = true then
        (s, [Outcome.info "Found existing instrumentation file. Please add the following code:",
             Outcome.prompted "Did you add the code to your instrumentation file?"],
         !confirm)
      else
        (writeFile (instrPath projectInfo s) (tpl.instrumentationHook (instrLoc s)) s,
         [Outcome.created (instrPath projectInfo s)], false) := by
  rcases hp : s.dirAt ["pages"] <;> rcases ha : s.dirAt ["app"] <;>
    rcases hs : s.dirAt ["src"] <;>
    rcases h1 : s.fileAt ["instrumentation.js"] <;>
    rcases h2 : s.fileAt ["instrumentation.ts"] <;>
    rcases h3 : s.fileAt ["src", "instrumentation.ts"] <;>
    rcases h4 : s.fileAt ["src", "instrumentation.js"] <;>
    simp [setupInstrumentationHook, instrFound, instrPath, instrLoc,
      hasDirectoryPathFromRoot, hp, ha, hs, h1, h2, h3, h4]

end RollbarWizard

namespace RollbarWizard

set_option maxRecDepth 400000

/-- A state on which the hook phase cannot change the state: the probe hits, or
the file it would create already holds the exact bytes it would write. -/
def instrStable (tpl : Templates) (projectInfo : ProjectInfo) (s : ProjState) : Prop :=
  instrFound s = true ∨
    s.fileAt (instrPath projectInfo s) =
      some (tpl.instrumentationHook (instrLoc s))

/-- On an `instrStable` state the hook phase leaves the state unchanged. -/
theorem setupInstrumentationHook_fst_self (tpl : Templates) (projectInfo : ProjectInfo)
    (confirm : Bool) (s : ProjState) (h : instrStable tpl projectInfo s) :
    (setupInstrumentationHook tpl projectInfo confirm s).1 = s := by
  rw [setupInstrumentationHook_eq]
  rcases hf : instrFound s with _ | _
  · rcases h with hf2 | hfile
    · rw [hf] at hf2; cases hf2
    · simp only [hf, Bool.false_eq_true, if_false]
      exact writeFile_self hfile
  · simp [hf]

/-- When the hook phase asks to abort, it has not changed the state. -/
theorem setupInstrumentationHook_abort_fst (tpl : Templates) (projectInfo : ProjectInfo)
    (confirm : Bool) (s : ProjState)
    (h : (setupInstrumentationHook tpl projectInfo confirm s).2.2 = true) :
    (setupInstrumentationHook tpl projectInfo confirm s).1 = s := by
  rw [setupInstrumentationHook_eq] at h ⊢
  rcases hf : instrFound s with _ | _
  · simp [hf] at h
  · simp [hf]

/-- One run of the hook phase lands in `instrStable`. -/
theorem instrStable_after (tpl : Templates) (projectInfo : ProjectInfo) (confirm : Bool)
    (s : ProjState) :
    instrStable tpl projectInfo ((setupInstrumentationHook tpl projectInfo confirm s).1) := by
  rw [setupInstrumentationHook_eq]
  rcases hf : instrFound s with _ | _
  · simp only [hf, Bool.false_eq_true, if_false]
    right
    have hloc : instrLoc (writeFile (instrPath projectInfo s)
        (tpl.instrumentationHook (instrLoc s)) s) = instrLoc s := rfl
    have hpath : instrPath projectInfo (writeFile (instrPath projectInfo s)
        (tpl.instrumentationHook (instrLoc s)) s) = instrPath projectInfo s := by
      rw [instrPath, hloc]
      rfl
    rw [hpath, hloc]
    simp
  · simp only [hf, if_true]
    left
    exact hf

/-- `instrStable` only depends on the instrumentation probes. -/
theorem instrStable_of_agree (tpl : Templates) (projectInfo : ProjectInfo) {t u : ProjState}
    (hd1 : u.dirAt ["pages"] = t.dirAt ["pages"]) (hd2 : u.dirAt ["app"] = t.dirAt ["app"])
    (hd3 : u.dirAt ["src"] = t.dirAt ["src"])
    (hf1 : u.fileAt ["instrumentation.js"] = t.fileAt ["instrumentation.js"])
    (hf2 : u.fileAt ["instrumentation.ts"] = t.fileAt ["instrumentation.ts"])
    (hf3 : u.fileAt ["src", "instrumentation.ts"] = t.fileAt ["src", "instrumentation.ts"])
    (hf4 : u.fileAt ["src", "instrumentation.js"] = t.fileAt ["src", "instrumentation.js"])
    (h : instrStable tpl projectInfo t) : instrStable tpl projectInfo u := by
  have hfound : instrFound u = instrFound t := by
    unfold instrFound hasDirectoryPathFromRoot
    rw [hd1, hd2, hf1, hf2, hf3, hf4]
  have hloc : instrLoc u = instrLoc t := by
    unfold instrLoc hasDirectoryPathFromRoot
    rw [hd1, hd2, hd3]
  have hpath : instrPath projectInfo u = instrPath projectInfo t := by
    unfold instrPath
    rw [hloc]
  have hfile : u.fileAt (instrPath projectInfo t) = t.fileAt (instrPath projectInfo t) := by
    unfold instrPath
    rcases instrLoc t with _ | _ <;> cases hts : projectInfo.hasTypescript <;>
      simp [hts, hf1, hf2, hf3, hf4]
  unfold instrStable at h ⊢
  rw [hfound, hpath, hloc, hfile]
  exact h

/-- The hook phase writes only the four instrumentation paths. -/
theorem setupInstrumentationHook_fileAt_frame (tpl : Templates) (projectInfo : ProjectInfo)
    (confirm : Bool) (s : ProjState) (q : List String)
    (h1 : q ≠ ["instrumentation.ts"]) (h2 : q ≠ ["instrumentation.js"])
    (h3 : q ≠ ["src", "instrumentation.ts"]) (h4 : q ≠ ["src", "instrumentation.js"]) :
    (setupInstrumentationHook tpl projectInfo confirm s).1.fileAt q = s.fileAt q := by
  rw [setupInstrumentationHook_eq]
  rcases hf : instrFound s with _ | _
  · simp only [hf, Bool.false_eq_true, if_false, writeFile_fileAt]
    have hne : q ≠ instrPath projectInfo s := by
      unfold instrPath
      rcases instrLoc s with _ | _ <;> cases hts : projectInfo.hasTypescript <;>
        simp [hts, h1, h2, h3, h4]
    simp [hne]
  · simp [hf]

/-- The hook phase changes no directories. -/
theorem setupInstrumentationHook_dirAt (tpl : Templates) (projectInfo : ProjectInfo)
    (confirm : Bool) (s : ProjState) (q : List String) :
    (setupInstrumentationHook tpl projectInfo confirm s).1.dirAt q = s.dirAt q := by
  rw [setupInstrumentationHook_eq]
  rcases hf : instrFound s with _ | _ <;> simp [hf]

/-- The hook phase does not touch the manifest. -/
theorem setupInstrumentationHook_packageJson (tpl : Templates) (projectInfo : ProjectInfo)
    (confirm : Bool) (s : ProjState) :
    (setupInstrumentationHook tpl projectInfo confirm s).1.packageJson = s.packageJson := by
  rw [setupInstrumentationHook_eq]
  rcases hf : instrFound s with _ | _ <;> simp [hf]

/-- The hook phase does not touch `tsconfig.json`. -/
theorem setupInstrumentationHook_tsconfig (tpl : Templates) (projectInfo : ProjectInfo)
    (confirm : Bool) (s : ProjState) :
    (setupInstrumentationHook tpl projectInfo confirm s).1.tsconfig = s.tsconfig := by
  rw [setupInstrumentationHook_eq]
  rcases hf : instrFound s with _ | _ <;> simp [hf]

end RollbarWizard

namespace RollbarWizard

set_option maxRecDepth 400000

/-- The app half changes no directories. -/
theorem setupAppGlobalError_dirAt_frame (tpl : Templates) (projectInfo : ProjectInfo)
    (s : ProjState) (q : List String) :
    (setupAppGlobalError tpl projectInfo s).1.dirAt q = s.dirAt q := by
  rcases hloc : getMaybeAppDirLocation s with _ | loc
  · simp [setupAppGlobalError, hloc]
  · rcases hex : globalErrorExists s loc with _ | _ <;>
      simp [setupAppGlobalError, hloc, hex]

/-- The pages half does not touch the manifest. -/
theorem setupPagesUnderscoreError_packageJson (tpl : Templates) (projectInfo : ProjectInfo)
    (s : ProjState) :
    (setupPagesUnderscoreError tpl projectInfo s).1.packageJson = s.packageJson := by
  rcases hloc : pagesLocationOf s with _ | loc
  · simp [setupPagesUnderscoreError, hloc]
  · rcases hex : underscoreErrorExists s loc with _ | _ <;>
      simp [setupPagesUnderscoreError, hloc, hex]

/-- The pages half does not touch `tsconfig.json`. -/
theorem setupPagesUnderscoreError_tsconfig (tpl : Templates) (projectInfo : ProjectInfo)
    (s : ProjState) :
    (setupPagesUnderscoreError tpl projectInfo s).1.tsconfig = s.tsconfig := by
  rcases hloc : pagesLocationOf s with _ | loc
  · simp [setupPagesUnderscoreError, hloc]
  · rcases hex : underscoreErrorExists s loc with _ | _ <;>
      simp [setupPagesUnderscoreError, hloc, hex]

/-- The app half does not touch the manifest. -/
theorem setupAppGlobalError_packageJson (tpl : Templates) (projectInfo : ProjectInfo)
    (s : ProjState) :
    (setupAppGlobalError tpl projectInfo s).1.packageJson = s.packageJson := by
  rcases hloc : getMaybeAppDirLocation s with _ | loc
  · simp [setupAppGlobalError, hloc]
  · rcases hex : globalErrorExists s loc with _ | _ <;>
      simp [setupAppGlobalError, hloc, hex]

/-- The app half does not touch `tsconfig.json`. -/
theorem setupAppGlobalError_tsconfig (tpl : Templates) (projectInfo : ProjectInfo)
    (s : ProjState) :
    (setupAppGlobalError tpl projectInfo s).1.tsconfig = s.tsconfig := by
  rcases hloc : getMaybeAppDirLocation s with _ | loc
  · simp [setupAppGlobalError, hloc]
  · rcases hex : globalErrorExists s loc with _ | _ <;>
      simp [setupAppGlobalError, hloc, hex]

/-- With every found pages location already scaffolded, the pages half is a
state-level identity. -/
theorem setupPagesUnderscoreError_self (tpl : Templates) (projectInfo : ProjectInfo)
    (s : ProjState)
    (h : ∀ loc, pagesLocationOf s = some loc → underscoreErrorExists s loc = true) :
    (setupPagesUnderscoreError tpl projectInfo s).1 = s := by
  rcases hloc : pagesLocationOf s with _ | loc
  · simp [setupPagesUnderscoreError, hloc]
  · simp [setupPagesUnderscoreError, hloc, h loc hloc]

/-- With every found app location already scaffolded, the app half is a
state-level identity. -/
theorem setupAppGlobalError_self (tpl : Templates) (projectInfo : ProjectInfo) (s : ProjState)
    (h : ∀ loc, getMaybeAppDirLocation s = some loc → globalErrorExists s loc = true) :
    (setupAppGlobalError tpl projectInfo s).1 = s := by
  rcases hloc : getMaybeAppDirLocation s with _ | loc
  · simp [setupAppGlobalError, hloc]
  · simp [setupAppGlobalError, hloc, h loc hloc]

/-- After the pages half, every found pages location is scaffolded. -/
theorem setupPagesUnderscoreError_post (tpl : Templates) (projectInfo : ProjectInfo)
    (s : ProjState) :
    ∀ loc, pagesLocationOf ((setupPagesUnderscoreError tpl projectInfo s).1) = some loc →
      underscoreErrorExists ((setupPagesUnderscoreError tpl projectInfo s).1) loc = true := by
  intro loc hloc
  have hdir : pagesLocationOf ((setupPagesUnderscoreError tpl projectInfo s).1) =
      pagesLocationOf s := by
    unfold pagesLocationOf
    rw [setupPagesUnderscoreError_dirAt_frame, setupPagesUnderscoreError_dirAt_frame]
  rw [hdir] at hloc
  rcases hex : underscoreErrorExists s loc with _ | _
  · have h2 := (setupPagesUnderscoreError_spec tpl projectInfo s loc hloc).2 hex
    rw [h2]
    rcases pagesLocationOf_shape s loc hloc with h | h <;> subst h <;>
      cases hts : projectInfo.hasTypescript <;> simp [underscoreErrorExists, hts]
  · have h2 := (setupPagesUnderscoreError_spec tpl projectInfo s loc hloc).1 hex
    rw [h2]
    exact hex

/-- After the app half, every found app location is scaffolded. -/
theorem setupAppGlobalError_post (tpl : Templates) (projectInfo : ProjectInfo) (s : ProjState) :
    ∀ loc, getMaybeAppDirLocation ((setupAppGlobalError tpl projectInfo s).1) = some loc →
      globalErrorExists ((setupAppGlobalError tpl projectInfo s).1) loc = true := by
  intro loc hloc
  have hdir : getMaybeAppDirLocation ((setupAppGlobalError tpl projectInfo s).1) =
      getMaybeAppDirLocation s := by
    unfold getMaybeAppDirLocation
    rw [setupAppGlobalError_dirAt_frame, setupAppGlobalError_dirAt_frame]
  rw [hdir] at hloc
  rcases hex : globalErrorExists s loc with _ | _
  · have h2 := (setupAppGlobalError_spec tpl projectInfo s loc hloc).2 hex
    rw [h2]
    rcases getMaybeAppDirLocation_shape s loc hloc with h | h <;> subst h <;>
      cases hts : projectInfo.hasTypescript <;> simp [globalErrorExists, hts]
  · have h2 := (setupAppGlobalError_spec tpl projectInfo s loc hloc).1 hex
    rw [h2]
    exact hex

end RollbarWizard

namespace RollbarWizard

set_option maxRecDepth 400000

/-- The error-page phase changes no directories. -/
theorem setupErrorPages_dirAt (tpl : Templates) (projectInfo : ProjectInfo) (rt : RouterType)
    (s : ProjState) (q : List String) :
    (setupErrorPages tpl projectInfo rt s).1.dirAt q = s.dirAt q := by
  rcases rt
  · rw [setupErrorPages_fst_app, setupAppGlobalError_dirAt_frame]
  · rw [setupErrorPages_fst_pages, setupPagesUnderscoreError_dirAt_frame]
  · rw [setupErrorPages_fst_both, setupAppGlobalError_dirAt_frame,
      setupPagesUnderscoreError_dirAt_frame]

/-- The error-page phase writes only its eight scaffold paths. -/
theorem setupErrorPages_fileAt_frame (tpl : Templates) (projectInfo : ProjectInfo)
    (rt : RouterType) (s : ProjState) (q : List String)
    (h1 : q ≠ ["pages", "_error.tsx"]) (h2 : q ≠ ["pages", "_error.jsx"])
    (h3 : q ≠ ["src", "pages", "_error.tsx"]) (h4 : q ≠ ["src", "pages", "_error.jsx"])
    (h5 : q ≠ ["app", "global-error.tsx"]) (h6 : q ≠ ["app", "global-error.jsx"])
    (h7 : q ≠ ["src", "app", "global-error.tsx"]) (h8 : q ≠ ["src", "app", "global-error.jsx"]) :
    (setupErrorPages tpl projectInfo rt s).1.fileAt q = s.fileAt q := by
  rcases rt
  · rw [setupErrorPages_fst_app, setupAppGlobalError_fileAt_frame _ _ _ _ h5 h6 h7 h8]
  · rw [setupErrorPages_fst_pages, setupPagesUnderscoreError_fileAt_frame _ _ _ _ h1 h2 h3 h4]
  · rw [setupErrorPages_fst_both, setupAppGlobalError_fileAt_frame _ _ _ _ h5 h6 h7 h8,
      setupPagesUnderscoreError_fileAt_frame _ _ _ _ h1 h2 h3 h4]

/-- The error-page phase does not touch the manifest. -/
theorem setupErrorPages_packageJson (tpl : Templates) (projectInfo : ProjectInfo)
    (rt : RouterType) (s : ProjState) :
    (setupErrorPages tpl projectInfo rt s).1.packageJson = s.packageJson := by
  rcases rt
  · rw [setupErrorPages_fst_app, setupAppGlobalError_packageJson]
  · rw [setupErrorPages_fst_pages, setupPagesUnderscoreError_packageJson]
  · rw [setupErrorPages_fst_both, setupAppGlobalError_packageJson,
      setupPagesUnderscoreError_packageJson]

/-- The error-page phase does not touch `tsconfig.json`. -/
theorem setupErrorPages_tsconfig (tpl : Templates) (projectInfo : ProjectInfo)
    (rt : RouterType) (s : ProjState) :
    (setupErrorPages tpl projectInfo rt s).1.tsconfig = s.tsconfig := by
  rcases rt
  · rw [setupErrorPages_fst_app, setupAppGlobalError_tsconfig]
  · rw [setupErrorPages_fst_pages, setupPagesUnderscoreError_tsconfig]
  · rw [setupErrorPages_fst_both, setupAppGlobalError_tsconfig,
      setupPagesUnderscoreError_tsconfig]

/-- A state on which the error-page phase cannot change the state: every
location probed under the active router halves is already scaffolded. -/
def errorPagesStable (rt : RouterType) (s : ProjState) : Prop :=
  (∀ loc, pagesLocationOf s = some loc → (rt = RouterType.pages ∨ rt = RouterType.both) →
    underscoreErrorExists s loc = true) ∧
  (∀ loc, getMaybeAppDirLocation s = some loc → (rt = RouterType.app ∨ rt = RouterType.both) →
    globalErrorExists s loc = true)

/-- On an `errorPagesStable` state the error-page phase leaves the state
unchanged. -/
theorem setupErrorPages_self (tpl : Templates) (projectInfo : ProjectInfo) (rt : RouterType)
    (s : ProjState) (h : errorPagesStable rt s) :
    (setupErrorPages tpl projectInfo rt s).1 = s := by
  obtain ⟨hp, ha⟩ := h
  rcases rt
  · rw [setupErrorPages_fst_app]
    exact setupAppGlobalError_self tpl projectInfo s
      (fun loc hl => ha loc hl (Or.inl rfl))
  · rw [setupErrorPages_fst_pages]
    exact setupPagesUnderscoreError_self tpl projectInfo s
      (fun loc hl => hp loc hl (Or.inl rfl))
  · rw [setupErrorPages_fst_both,
      setupPagesUnderscoreError_self tpl projectInfo s (fun loc hl => hp loc hl (Or.inr rfl))]
    exact setupAppGlobalError_self tpl projectInfo s
      (fun loc hl => ha loc hl (Or.inr rfl))

/-- One run of the error-page phase lands in `errorPagesStable`. -/
theorem errorPagesStable_after (tpl : Templates) (projectInfo : ProjectInfo) (rt : RouterType)
    (s : ProjState) :
    errorPagesStable rt ((setupErrorPages tpl projectInfo rt s).1) := by
  constructor
  · intro loc hloc hrt
    rcases hrt with h | h <;> subst h
    · rw [setupErrorPages_fst_pages] at hloc ⊢
      exact setupPagesUnderscoreError_post tpl projectInfo s loc hloc
    · rw [setupErrorPages_fst_both] at hloc ⊢
      have hdir : pagesLocationOf
          ((setupAppGlobalError tpl projectInfo (setupPagesUnderscoreError tpl projectInfo s).1).1) =
          pagesLocationOf ((setupPagesUnderscoreError tpl projectInfo s).1) := by
        unfold pagesLocationOf
        rw [setupAppGlobalError_dirAt_frame, setupAppGlobalError_dirAt_frame]
      rw [hdir] at hloc
      have hux := setupPagesUnderscoreError_post tpl projectInfo s loc hloc
      have heq : underscoreErrorExists
          ((setupAppGlobalError tpl projectInfo (setupPagesUnderscoreError tpl projectInfo s).1).1)
            loc =
          underscoreErrorExists ((setupPagesUnderscoreError tpl projectInfo s).1) loc := by
        rcases pagesLocationOf_shape _ loc hloc with h | h <;> subst h <;>
          unfold underscoreErrorExists <;>
          rw [setupAppGlobalError_fileAt_frame _ _ _ _ (by decide) (by decide) (by decide) (by decide),
            setupAppGlobalError_fileAt_frame _ _ _ _ (by decide) (by decide) (by decide) (by decide),
            setupAppGlobalError_fileAt_frame _ _ _ _ (by decide) (by decide) (by decide) (by decide),
            setupAppGlobalError_fileAt_frame _ _ _ _ (by decide) (by decide) (by decide) (by decide)]
      rw [heq]
      exact hux
  · intro loc hloc hrt
    rcases hrt with h | h <;> subst h
    · rw [setupErrorPages_fst_app] at hloc ⊢
      exact setupAppGlobalError_post tpl projectInfo _ loc hloc
    · rw [setupErrorPages_fst_both] at hloc ⊢
      exact setupAppGlobalError_post tpl projectInfo _ loc hloc

/-- `errorPagesStable` only depends on the router-directory probes and the
sixteen scaffold-variant paths. -/
theorem errorPagesStable_of_agree {rt : RouterType} {t u : ProjState}
    (hd1 : u.dirAt ["pages"] = t.dirAt ["pages"])
    (hd2 : u.dirAt ["src", "pages"] = t.dirAt ["src", "pages"])
    (hd3 : u.dirAt ["app"] = t.dirAt ["app"])
    (hd4 : u.dirAt ["src", "app"] = t.dirAt ["src", "app"])
    (hf : ∀ p, p ∈ [["pages", "_error.tsx"], ["pages", "_error.ts"],
        ["pages", "_error.jsx"], ["pages", "_error.js"],
        ["src", "pages", "_error.tsx"], ["src", "pages", "_error.ts"],
        ["src", "pages", "_error.jsx"], ["src", "pages", "_error.js"],
        ["app", "global-error.tsx"], ["app", "global-error.ts"],
        ["app", "global-error.jsx"], ["app", "global-error.js"],
        ["src", "app", "global-error.tsx"], ["src", "app", "global-error.ts"],
        ["src", "app", "global-error.jsx"], ["src", "app", "global-error.js"]] →
      u.fileAt p = t.fileAt p)
    (h : errorPagesStable rt t) : errorPagesStable rt u := by
  obtain ⟨hp, ha⟩ := h
  have hpl : pagesLocationOf u = pagesLocationOf t := by
    unfold pagesLocationOf
    rw [hd1, hd2]
  have hal : getMaybeAppDirLocation u = getMaybeAppDirLocation t := by
    unfold getMaybeAppDirLocation
    rw [hd3, hd4]
  constructor
  · intro loc hloc hrt
    rw [hpl] at hloc
    have hx := hp loc hloc hrt
    rcases pagesLocationOf_shape t loc hloc with h | h <;> subst h <;>
      unfold underscoreErrorExists at hx ⊢ <;>
      rw [hf _ (by decide), hf _ (by decide), hf _ (by decide), hf _ (by decide)] <;>
      exact hx
  · intro loc hloc hrt
    rw [hal] at hloc
    have hx := ha loc hloc hrt
    rcases getMaybeAppDirLocation_shape t loc hloc with h | h <;> subst h <;>
      unfold globalErrorExists at hx ⊢ <;>
      rw [hf _ (by decide), hf _ (by decide), hf _ (by decide), hf _ (by decide)] <;>
      exact hx

end RollbarWizard

namespace RollbarWizard

set_option maxRecDepth 400000

/-- The warn branch of wizard.ts:548 is unreachable for every content. -/
theorem nextConfigAction_ne_warn (c : String) :
    nextConfigAction c ≠ NextConfigAction.warnManual := by
  unfold nextConfigAction
  rcases hh : strContains c "productionBrowserSourceMaps" with _ | _ <;>
    rcases he : isEmptyNextConfig c with _ | _ <;> simp [hh, he]

/-- The CommonJS template written with source maps enabled is kept on a
re-inspection. -/
theorem nextConfigAction_cjsTemplate :
    nextConfigAction (getNextjsConfigCjsTemplate true) = NextConfigAction.keepExisting := by
  decide

/-- The ESM template written with source maps enabled is kept on a
re-inspection. -/
theorem nextConfigAction_mjsTemplate :
    nextConfigAction (getNextjsConfigMjsTemplate true) = NextConfigAction.keepExisting := by
  decide

/-- The TypeScript template written with source maps enabled is kept on a
re-inspection. -/
theorem nextConfigAction_tsTemplate :
    nextConfigAction (getNextjsConfigTsTemplate true) = NextConfigAction.keepExisting := by
  decide

/-- The configuration content `setupNextjsConfig` reads, in its
`js` > `mjs` > `ts` priority order (wizard.ts:506-520). -/
def nextConfigPriorityRead (s : ProjState) : Option String :=
  if (s.fileAt ["next.config.js"]).isSome then s.fileAt ["next.config.js"]
  else if (s.fileAt ["next.config.mjs"]).isSome then s.fileAt ["next.config.mjs"]
  else s.fileAt ["next.config.ts"]

/-- The Next.js-config phase writes only the three `next.config.*` paths. -/
theorem setupNextjsConfig_fileAt_frame (config : WizardConfig) (projectInfo : ProjectInfo)
    (s : ProjState) (q : List String)
    (h1 : q ≠ ["next.config.js"]) (h2 : q ≠ ["next.config.mjs"]) (h3 : q ≠ ["next.config.ts"]) :
    (setupNextjsConfig config projectInfo s).1.fileAt q = s.fileAt q := by
  simp only [setupNextjsConfig]
  repeat' split
  all_goals simp [h1, h2, h3]

/-- The Next.js-config phase changes no directories. -/
theorem setupNextjsConfig_dirAt (config : WizardConfig) (projectInfo : ProjectInfo)
    (s : ProjState) (q : List String) :
    (setupNextjsConfig config projectInfo s).1.dirAt q = s.dirAt q := by
  simp only [setupNextjsConfig]
  repeat' split
  all_goals rfl

/-- The Next.js-config phase does not touch the manifest. -/
theorem setupNextjsConfig_packageJson (config : WizardConfig) (projectInfo : ProjectInfo)
    (s : ProjState) :
    (setupNextjsConfig config projectInfo s).1.packageJson = s.packageJson := by
  simp only [setupNextjsConfig]
  repeat' split
  all_goals rfl

/-- The Next.js-config phase does not touch `tsconfig.json`. -/
theorem setupNextjsConfig_tsconfig (config : WizardConfig) (projectInfo : ProjectInfo)
    (s : ProjState) :
    (setupNextjsConfig config projectInfo s).1.tsconfig = s.tsconfig := by
  simp only [setupNextjsConfig]
  repeat' split
  all_goals rfl

/-- A state on which the Next.js-config phase cannot change the state: with
source maps enabled, some config file exists and the priority read is kept. -/
def nextCfgStable (config : WizardConfig) (s : ProjState) : Prop :=
  config.enableSourcemaps = true →
    ∃ c, nextConfigPriorityRead s = some c ∧
      nextConfigAction c = NextConfigAction.keepExisting

/-- On a `nextCfgStable` state the Next.js-config phase leaves the state
unchanged. -/
theorem setupNextjsConfig_self (config : WizardConfig) (projectInfo : ProjectInfo)
    (s : ProjState) (h : nextCfgStable config s) :
    (setupNextjsConfig config projectInfo s).1 = s := by
  rcases hsm : config.enableSourcemaps with _ | _
  · simp [setupNextjsConfig, hsm]
  · obtain ⟨c, hc, hk⟩ := h hsm
    unfold nextConfigPriorityRead at hc
    rcases hjs : s.fileAt ["next.config.js"] with _ | cjs
    · rcases hmjs : s.fileAt ["next.config.mjs"] with _ | cmjs
      · rcases hts2 : s.fileAt ["next.config.ts"] with _ | cts
        · rw [hjs, hmjs, hts2] at hc
          simp at hc
        · rw [hjs, hmjs, hts2] at hc
          simp at hc
          subst hc
          simp [setupNextjsConfig, hsm, hjs, hmjs, hts2, hk]
      · rw [hjs, hmjs] at hc
        simp at hc
        subst hc
        simp [setupNextjsConfig, hsm, hjs, hmjs, hk]
    · rw [hjs] at hc
      simp at hc
      subst hc
      simp [setupNextjsConfig, hsm, hjs, hk]

end RollbarWizard

namespace RollbarWizard

set_option maxRecDepth 400000

/-- `nextCfgStable` only depends on the three `next.config.*` files. -/
theorem nextCfgStable_of_agree (config : WizardConfig) {t u : ProjState}
    (hf1 : u.fileAt ["next.config.js"] = t.fileAt ["next.config.js"])
    (hf2 : u.fileAt ["next.config.mjs"] = t.fileAt ["next.config.mjs"])
    (hf3 : u.fileAt ["next.config.ts"] = t.fileAt ["next.config.ts"])
    (h : nextCfgStable config t) : nextCfgStable config u := by
  intro hsm
  obtain ⟨c, hc, hk⟩ := h hsm
  refine ⟨c, ?_, hk⟩
  unfold nextConfigPriorityRead at hc ⊢
  rw [hf1, hf2, hf3]
  exact hc

/-- One run of the Next.js-config phase lands in `nextCfgStable`. -/
theorem nextCfgStable_after (config : WizardConfig) (projectInfo : ProjectInfo) (s : ProjState) :
    nextCfgStable config ((setupNextjsConfig config projectInfo s).1) := by
  intro hsm
  rcases hjs : s.fileAt ["next.config.js"] with _ | cjs
  · rcases hmjs : s.fileAt ["next.config.mjs"] with _ | cmjs
    · rcases hts2 : s.fileAt ["next.config.ts"] with _ | cts
      · -- no config file: the phase creates one from the template
        rcases hpj : s.packageJson with _ | pj
        · rcases hts3 : projectInfo.hasTypescript with _ | _
          · refine ⟨getNextjsConfigCjsTemplate true, ?_, nextConfigAction_cjsTemplate⟩
            simp [setupNextjsConfig, nextConfigPriorityRead, hsm, hjs, hmjs, hts2,
              getPackageJson, hpj, hts3]
          · refine ⟨getNextjsConfigMjsTemplate true, ?_, nextConfigAction_mjsTemplate⟩
            simp [setupNextjsConfig, nextConfigPriorityRead, hsm, hjs, hmjs, hts2,
              getPackageJson, hpj, hts3]
        · rcases htm : pj.typeModule with _ | _ <;>
            rcases hts3 : projectInfo.hasTypescript with _ | _
          · refine ⟨getNextjsConfigCjsTemplate true, ?_, nextConfigAction_cjsTemplate⟩
            simp [setupNextjsConfig, nextConfigPriorityRead, hsm, hjs, hmjs, hts2,
              getPackageJson, hpj, htm, hts3]
          · refine ⟨getNextjsConfigMjsTemplate true, ?_, nextConfigAction_mjsTemplate⟩
            simp [setupNextjsConfig, nextConfigPriorityRead, hsm, hjs, hmjs, hts2,
              getPackageJson, hpj, htm, hts3]
          · refine ⟨getNextjsConfigMjsTemplate true, ?_, nextConfigAction_mjsTemplate⟩
            simp [setupNextjsConfig, nextConfigPriorityRead, hsm, hjs, hmjs, hts2,
              getPackageJson, hpj, htm, hts3]
          · refine ⟨getNextjsConfigMjsTemplate true, ?_, nextConfigAction_mjsTemplate⟩
            simp [setupNextjsConfig, nextConfigPriorityRead, hsm, hjs, hmjs, hts2,
              getPackageJson, hpj, htm, hts3]
      · -- only next.config.ts exists
        rcases hact : nextConfigAction cts with _ | _ | _
        · refine ⟨getNextjsConfigTsTemplate true, ?_, nextConfigAction_tsTemplate⟩
          simp [setupNextjsConfig, nextConfigPriorityRead, hsm, hjs, hmjs, hts2, hact]
        · exact absurd hact (nextConfigAction_ne_warn cts)
        · refine ⟨cts, ?_, hact⟩
          simp [setupNextjsConfig, nextConfigPriorityRead, hsm, hjs, hmjs, hts2, hact]
    · -- next.config.mjs is the priority read
      rcases hact : nextConfigAction cmjs with _ | _ | _
      · rcases hts2 : s.fileAt ["next.config.ts"] with _ | cts
        · refine ⟨getNextjsConfigMjsTemplate true, ?_, nextConfigAction_mjsTemplate⟩
          simp [setupNextjsConfig, nextConfigPriorityRead, hsm, hjs, hmjs, hts2, hact]
        · refine ⟨getNextjsConfigTsTemplate true, ?_, nextConfigAction_tsTemplate⟩
          simp [setupNextjsConfig, nextConfigPriorityRead, hsm, hjs, hmjs, hts2, hact]
      · exact absurd hact (nextConfigAction_ne_warn cmjs)
      · refine ⟨cmjs, ?_, hact⟩
        simp [setupNextjsConfig, nextConfigPriorityRead, hsm, hjs, hmjs, hact]
  · -- next.config.js is the priority read
    rcases hact : nextConfigAction cjs with _ | _ | _
    · rcases hmjs : s.fileAt ["next.config.mjs"] with _ | cmjs <;>
        rcases hts2 : s.fileAt ["next.config.ts"] with _ | cts
      · refine ⟨getNextjsConfigCjsTemplate true, ?_, nextConfigAction_cjsTemplate⟩
        simp [setupNextjsConfig, nextConfigPriorityRead, hsm, hjs, hmjs, hts2, hact]
      · refine ⟨getNextjsConfigTsTemplate true, ?_, nextConfigAction_tsTemplate⟩
        simp [setupNextjsConfig, nextConfigPriorityRead, hsm, hjs, hmjs, hts2, hact]
      · refine ⟨getNextjsConfigMjsTemplate true, ?_, nextConfigAction_mjsTemplate⟩
        simp [setupNextjsConfig, nextConfigPriorityRead, hsm, hjs, hmjs, hts2, hact]
      · refine ⟨getNextjsConfigTsTemplate true, ?_, nextConfigAction_tsTemplate⟩
        simp [setupNextjsConfig, nextConfigPriorityRead, hsm, hjs, hmjs, hts2, hact]
    · exact absurd hact (nextConfigAction_ne_warn cjs)
    · refine ⟨cjs, ?_, hact⟩
      simp [setupNextjsConfig, nextConfigPriorityRead, hsm, hjs, hact]

end RollbarWizard

namespace RollbarWizard

set_option maxRecDepth 400000

/-- Every pinned fallback version is a truthy (non-empty) string. -/
theorem jsTruthy_packageVersionFor (p : String) :
    jsTruthy (some (packageVersionFor p)) = true := by
  unfold packageVersionFor
  repeat' split
  all_goals decide

/-- One fold step of `addMissingDevDeps`. -/
theorem addMissingDevDeps_cons (p : String) (ps : List String) (dd : String → Option String) :
    addMissingDevDeps (p :: ps) dd =
      addMissingDevDeps ps
        (if jsTruthy (dd p) then dd
         else fun q => if q = p then some (packageVersionFor p) else dd q) := rfl

/-- `addMissingDevDeps` never turns a truthy entry falsy. -/
theorem addMissingDevDeps_mono (l : List String) (dd : String → Option String) (pkg : String)
    (h : jsTruthy (dd pkg) = true) : jsTruthy (addMissingDevDeps l dd pkg) = true := by
  induction l generalizing dd with
  | nil => exact h
  | cons p ps ih =>
    rw [addMissingDevDeps_cons]
    apply ih
    split
    · exact h
    · by_cases hqp : pkg = p
      · subst hqp
        simp [jsTruthy_packageVersionFor]
      · simp [hqp, h]

/-- `addMissingDevDeps` makes every listed package truthy. -/
theorem addMissingDevDeps_mem (l : List String) (dd : String → Option String) (pkg : String)
    (h : pkg ∈ l) : jsTruthy (addMissingDevDeps l dd pkg) = true := by
  induction l generalizing dd with
  | nil => cases h
  | cons p ps ih =>
    rw [addMissingDevDeps_cons]
    by_cases hqp : pkg = p
    · subst hqp
      apply addMissingDevDeps_mono
      split
      · next ht => exact ht
      · simp [jsTruthy_packageVersionFor]
    · have hmem : pkg ∈ ps := by
        rcases List.mem_cons.mp h with h1 | h1
        · exact absurd h1 hqp
        · exact h1
      exact ih _ hmem

/-- The missing-package probe only depends on the manifest. -/
theorem missingUploadPackages_congr (projectInfo : ProjectInfo) {t u : ProjState}
    (h : u.packageJson = t.packageJson) :
    missingUploadPackages projectInfo u = missingUploadPackages projectInfo t := by
  unfold missingUploadPackages getPackageJson
  rw [h]

/-- `ensureUploadDependencies`, with the manifest probe inlined. -/
theorem ensureUploadDependencies_eq (projectInfo : ProjectInfo) (s : ProjState) :
    ensureUploadDependencies projectInfo s =
      match getPackageJson s with
      | some pj =>
        if (missingUploadPackages projectInfo s).isEmpty then (s, [])
        else
          (setPackageJson
            { pj with
              devDependencies :=
                addMissingDevDeps (missingUploadPackages projectInfo s) pj.devDependencies } s,
           [Outcome.updatedFile ["package.json"]])
      | none => (s, []) := rfl

/-- The dependency step writes no files. -/
theorem ensureUploadDependencies_fileAt (projectInfo : ProjectInfo) (s : ProjState)
    (q : List String) :
    (ensureUploadDependencies projectInfo s).1.fileAt q = s.fileAt q := by
  unfold ensureUploadDependencies
  repeat' split
  all_goals rfl

/-- The dependency step changes no directories. -/
theorem ensureUploadDependencies_dirAt (projectInfo : ProjectInfo) (s : ProjState)
    (q : List String) :
    (ensureUploadDependencies projectInfo s).1.dirAt q = s.dirAt q := by
  unfold ensureUploadDependencies
  repeat' split
  all_goals rfl

/-- The dependency step does not touch `tsconfig.json`. -/
theorem ensureUploadDependencies_tsconfig (projectInfo : ProjectInfo) (s : ProjState) :
    (ensureUploadDependencies projectInfo s).1.tsconfig = s.tsconfig := by
  unfold ensureUploadDependencies
  repeat' split
  all_goals rfl

/-- Without a readable manifest, or with nothing missing, the dependency step
is a state-level identity. -/
theorem ensureUploadDependencies_self (projectInfo : ProjectInfo) (s : ProjState)
    (h : s.packageJson = none ∨ missingUploadPackages projectInfo s = []) :
    (ensureUploadDependencies projectInfo s).1 = s := by
  rcases hpj : s.packageJson with _ | pj
  · simp [ensureUploadDependencies_eq, getPackageJson, hpj]
  · rcases h with h | h
    · rw [hpj] at h; cases h
    · simp [ensureUploadDependencies_eq, getPackageJson, hpj, h]

/-- A sufficient condition for an empty missing-package list. -/
theorem missingUploadPackages_nil_of (projectInfo : ProjectInfo) (s : ProjState)
    (pj : PackageJson) (hpj : s.packageJson = some pj)
    (h : ∀ pkg, pkg ∈ requiredUploadPackages projectInfo →
      jsTruthy (pj.dependencies pkg) = true ∨ jsTruthy (pj.devDependencies pkg) = true) :
    missingUploadPackages projectInfo s = [] := by
  unfold missingUploadPackages
  rw [List.filter_eq_nil]
  intro pkg hmem
  rcases h pkg hmem with h1 | h1 <;> simp [getPackageJson, hpj, h1]

/-- A required package outside the missing list has a truthy entry. -/
theorem missingUploadPackages_spec (projectInfo : ProjectInfo) (s : ProjState)
    (pj : PackageJson) (pkg : String) (hpj : s.packageJson = some pj)
    (hreq : pkg ∈ requiredUploadPackages projectInfo)
    (hnot : pkg ∉ missingUploadPackages projectInfo s) :
    jsTruthy (pj.dependencies pkg) = true ∨ jsTruthy (pj.devDependencies pkg) = true := by
  unfold missingUploadPackages at hnot
  rcases h1 : jsTruthy (pj.dependencies pkg) with _ | _
  · rcases h2 : jsTruthy (pj.devDependencies pkg) with _ | _
    · exfalso
      apply hnot
      rw [List.mem_filter]
      exact ⟨hreq, by simp [getPackageJson, hpj, h1, h2]⟩
    · right; rfl
  · left; rfl

/-- After the dependency step every required package is present, and the
`scripts` map is unchanged. -/
theorem ensureUploadDependencies_post (projectInfo : ProjectInfo) (s : ProjState)
    (pj : PackageJson) (hpj : s.packageJson = some pj) :
    ∃ pj2, (ensureUploadDependencies projectInfo s).1.packageJson = some pj2 ∧
      pj2.scripts = pj.scripts ∧
      missingUploadPackages projectInfo ((ensureUploadDependencies projectInfo s).1) = [] := by
  by_cases hm : missingUploadPackages projectInfo s = []
  · refine ⟨pj, ?_, rfl, ?_⟩ <;> simp [ensureUploadDependencies_eq, getPackageJson, hpj, hm]
  · have hne : (missingUploadPackages projectInfo s).isEmpty = false := by
      rcases hmm : missingUploadPackages projectInfo s with _ | ⟨a, l⟩
      · exact absurd hmm hm
      · rfl
    have hstate : (ensureUploadDependencies projectInfo s).1 =
        setPackageJson
          { pj with
            devDependencies :=
              addMissingDevDeps (missingUploadPackages projectInfo s) pj.devDependencies } s := by
      simp [ensureUploadDependencies_eq, getPackageJson, hpj, hne]
    refine ⟨{ pj with
        devDependencies :=
          addMissingDevDeps (missingUploadPackages projectInfo s) pj.devDependencies },
      ?_, rfl, ?_⟩
    · rw [hstate]
      rfl
    · rw [hstate]
      apply missingUploadPackages_nil_of _ _ _ rfl
      intro pkg hreq
      by_cases hmem : pkg ∈ missingUploadPackages projectInfo s
      · right
        exact addMissingDevDeps_mem _ _ _ hmem
      · rcases missingUploadPackages_spec projectInfo s pj pkg hpj hreq hmem with h1 | h1
        · left; exact h1
        · right; exact addMissingDevDeps_mono _ _ _ h1

end RollbarWizard

namespace RollbarWizard

set_option maxRecDepth 400000

/-- A string with empty character data is the empty string. -/
theorem str_eq_empty_of_data {b : String} (h : b.data = []) : b = "" := by
  cases b
  simp_all

/-- Appending a non-empty string yields a non-empty string. -/
theorem strAppend_ne_empty_right (a b : String) (h : b ≠ "") : a ++ b ≠ "" := by
  intro hc
  apply h
  apply str_eq_empty_of_data
  have hdata : (a ++ b).data = [] := by rw [hc]
  rw [strData_append] at hdata
  exact (List.append_eq_nil.mp hdata).2

/-- `addPostbuildScript`, restated on the manifest probe. -/
theorem addPostbuildScript_eq (projectInfo : ProjectInfo) (s : ProjState) :
    addPostbuildScript projectInfo s =
      match getPackageJson s with
      | none => (s, [])
      | some finalPackageJson =>
        if !(jsTruthy (finalPackageJson.scripts "postbuild")) then
          (setPackageJson
            { finalPackageJson with
              scripts := fun q =>
                if q = "postbuild" then
                  some ((if projectInfo.hasTypescript then "tsx" else "node") ++
                    " scripts/upload-sourcemaps." ++
                    (if projectInfo.hasTypescript then "ts" else "js"))
                else finalPackageJson.scripts q } s,
           [Outcome.updatedFile ["package.json"]])
        else
          if !(strContains ((finalPackageJson.scripts "postbuild").getD "")
              "upload-sourcemaps") then
            (setPackageJson
              { finalPackageJson with
                scripts := fun q =>
                  if q = "postbuild" then
                    some (((finalPackageJson.scripts "postbuild").getD "") ++ " && " ++
                      ((if projectInfo.hasTypescript then "tsx" else "node") ++
                        " scripts/upload-sourcemaps." ++
                        (if projectInfo.hasTypescript then "ts" else "js")))
                  else finalPackageJson.scripts q } s,
             [Outcome.updatedFile ["package.json"]])
          else (s, [Outcome.info "postbuild script already includes source map upload"]) := rfl

/-- The `postbuild` step writes no files. -/
theorem addPostbuildScript_fileAt (projectInfo : ProjectInfo) (s : ProjState) (q : List String) :
    (addPostbuildScript projectInfo s).1.fileAt q = s.fileAt q := by
  rcases hpj : s.packageJson with _ | pj
  · simp [addPostbuildScript_eq, getPackageJson, hpj]
  · rcases hjt : jsTruthy (pj.scripts "postbuild") with _ | _
    · simp [addPostbuildScript_eq, getPackageJson, hpj, hjt]
    · rcases hct : strContains ((pj.scripts "postbuild").getD "") "upload-sourcemaps" with _ | _ <;>
        simp [addPostbuildScript_eq, getPackageJson, hpj, hjt, hct]

/-- The `postbuild` step changes no directories. -/
theorem addPostbuildScript_dirAt (projectInfo : ProjectInfo) (s : ProjState) (q : List String) :
    (addPostbuildScript projectInfo s).1.dirAt q = s.dirAt q := by
  rcases hpj : s.packageJson with _ | pj
  · simp [addPostbuildScript_eq, getPackageJson, hpj]
  · rcases hjt : jsTruthy (pj.scripts "postbuild") with _ | _
    · simp [addPostbuildScript_eq, getPackageJson, hpj, hjt]
    · rcases hct : strContains ((pj.scripts "postbuild").getD "") "upload-sourcemaps" with _ | _ <;>
        simp [addPostbuildScript_eq, getPackageJson, hpj, hjt, hct]

/-- The `postbuild` step does not touch `tsconfig.json`. -/
theorem addPostbuildScript_tsconfig (projectInfo : ProjectInfo) (s : ProjState) :
    (addPostbuildScript projectInfo s).1.tsconfig = s.tsconfig := by
  rcases hpj : s.packageJson with _ | pj
  · simp [addPostbuildScript_eq, getPackageJson, hpj]
  · rcases hjt : jsTruthy (pj.scripts "postbuild") with _ | _
    · simp [addPostbuildScript_eq, getPackageJson, hpj, hjt]
    · rcases hct : strContains ((pj.scripts "postbuild").getD "") "upload-sourcemaps" with _ | _ <;>
        simp [addPostbuildScript_eq, getPackageJson, hpj, hjt, hct]

/-- When the `postbuild` entry is truthy and already references the upload
script, the step is a state-level identity. -/
theorem addPostbuildScript_self (projectInfo : ProjectInfo) (s : ProjState)
    (h : ∀ pj, s.packageJson = some pj →
      jsTruthy (pj.scripts "postbuild") = true ∧
      strContains ((pj.scripts "postbuild").getD "") "upload-sourcemaps" = true) :
    (addPostbuildScript projectInfo s).1 = s := by
  rcases hpj : s.packageJson with _ | pj
  · simp [addPostbuildScript_eq, getPackageJson, hpj]
  · obtain ⟨h1, h2⟩ := h pj hpj
    simp [addPostbuildScript_eq, getPackageJson, hpj, h1, h2]

/-- The `postbuild` step only rewrites the `scripts` map, so the
missing-package probe is untouched. -/
theorem addPostbuildScript_missing (projectInfo : ProjectInfo) (s : ProjState) :
    missingUploadPackages projectInfo ((addPostbuildScript projectInfo s).1) =
      missingUploadPackages projectInfo s := by
  rcases hpj : s.packageJson with _ | pj
  · simp [addPostbuildScript_eq, getPackageJson, hpj]
  · rcases hjt : jsTruthy (pj.scripts "postbuild") with _ | _
    · simp [addPostbuildScript_eq, missingUploadPackages, getPackageJson, hpj, hjt]
    · rcases hct : strContains ((pj.scripts "postbuild").getD "") "upload-sourcemaps" with _ | _ <;>
        simp [addPostbuildScript_eq, missingUploadPackages, getPackageJson, hpj, hjt, hct]

/-- A missing manifest stays missing across the `postbuild` step. -/
theorem addPostbuildScript_packageJson_none (projectInfo : ProjectInfo) (s : ProjState)
    (h : s.packageJson = none) :
    (addPostbuildScript projectInfo s).1.packageJson = none := by
  simp [addPostbuildScript_eq, getPackageJson, h]

/-- The upload command always references the upload script and is non-empty. -/
theorem uploadCmd_facts (projectInfo : ProjectInfo) :
    strContains ((if projectInfo.hasTypescript then "tsx" else "node") ++
        " scripts/upload-sourcemaps." ++ (if projectInfo.hasTypescript then "ts" else "js"))
      "upload-sourcemaps" = true ∧
    ((if projectInfo.hasTypescript then "tsx" else "node") ++
        " scripts/upload-sourcemaps." ++ (if projectInfo.hasTypescript then "ts" else "js")) ≠
      "" := by
  cases hts : projectInfo.hasTypescript <;> exact ⟨by decide, by decide⟩

/-- After the `postbuild` step the entry is truthy and references the upload
script, while both dependency maps are untouched. -/
theorem addPostbuildScript_post (projectInfo : ProjectInfo) (s : ProjState) (pj : PackageJson)
    (hpj : s.packageJson = some pj) :
    ∃ pj2, (addPostbuildScript projectInfo s).1.packageJson = some pj2 ∧
      pj2.dependencies = pj.dependencies ∧ pj2.devDependencies = pj.devDependencies ∧
      jsTruthy (pj2.scripts "postbuild") = true ∧
      strContains ((pj2.scripts "postbuild").getD "") "upload-sourcemaps" = true := by
  obtain ⟨hcmd, hcmdne⟩ := uploadCmd_facts projectInfo
  rcases hjt : jsTruthy (pj.scripts "postbuild") with _ | _
  · refine ⟨{ pj with
        scripts := fun q =>
          if q = "postbuild" then
            some ((if projectInfo.hasTypescript then "tsx" else "node") ++
              " scripts/upload-sourcemaps." ++
              (if projectInfo.hasTypescript then "ts" else "js"))
          else pj.scripts q }, ?_, rfl, rfl, ?_, ?_⟩
    · simp [addPostbuildScript_eq, getPackageJson, hpj, hjt]
    · have hval : ({ pj with
          scripts := fun q =>
            if q = "postbuild" then
              some ((if projectInfo.hasTypescript then "tsx" else "node") ++
                " scripts/upload-sourcemaps." ++
                (if projectInfo.hasTypescript then "ts" else "js"))
            else pj.scripts q } : PackageJson).scripts "postbuild" =
          some ((if projectInfo.hasTypescript then "tsx" else "node") ++
            " scripts/upload-sourcemaps." ++
            (if projectInfo.hasTypescript then "ts" else "js")) := rfl
      rw [hval]
      simp [jsTruthy, hcmdne]
    · have hval : ({ pj with
          scripts := fun q =>
            if q = "postbuild" then
              some ((if projectInfo.hasTypescript then "tsx" else "node") ++
                " scripts/upload-sourcemaps." ++
                (if projectInfo.hasTypescript then "ts" else "js"))
            else pj.scripts q } : PackageJson).scripts "postbuild" =
          some ((if projectInfo.hasTypescript then "tsx" else "node") ++
            " scripts/upload-sourcemaps." ++
            (if projectInfo.hasTypescript then "ts" else "js")) := rfl
      rw [hval, Option.getD_some]
      exact hcmd
  · rcases hct : strContains ((pj.scripts "postbuild").getD "") "upload-sourcemaps" with _ | _
    · refine ⟨{ pj with
          scripts := fun q =>
            if q = "postbuild" then
              some (((pj.scripts "postbuild").getD "") ++ " && " ++
                ((if projectInfo.hasTypescript then "tsx" else "node") ++
                  " scripts/upload-sourcemaps." ++
                  (if projectInfo.hasTypescript then "ts" else "js")))
            else pj.scripts q }, ?_, rfl, rfl, ?_, ?_⟩
      · simp [addPostbuildScript_eq, getPackageJson, hpj, hjt, hct]
      · have hval : ({ pj with
            scripts := fun q =>
              if q = "postbuild" then
                some (((pj.scripts "postbuild").getD "") ++ " && " ++
                  ((if projectInfo.hasTypescript then "tsx" else "node") ++
                    " scripts/upload-sourcemaps." ++
                    (if projectInfo.hasTypescript then "ts" else "js")))
              else pj.scripts q } : PackageJson).scripts "postbuild" =
            some (((pj.scripts "postbuild").getD "") ++ " && " ++
              ((if projectInfo.hasTypescript then "tsx" else "node") ++
                " scripts/upload-sourcemaps." ++
                (if projectInfo.hasTypescript then "ts" else "js"))) := rfl
        rw [hval]
        have hne := strAppend_ne_empty_right ((pj.scripts "postbuild").getD "" ++ " && ") _ hcmdne
        simp [jsTruthy, hne]
      · have hval : ({ pj with
            scripts := fun q =>
              if q = "postbuild" then
                some (((pj.scripts "postbuild").getD "") ++ " && " ++
                  ((if projectInfo.hasTypescript then "tsx" else "node") ++
                    " scripts/upload-sourcemaps." ++
                    (if projectInfo.hasTypescript then "ts" else "js")))
              else pj.scripts q } : PackageJson).scripts "postbuild" =
            some (((pj.scripts "postbuild").getD "") ++ " && " ++
              ((if projectInfo.hasTypescript then "tsx" else "node") ++
                " scripts/upload-sourcemaps." ++
                (if projectInfo.hasTypescript then "ts" else "js"))) := rfl
        rw [hval, Option.getD_some]
        exact strContains_append_right _ _ _ hcmd
    · refine ⟨pj, ?_, rfl, rfl, hjt, hct⟩
      simp [addPostbuildScript_eq, getPackageJson, hpj, hjt, hct]

end RollbarWizard

namespace RollbarWizard

set_option maxRecDepth 400000

/-- The tsconfig step writes no files. -/
theorem excludeScriptsFromTypeChecking_fileAt (projectInfo : ProjectInfo) (s : ProjState)
    (q : List String) :
    (excludeScriptsFromTypeChecking projectInfo s).1.fileAt q = s.fileAt q := by
  unfold excludeScriptsFromTypeChecking
  repeat' split
  all_goals rfl

/-- The tsconfig step changes no directories. -/
theorem excludeScriptsFromTypeChecking_dirAt (projectInfo : ProjectInfo) (s : ProjState)
    (q : List String) :
    (excludeScriptsFromTypeChecking projectInfo s).1.dirAt q = s.dirAt q := by
  unfold excludeScriptsFromTypeChecking
  repeat' split
  all_goals rfl

/-- When `scripts` is already excluded (or nothing to do), the tsconfig step is
a state-level identity. -/
theorem excludeScriptsFromTypeChecking_self (projectInfo : ProjectInfo) (s : ProjState)
    (h : projectInfo.hasTypescript = true → ∀ excl, s.tsconfig = some (some excl) →
      excl.any (fun x => decide (x = "scripts")) = true) :
    (excludeScriptsFromTypeChecking projectInfo s).1 = s := by
  rcases hts : projectInfo.hasTypescript with _ | _
  · simp [excludeScriptsFromTypeChecking, hts]
  · rcases htc : s.tsconfig with _ | o
    · simp [excludeScriptsFromTypeChecking, hts, htc]
    · rcases o with _ | excl
      · simp [excludeScriptsFromTypeChecking, hts, htc]
      · simp [excludeScriptsFromTypeChecking, hts, htc, h hts excl htc]

/-- After the tsconfig step, `scripts` is excluded whenever an exclude list is
present on a TypeScript project. -/
theorem excludeScriptsFromTypeChecking_post (projectInfo : ProjectInfo) (s : ProjState) :
    projectInfo.hasTypescript = true → ∀ excl,
      (excludeScriptsFromTypeChecking projectInfo s).1.tsconfig = some (some excl) →
      excl.any (fun x => decide (x = "scripts")) = true := by
  intro hts excl hexcl
  rcases htc : s.tsconfig with _ | o
  · have hid : (excludeScriptsFromTypeChecking projectInfo s).1 = s := by
      simp [excludeScriptsFromTypeChecking, hts, htc]
    rw [hid, htc] at hexcl
    cases hexcl
  · rcases o with _ | excl0
    · have hid : (excludeScriptsFromTypeChecking projectInfo s).1 = s := by
        simp [excludeScriptsFromTypeChecking, hts, htc]
      rw [hid, htc] at hexcl
      simp at hexcl
    · by_cases hany : excl0.any (fun x => decide (x = "scripts")) = true
      · have hid : (excludeScriptsFromTypeChecking projectInfo s).1 = s := by
          simp [excludeScriptsFromTypeChecking, hts, htc, hany]
        rw [hid, htc] at hexcl
        simp only [Option.some.injEq] at hexcl
        subst hexcl
        exact hany
      · have hst : (excludeScriptsFromTypeChecking projectInfo s).1 =
            setTsconfig (some (some (excl0 ++ ["scripts"]))) s := by
          simp [excludeScriptsFromTypeChecking, hts, htc, hany]
        rw [hst] at hexcl
        simp only [setTsconfig_tsconfig, Option.some.injEq] at hexcl
        subst hexcl
        simp

/-- A state on which the whole upload-script phase cannot change the state. -/
def uploadStable (tpl : Templates) (projectInfo : ProjectInfo) (s : ProjState) : Prop :=
  s.dirAt ["scripts"] = true ∧
  s.fileAt ["scripts", "upload-sourcemaps." ++ (if projectInfo.hasTypescript then "ts" else "js")] =
    some tpl.uploadScript ∧
  (s.packageJson = none ∨
    (missingUploadPackages projectInfo s = [] ∧
      ∀ pj, s.packageJson = some pj →
        jsTruthy (pj.scripts "postbuild") = true ∧
        strContains ((pj.scripts "postbuild").getD "") "upload-sourcemaps" = true)) ∧
  (projectInfo.hasTypescript = true → ∀ excl, s.tsconfig = some (some excl) →
    excl.any (fun x => decide (x = "scripts")) = true)

/-- On an `uploadStable` state the upload-script phase leaves the state
unchanged. -/
theorem setupSourceMapUploadScript_self (tpl : Templates) (projectInfo : ProjectInfo)
    (s : ProjState) (h : uploadStable tpl projectInfo s) :
    (setupSourceMapUploadScript tpl projectInfo s).1 = s := by
  obtain ⟨hd, hf, hpj, hts⟩ := h
  have hm : s.packageJson = none ∨ missingUploadPackages projectInfo s = [] := by
    rcases hpj with h1 | ⟨h1, _⟩
    · exact Or.inl h1
    · exact Or.inr h1
  have hp : ∀ pj, s.packageJson = some pj →
      jsTruthy (pj.scripts "postbuild") = true ∧
      strContains ((pj.scripts "postbuild").getD "") "upload-sourcemaps" = true := by
    intro pj hpjeq
    rcases hpj with h1 | ⟨_, h2⟩
    · rw [h1] at hpjeq; cases hpjeq
    · exact h2 pj hpjeq
  have e1 : (if !(s.dirAt ["scripts"]) then mkdir ["scripts"] s else s) = s := by
    simp [hd]
  rw [setupSourceMapUploadScript_fst, e1, writeFile_self hf,
    ensureUploadDependencies_self projectInfo s hm, addPostbuildScript_self projectInfo s hp]
  exact excludeScriptsFromTypeChecking_self projectInfo s hts

end RollbarWizard

namespace RollbarWizard

set_option maxRecDepth 400000

/-- One run of the upload-script phase lands in `uploadStable`. -/
theorem uploadStable_after (tpl : Templates) (projectInfo : ProjectInfo) (s : ProjState) :
    uploadStable tpl projectInfo ((setupSourceMapUploadScript tpl projectInfo s).1) := by
  rw [setupSourceMapUploadScript_fst]
  set s1 := (if !(s.dirAt ["scripts"]) then mkdir ["scripts"] s else s) with hs1
  set s2 := writeFile
      ["scripts", "upload-sourcemaps." ++ (if projectInfo.hasTypescript then "ts" else "js")]
      tpl.uploadScript s1 with hs2
  set s3 := (ensureUploadDependencies projectInfo s2).1 with hs3
  set s4 := (addPostbuildScript projectInfo s3).1 with hs4
  have hd1 : s1.dirAt ["scripts"] = true := by
    rw [hs1]
    rcases hds : s.dirAt ["scripts"] with _ | _ <;> simp [hds]
  refine ⟨?_, ?_, ?_, ?_⟩
  · rw [excludeScriptsFromTypeChecking_dirAt, addPostbuildScript_dirAt,
      ensureUploadDependencies_dirAt, hs2, writeFile_dirAt]
    exact hd1
  · rw [excludeScriptsFromTypeChecking_fileAt, addPostbuildScript_fileAt,
      ensureUploadDependencies_fileAt, hs2]
    simp
  · rcases hpj2 : s2.packageJson with _ | pj
    · left
      have h3 : s3 = s2 := by
        rw [hs3]
        simp [ensureUploadDependencies_eq, getPackageJson, hpj2]
      have h4 : s4.packageJson = none := by
        rw [hs4]
        exact addPostbuildScript_packageJson_none projectInfo s3 (by rw [h3]; exact hpj2)
      rw [excludeScripts_packageJson_frame]
      exact h4
    · right
      obtain ⟨pj3, hpj3, hscr3, hmiss3⟩ := ensureUploadDependencies_post projectInfo s2 pj hpj2
      obtain ⟨pj4, hpj4, hdep4, hdev4, hjt4, hct4⟩ :=
        addPostbuildScript_post projectInfo s3 pj3 (by rw [hs3]; exact hpj3)
      constructor
      · have h1 : missingUploadPackages projectInfo
            (excludeScriptsFromTypeChecking projectInfo s4).1 =
            missingUploadPackages projectInfo s4 :=
          missingUploadPackages_congr _ (excludeScripts_packageJson_frame _ _)
        rw [h1, hs4, addPostbuildScript_missing]
        exact hmiss3
      · intro pj5 hpj5
        rw [excludeScripts_packageJson_frame, hs4, hpj4] at hpj5
        obtain rfl := Option.some.inj hpj5
        exact ⟨hjt4, hct4⟩
  · intro htsx excl hexcl
    exact excludeScriptsFromTypeChecking_post projectInfo s4 htsx excl hexcl

/-- The upload-script phase writes only the upload-helper paths. -/
theorem setupSourceMapUploadScript_fileAt_frame (tpl : Templates) (projectInfo : ProjectInfo)
    (s : ProjState) (q : List String)
    (h1 : q ≠ ["scripts", "upload-sourcemaps.ts"])
    (h2 : q ≠ ["scripts", "upload-sourcemaps.js"]) :
    (setupSourceMapUploadScript tpl projectInfo s).1.fileAt q = s.fileAt q := by
  rw [setupSourceMapUploadScript_fst, excludeScriptsFromTypeChecking_fileAt,
    addPostbuildScript_fileAt, ensureUploadDependencies_fileAt]
  have hne : q ≠ ["scripts", "upload-sourcemaps." ++
      (if projectInfo.hasTypescript then "ts" else "js")] := by
    cases hts : projectInfo.hasTypescript <;> simp [hts, h1, h2]
  rw [writeFile_fileAt, if_neg hne]
  split
  · rfl
  · rfl

/-- Besides creating `scripts/`, the upload-script phase changes no
directories. -/
theorem setupSourceMapUploadScript_dirAt_frame (tpl : Templates) (projectInfo : ProjectInfo)
    (s : ProjState) (q : List String) (h : q ≠ ["scripts"]) :
    (setupSourceMapUploadScript tpl projectInfo s).1.dirAt q = s.dirAt q := by
  rw [setupSourceMapUploadScript_fst, excludeScriptsFromTypeChecking_dirAt,
    addPostbuildScript_dirAt, ensureUploadDependencies_dirAt, writeFile_dirAt]
  split
  · rw [mkdir_dirAt, if_neg h]
  · rfl

end RollbarWizard

namespace RollbarWizard

set_option maxRecDepth 400000

/-- The phases `runNextjsWizard` runs after the instrumentation-hook phase
(error pages, environment variables, and — with source maps enabled — the
Next.js config and upload script), as one state transformer. -/
def postHookPhases (tpl : Templates) (config : WizardConfig) (projectInfo : ProjectInfo)
    (s : ProjState) : ProjState :=
  let s5 := (setupErrorPages tpl projectInfo config.routerType s).1
  let s6 := (setupEnvironmentVariables config s5).1
  let s7 := if config.enableSourcemaps then (setupNextjsConfig config projectInfo s6).1 else s6
  if config.enableSourcemaps then (setupSourceMapUploadScript tpl projectInfo s7).1 else s7

/-- `postHookPhases` writes only its fifteen known paths. -/
theorem postHookPhases_fileAt_frame (tpl : Templates) (config : WizardConfig)
    (projectInfo : ProjectInfo) (s : ProjState) (q : List String)
    (h1 : q ≠ ["pages", "_error.tsx"]) (h2 : q ≠ ["pages", "_error.jsx"])
    (h3 : q ≠ ["src", "pages", "_error.tsx"]) (h4 : q ≠ ["src", "pages", "_error.jsx"])
    (h5 : q ≠ ["app", "global-error.tsx"]) (h6 : q ≠ ["app", "global-error.jsx"])
    (h7 : q ≠ ["src", "app", "global-error.tsx"]) (h8 : q ≠ ["src", "app", "global-error.jsx"])
    (h9 : q ≠ [".env.local"]) (h10 : q ≠ [".gitignore"])
    (h11 : q ≠ ["next.config.js"]) (h12 : q ≠ ["next.config.mjs"]) (h13 : q ≠ ["next.config.ts"])
    (h14 : q ≠ ["scripts", "upload-sourcemaps.ts"])
    (h15 : q ≠ ["scripts", "upload-sourcemaps.js"]) :
    (postHookPhases tpl config projectInfo s).fileAt q = s.fileAt q := by
  unfold postHookPhases
  rcases hsm : config.enableSourcemaps with _ | _
  · simp only [hsm, Bool.false_eq_true, if_false]
    rw [setupEnvironmentVariables_fileAt_frame _ _ _ h9 h10,
      setupErrorPages_fileAt_frame _ _ _ _ _ h1 h2 h3 h4 h5 h6 h7 h8]
  · simp only [hsm, if_true]
    rw [setupSourceMapUploadScript_fileAt_frame _ _ _ _ h14 h15,
      setupNextjsConfig_fileAt_frame _ _ _ _ h11 h12 h13,
      setupEnvironmentVariables_fileAt_frame _ _ _ h9 h10,
      setupErrorPages_fileAt_frame _ _ _ _ _ h1 h2 h3 h4 h5 h6 h7 h8]

/-- Besides creating `scripts/`, `postHookPhases` changes no directories. -/
theorem postHookPhases_dirAt_frame (tpl : Templates) (config : WizardConfig)
    (projectInfo : ProjectInfo) (s : ProjState) (q : List String) (h : q ≠ ["scripts"]) :
    (postHookPhases tpl config projectInfo s).dirAt q = s.dirAt q := by
  unfold postHookPhases
  rcases hsm : config.enableSourcemaps with _ | _
  · simp only [hsm, Bool.false_eq_true, if_false]
    rw [setupEnvironmentVariables_dirAt, setupErrorPages_dirAt]
  · simp only [hsm, if_true]
    rw [setupSourceMapUploadScript_dirAt_frame _ _ _ _ h, setupNextjsConfig_dirAt,
      setupEnvironmentVariables_dirAt, setupErrorPages_dirAt]

/-- On a state stable for all four phases, `postHookPhases` is the identity. -/
theorem postHookPhases_self (tpl : Templates) (config : WizardConfig)
    (projectInfo : ProjectInfo) (s : ProjState)
    (hE : errorPagesStable config.routerType s) (hV : envStable config s)
    (hN : nextCfgStable config s)
    (hU : config.enableSourcemaps = true → uploadStable tpl projectInfo s) :
    postHookPhases tpl config projectInfo s = s := by
  unfold postHookPhases
  rcases hsm : config.enableSourcemaps with _ | _
  · simp only [hsm, Bool.false_eq_true, if_false]
    rw [setupErrorPages_self tpl projectInfo _ s hE]
    exact setupEnvironmentVariables_self config s hV
  · simp only [hsm, if_true]
    rw [setupErrorPages_self tpl projectInfo _ s hE,
      setupEnvironmentVariables_self config s hV,
      setupNextjsConfig_self config projectInfo s hN]
    exact setupSourceMapUploadScript_self tpl projectInfo s (hU hsm)

/-- `errorPagesStable` survives the environment phase. -/
theorem errorPagesStable_env (config : WizardConfig) (rt : RouterType) (s : ProjState)
    (h : errorPagesStable rt s) :
    errorPagesStable rt ((setupEnvironmentVariables config s).1) := by
  refine errorPagesStable_of_agree ?_ ?_ ?_ ?_ ?_ h
  · exact setupEnvironmentVariables_dirAt _ _ _
  · exact setupEnvironmentVariables_dirAt _ _ _
  · exact setupEnvironmentVariables_dirAt _ _ _
  · exact setupEnvironmentVariables_dirAt _ _ _
  · intro p hp
    fin_cases hp <;> exact setupEnvironmentVariables_fileAt_frame _ _ _ (by decide) (by decide)

/-- `errorPagesStable` survives the Next.js-config phase. -/
theorem errorPagesStable_nextCfg (config : WizardConfig) (projectInfo : ProjectInfo)
    (rt : RouterType) (s : ProjState) (h : errorPagesStable rt s) :
    errorPagesStable rt ((setupNextjsConfig config projectInfo s).1) := by
  refine errorPagesStable_of_agree ?_ ?_ ?_ ?_ ?_ h
  · exact setupNextjsConfig_dirAt _ _ _ _
  · exact setupNextjsConfig_dirAt _ _ _ _
  · exact setupNextjsConfig_dirAt _ _ _ _
  · exact setupNextjsConfig_dirAt _ _ _ _
  · intro p hp
    fin_cases hp <;>
      exact setupNextjsConfig_fileAt_frame _ _ _ _ (by decide) (by decide) (by decide)

/-- `errorPagesStable` survives the upload-script phase. -/
theorem errorPagesStable_upload (tpl : Templates) (projectInfo : ProjectInfo)
    (rt : RouterType) (s : ProjState) (h : errorPagesStable rt s) :
    errorPagesStable rt ((setupSourceMapUploadScript tpl projectInfo s).1) := by
  refine errorPagesStable_of_agree ?_ ?_ ?_ ?_ ?_ h
  · exact setupSourceMapUploadScript_dirAt_frame _ _ _ _ (by decide)
  · exact setupSourceMapUploadScript_dirAt_frame _ _ _ _ (by decide)
  · exact setupSourceMapUploadScript_dirAt_frame _ _ _ _ (by decide)
  · exact setupSourceMapUploadScript_dirAt_frame _ _ _ _ (by decide)
  · intro p hp
    fin_cases hp <;> exact setupSourceMapUploadScript_fileAt_frame _ _ _ _ (by decide) (by decide)

/-- `envStable` survives the Next.js-config phase. -/
theorem envStable_nextCfg (config : WizardConfig) (projectInfo : ProjectInfo) (s : ProjState)
    (h : envStable config s) :
    envStable config ((setupNextjsConfig config projectInfo s).1) := by
  obtain ⟨⟨e1, he, hfix⟩, hgi⟩ := h
  constructor
  · refine ⟨e1, ?_, hfix⟩
    rw [setupNextjsConfig_fileAt_frame _ _ _ _ (by decide) (by decide) (by decide)]
    exact he
  · intro g hg
    rw [setupNextjsConfig_fileAt_frame _ _ _ _ (by decide) (by decide) (by decide)] at hg
    exact hgi g hg

/-- `envStable` survives the upload-script phase. -/
theorem envStable_upload (config : WizardConfig) (tpl : Templates) (projectInfo : ProjectInfo)
    (s : ProjState) (h : envStable config s) :
    envStable config ((setupSourceMapUploadScript tpl projectInfo s).1) := by
  obtain ⟨⟨e1, he, hfix⟩, hgi⟩ := h
  constructor
  · refine ⟨e1, ?_, hfix⟩
    rw [setupSourceMapUploadScript_fileAt_frame _ _ _ _ (by decide) (by decide)]
    exact he
  · intro g hg
    rw [setupSourceMapUploadScript_fileAt_frame _ _ _ _ (by decide) (by decide)] at hg
    exact hgi g hg

/-- `nextCfgStable` survives the upload-script phase. -/
theorem nextCfgStable_upload (config : WizardConfig) (tpl : Templates)
    (projectInfo : ProjectInfo) (s : ProjState) (h : nextCfgStable config s) :
    nextCfgStable config ((setupSourceMapUploadScript tpl projectInfo s).1) := by
  refine nextCfgStable_of_agree config ?_ ?_ ?_ h <;>
    exact setupSourceMapUploadScript_fileAt_frame _ _ _ _ (by decide) (by decide)

/-- One run of `postHookPhases` lands in all four stability predicates. -/
theorem postHookPhases_stable (tpl : Templates) (config : WizardConfig)
    (projectInfo : ProjectInfo) (s : ProjState) :
    errorPagesStable config.routerType (postHookPhases tpl config projectInfo s) ∧
    envStable config (postHookPhases tpl config projectInfo s) ∧
    nextCfgStable config (postHookPhases tpl config projectInfo s) ∧
    (config.enableSourcemaps = true →
      uploadStable tpl projectInfo (postHookPhases tpl config projectInfo s)) := by
  unfold postHookPhases
  rcases hsm : config.enableSourcemaps with _ | _
  · simp only [hsm, Bool.false_eq_true, if_false]
    refine ⟨?_, ?_, ?_, ?_⟩
    · exact errorPagesStable_env config _ _ (errorPagesStable_after tpl projectInfo _ s)
    · exact envStable_after config _
    · intro h2
      rw [h2] at hsm
      cases hsm
    · exact fun h2 => h2.elim
  · simp only [hsm, if_true]
    refine ⟨?_, ?_, ?_, ?_⟩
    · exact errorPagesStable_upload tpl projectInfo _ _
        (errorPagesStable_nextCfg config projectInfo _ _
          (errorPagesStable_env config _ _ (errorPagesStable_after tpl projectInfo _ s)))
    · exact envStable_upload config tpl projectInfo _
        (envStable_nextCfg config projectInfo _ (envStable_after config _))
    · exact nextCfgStable_upload config tpl projectInfo _
        (nextCfgStable_after config projectInfo _)
    · exact fun _ => uploadStable_after tpl projectInfo _

/-- `instrStable` survives `postHookPhases`. -/
theorem instrStable_postHook (tpl : Templates) (config : WizardConfig)
    (projectInfo : ProjectInfo) (s : ProjState) (h : instrStable tpl projectInfo s) :
    instrStable tpl projectInfo (postHookPhases tpl config projectInfo s) := by
  refine instrStable_of_agree tpl projectInfo ?_ ?_ ?_ ?_ ?_ ?_ ?_ h <;>
    first
      | (apply postHookPhases_dirAt_frame; decide)
      | (apply postHookPhases_fileAt_frame <;> decide)

end RollbarWizard

namespace RollbarWizard

set_option maxRecDepth 400000

/-- The final state of the action phases: the token guard and a failed
mandatory install leave the state untouched, a declined instrumentation
confirmation aborts right after the hook phase, and otherwise the remaining
phases run in order. -/
theorem runNextjsWizardPhases_state_eq (tpl : Templates) (config : WizardConfig)
    (projectInfo : ProjectInfo) (installOk : String → Bool) (confirm : Bool) (s : ProjState) :
    (runNextjsWizardPhases tpl config projectInfo installOk confirm s).state =
      if !config.isVercel && (config.serverAccessToken = "" || config.clientAccessToken = "") then
        s
      else if !(installPackage "rollbar@^3.0.0-rc.1" config.skipInstall installOk).2 then s
      else if !(installPackage "@rollbar/react" config.skipInstall installOk).2 then s
      else if (setupInstrumentationHook tpl projectInfo confirm
          (createConfigFiles tpl projectInfo s).1).2.2 then
        (setupInstrumentationHook tpl projectInfo confirm
          (createConfigFiles tpl projectInfo s).1).1
      else if config.createExamplePage then
        (createExamplePage tpl projectInfo
          (postHookPhases tpl config projectInfo
            (setupInstrumentationHook tpl projectInfo confirm
              (createConfigFiles tpl projectInfo s).1).1)).1
      else
        postHookPhases tpl config projectInfo
          (setupInstrumentationHook tpl projectInfo confirm
            (createConfigFiles tpl projectInfo s).1).1 := by
  unfold runNextjsWizardPhases postHookPhases
  rcases hI1 : installPackage "rollbar@^3.0.0-rc.1" config.skipInstall installOk with ⟨o1, ok1⟩
  rcases hI2 : installPackage "@rollbar/react" config.skipInstall installOk with ⟨o2, ok2⟩
  rcases hC : createConfigFiles tpl projectInfo s with ⟨s3, o3⟩
  rcases hI : setupInstrumentationHook tpl projectInfo confirm s3 with ⟨s4, o4, ab4⟩
  rcases hg : (!config.isVercel &&
      (config.serverAccessToken = "" || config.clientAccessToken = "")) with _ | _ <;>
    rcases ok1 with _ | _ <;> rcases ok2 with _ | _ <;> rcases ab4 with _ | _ <;>
      rcases hex : config.createExamplePage with _ | _ <;>
        rcases hsm : config.enableSourcemaps with _ | _ <;>
          simp [hg, hI1, hI2, hC, hI, hex, hsm]

end RollbarWizard

namespace RollbarWizard

set_option maxRecDepth 400000

/-- The hook phase and everything after it preserve the three wizard-owned
Rollbar config files. -/
theorem configFiles_preserved (tpl : Templates) (config : WizardConfig)
    (projectInfo : ProjectInfo) (confirm : Bool) (t : ProjState) (p : List String)
    (hp : p = ["rollbar.server.config." ++ (if projectInfo.hasTypescript then "ts" else "js")] ∨
      p = ["rollbar.edge.config." ++ (if projectInfo.hasTypescript then "ts" else "js")] ∨
      p = ["rollbar.client.config." ++ (if projectInfo.hasTypescript then "ts" else "js")]) :
    (postHookPhases tpl config projectInfo
        ((setupInstrumentationHook tpl projectInfo confirm t).1)).fileAt p = t.fileAt p := by
  rcases hp with h | h | h <;> subst h <;> cases hts : projectInfo.hasTypescript <;>
    rw [postHookPhases_fileAt_frame _ _ _ _ _ (by decide) (by decide) (by decide) (by decide)
        (by decide) (by decide) (by decide) (by decide) (by decide) (by decide) (by decide)
        (by decide) (by decide) (by decide) (by decide),
      setupInstrumentationHook_fileAt_frame _ _ _ _ _ (by decide) (by decide) (by decide)
        (by decide)]

/-- C2 (amended): re-running the mutation engine with the same configuration
and fingerprint is a byte-level fixed point on the project state whenever the
optional example page is disabled — the second run rewrites only bytes that are
already there — although its outcome log is **not** all skips (the config-file
phase unconditionally reports its three writes; see the counterexample).  With
the example page enabled a second run can genuinely mutate the project (the
first run creates a `pages` directory that the second run's error-page phase
then scaffolds). -/
theorem runNextjsWizardPhases_state_idempotent (tpl : Templates) (config : WizardConfig)
    (projectInfo : ProjectInfo) (installOk : String → Bool) (confirm : Bool) (s : ProjState)
    (hex : config.createExamplePage = false) :
    (runNextjsWizardPhases tpl config projectInfo installOk confirm
        (runNextjsWizardPhases tpl config projectInfo installOk confirm s).state).state =
      (runNextjsWizardPhases tpl config projectInfo installOk confirm s).state := by
  rw [runNextjsWizardPhases_state_eq tpl config projectInfo installOk confirm
    (runNextjsWizardPhases tpl config projectInfo installOk confirm s).state]
  rcases hg : (!config.isVercel &&
      (config.serverAccessToken = "" || config.clientAccessToken = "")) with _ | _
  · rcases hk1 : (installPackage "rollbar@^3.0.0-rc.1" config.skipInstall installOk).2 with _ | _
    · simp [hg, hk1]
    · rcases hk2 : (installPackage "@rollbar/react" config.skipInstall installOk).2 with _ | _
      · simp [hg, hk1, hk2]
      · set S1 := (runNextjsWizardPhases tpl config projectInfo installOk confirm s).state
          with hS1def
        have hS1 : S1 =
            (if (setupInstrumentationHook tpl projectInfo confirm
                (createConfigFiles tpl projectInfo s).1).2.2 = true then
              (setupInstrumentationHook tpl projectInfo confirm
                (createConfigFiles tpl projectInfo s).1).1
            else
              postHookPhases tpl config projectInfo
                (setupInstrumentationHook tpl projectInfo confirm
                  (createConfigFiles tpl projectInfo s).1).1) := by
          rw [hS1def, runNextjsWizardPhases_state_eq]
          simp [hg, hk1, hk2, hex]
        rcases hab : (setupInstrumentationHook tpl projectInfo confirm
            (createConfigFiles tpl projectInfo s).1).2.2 with _ | _
        · -- the first run went through all phases
          simp only [hab, Bool.false_eq_true, if_false] at hS1
          have hstab := postHookPhases_stable tpl config projectInfo
            ((setupInstrumentationHook tpl projectInfo confirm
              (createConfigFiles tpl projectInfo s).1).1)
          rw [← hS1] at hstab
          obtain ⟨hE, hV, hN, hU⟩ := hstab
          have hiS1 : instrStable tpl projectInfo S1 := by
            rw [hS1]
            exact instrStable_postHook tpl config projectInfo _
              (instrStable_after tpl projectInfo confirm _)
          have hcf := createConfigFiles_post tpl projectInfo s
          have hcf1 : S1.fileAt
              ["rollbar.server.config." ++ (if projectInfo.hasTypescript then "ts" else "js")] =
              some tpl.serverConfig := by
            rw [hS1, configFiles_preserved tpl config projectInfo confirm _ _ (Or.inl rfl)]
            exact hcf.1
          have hcf2 : S1.fileAt
              ["rollbar.edge.config." ++ (if projectInfo.hasTypescript then "ts" else "js")] =
              some tpl.edgeConfig := by
            rw [hS1, configFiles_preserved tpl config projectInfo confirm _ _ (Or.inr (Or.inl rfl))]
            exact hcf.2.1
          have hcf3 : S1.fileAt
              ["rollbar.client.config." ++ (if projectInfo.hasTypescript then "ts" else "js")] =
              some tpl.clientConfig := by
            rw [hS1, configFiles_preserved tpl config projectInfo confirm _ _
              (Or.inr (Or.inr rfl))]
            exact hcf.2.2
          have hCid : (createConfigFiles tpl projectInfo S1).1 = S1 :=
            createConfigFiles_self tpl projectInfo S1 hcf1 hcf2 hcf3
          have hIid : (setupInstrumentationHook tpl projectInfo confirm S1).1 = S1 :=
            setupInstrumentationHook_fst_self tpl projectInfo confirm S1 hiS1
          simp only [hg, Bool.false_eq_true, if_false, hk1, hk2, Bool.not_true, hex, hCid, hIid]
          rcases hab2 : (setupInstrumentationHook tpl projectInfo confirm S1).2.2 with _ | _
          · simp only [hab2, Bool.false_eq_true, if_false]
            exact postHookPhases_self tpl config projectInfo S1 hE hV hN hU
          · simp only [hab2, if_true]
        · -- the first run aborted at the instrumentation prompt
          simp only [hab, if_true] at hS1
          have hS1A : S1 = (createConfigFiles tpl projectInfo s).1 := by
            rw [hS1]
            exact setupInstrumentationHook_abort_fst _ _ _ _ hab
          have hcf := createConfigFiles_post tpl projectInfo s
          have hCid : (createConfigFiles tpl projectInfo S1).1 = S1 := by
            rw [hS1A]
            exact createConfigFiles_self _ _ _ hcf.1 hcf.2.1 hcf.2.2
          simp only [hg, Bool.false_eq_true, if_false, hk1, hk2, Bool.not_true, hex, hCid]
          rw [hS1A]
          simp only [hab, if_true]
          exact setupInstrumentationHook_abort_fst _ _ _ _ hab
  · simp [hg]

/-- `baseConfig` with source maps disabled. -/
def c2Config : WizardConfig := { baseConfig with enableSourcemaps := false }

/-- An install oracle that always succeeds. -/
def c2InstallOk : String → Bool := fun _ => true

/-- C2 counterexample: on a second run with identical inputs the engine's
outcome log still contains a `created` report (`createConfigFiles`
unconditionally rewrites its three files), so the second run's outcomes are
**not** solely skip outcomes as claimed. -/
theorem runNextjsWizardPhases_second_run_not_all_skips :
    Outcome.created ["rollbar.server.config.js"] ∈
      (runNextjsWizardPhases tpl0 c2Config jsProjectInfo c2InstallOk true
        (runNextjsWizardPhases tpl0 c2Config jsProjectInfo c2InstallOk true
          emptyProj).state).outcomes ∧
    ((runNextjsWizardPhases tpl0 c2Config jsProjectInfo c2InstallOk true
        (runNextjsWizardPhases tpl0 c2Config jsProjectInfo c2InstallOk true
          emptyProj).state).outcomes.all Outcome.isSkipLike) = false := by
  exact ⟨by decide, by decide⟩

/-- Witness for C2's amended theorem at a concrete project. -/
theorem runNextjsWizardPhases_state_idempotent_witness :
    c2Config.createExamplePage = false ∧
    (runNextjsWizardPhases tpl0 c2Config jsProjectInfo c2InstallOk true
        (runNextjsWizardPhases tpl0 c2Config jsProjectInfo c2InstallOk true
          emptyProj).state).state =
      (runNextjsWizardPhases tpl0 c2Config jsProjectInfo c2InstallOk true emptyProj).state :=
  ⟨rfl, runNextjsWizardPhases_state_idempotent tpl0 c2Config jsProjectInfo c2InstallOk true
    emptyProj rfl⟩

end RollbarWizard
